import Mathlib

/-!
# spiderpool: the IP pool manager (`pkg/ippoolmanager/ippool_manager.go`)

A shallow embedding of `ipPoolManager` and of the objects it reads and writes,
followed by theorems about `AllocateIP`, `genRandomIP`, `ReleaseIP` and
`UpdateAllocatedIPs`.

Modelling conventions.
* A Go `map[string]V` is an association list read with first-match lookup
  (`GoMap`); `len` counts distinct keys, so every list denotes one map.
* A pointer that the code tests against `nil` is an `Option`
  (`Status.AllocatedIPs`, `Status.AllocatedIPCount`).  The required fields
  `Spec.IPVersion`, `Spec.Vlan`, `IPConfig.Address` and `IPConfig.Nic`, which the
  code dereferences without a test, are plain values.
* The `int64` counter of a pool is an `Int` that the code moves with `wrapInt64`:
  `*count++` stores `wrapInt64 (count + 1)` and `*count--` stores
  `wrapInt64 (count - 1)`, so the greatest `int64` is followed by the least.
* The Kubernetes client is a store of pool objects with an activity log.  What
  the code cannot decide itself (an injected store error, a write conflict, the
  value of `rand.Int()`, the answer of the pod manager) is read from an
  `Oracle`, indexed by the attempt number `i` of the retry loop.  No other writer
  changes the store during a call: a failed write, a conflict included, applies
  nothing.
* Of the back-off `time.Sleep(time.Duration(rand.Intn(1<<(i+1))) * unit)` between two
  attempts the delay is not modelled; the panic of `rand.Intn` on an argument that
  is not positive is (`backoffPanics`).
* A Go run-time panic is the result `Res.panic`.
-/

namespace Spiderpool

/-! ## Errors and results -/

/-- Errors returned by the manager: Kubernetes API errors, the two sentinel errors of
`pkg/constant` the manager uses (declared outside the source files; only their
identity matters here), and their `fmt.Errorf("%w, ...")` wrappings. -/
inductive Err where
  /-- API error with reason NotFound. -/
  | notFound
  /-- API error with reason Conflict (stale resource version). -/
  | conflict
  /-- Any other error of the store, of a helper or of a collaborator. -/
  | other (msg : String)
  /-- The sentinel `constant.ErrIPUsedOut`, as returned by `genRandomIP`. -/
  | ErrIPUsedOut
  /-- `ErrIPUsedOut` wrapped with "threshold of IP allocations(<=max) for IPPool name exceeded". -/
  | ipUsedOutThreshold (max : Int) (poolName : String)
  /-- `constant.ErrRetriesExhausted` wrapped with the number of retries and the subject. -/
  | ErrRetriesExhausted (times : Int) (subject : String)
  deriving DecidableEq, Repr

/-- The test `apierrors.IsConflict`. -/
def IsConflict : Err → Bool
  | .conflict => true
  | _ => false

/-- Result of a call: a value, a returned error, or a run-time panic. -/
inductive Res (α : Type) where
  | ok (a : α)
  | err (e : Err)
  | panic
  deriving DecidableEq, Repr

/-! ## Go maps -/

/-- A Go `map[string]V` as an association list; the first binding of a key is the
one the map holds. -/
abbrev GoMap (V : Type) := List (String × V)

namespace GoMap

variable {V : Type}

/-- Map read `m[k]` with the comma-ok result. -/
def lookup (m : GoMap V) (k : String) : Option V :=
  match m with
  | [] => none
  | (k', v) :: rest => if k' = k then some v else lookup rest k

/-- The builtin `delete(m, k)`. -/
def delete (m : GoMap V) (k : String) : GoMap V :=
  m.filter (fun e => decide (e.1 ≠ k))

/-- The assignment `m[k] = v`. -/
def insert (m : GoMap V) (k : String) (v : V) : GoMap V :=
  (k, v) :: delete m k

/-- The keys a `range` over the map visits, each once. -/
def keys (m : GoMap V) : List String :=
  (m.map Prod.fst).dedup

/-- The builtin `len(m)`: the number of keys. -/
def len (m : GoMap V) : Nat :=
  (keys m).length

end GoMap

/-! ## Objects -/

/-- The net.IP values, by their 128-bit value. -/
abbrev IP := Nat

/-- The fields of `corev1.Pod` the manager reads: `pod.Namespace`, `pod.Name` and
`pod.Spec.NodeName`. -/
structure Pod where
  Namespace : String
  Name : String
  NodeName : String
  deriving DecidableEq, Repr

/-- The kind and name of a pod's top owner, from `podmanager.GetPodTopController`. -/
structure PodTopController where
  Kind : String
  Name : String
  deriving DecidableEq, Repr

/-- The record `spiderpoolv1.PoolIPAllocation` (declared outside the source files), with
the fields the manager assigns. -/
structure PoolIPAllocation where
  ContainerID : String
  NIC : String
  Node : String
  Namespace : String
  Pod : String
  OwnerControllerType : String
  OwnerControllerName : String
  deriving DecidableEq, Repr

/-- Modelled from the spec: `spiderpoolv1.IPPoolSpec` is declared outside the source
files.  The fields are those the manager reads (`IPVersion`, `IPs`, `ExcludeIPs`,
`Vlan`) and the `subnet` and `gateway` of the spec's data model, which the helper
`genResIPConfig` reads. -/
structure IPPoolSpec where
  IPVersion : Int
  Subnet : String
  IPs : List String
  ExcludeIPs : List String
  Gateway : Option String
  Vlan : Int
  deriving DecidableEq, Repr

/-- The status sub-resource `spiderpoolv1.IPPoolStatus` (declared outside the source
files), with the fields the manager reads and writes; the map and the two counters
are pointers or nil-able in Go. -/
structure IPPoolStatus where
  AllocatedIPs : Option (GoMap PoolIPAllocation)
  AllocatedIPCount : Option Int
  AutoDesiredIPCount : Option Int
  deriving DecidableEq, Repr

/-- The object `spiderpoolv1.SpiderIPPool` (declared outside the source files): its
name, its spec and its status. -/
structure SpiderIPPool where
  Name : String
  Spec : IPPoolSpec
  Status : IPPoolStatus
  deriving DecidableEq, Repr

/-- Modelled from the spec: an item of `spiderpoolv1.SpiderReservedIPList`, declared
outside the source files: a reserved range list with its version tag.  The manager
only passes the list to `AssembleReservedIPs`. -/
structure SpiderReservedIP where
  Name : String
  IPVersion : Int
  IPs : List String
  deriving DecidableEq, Repr

/-- Modelled from the spec: the descriptor `models.IPConfig`, declared outside the
source files.  The manager reads `IPPool`, `Address` and `Nic`; the other fields are
those of the spec's `IPConfig`. -/
structure IPConfig where
  Address : String
  Nic : String
  IPPool : String
  Gateway : String
  Vlan : Int
  Version : Int
  deriving DecidableEq, Repr

/-- The pair `types.IPAndCID` of a release request (declared outside the source
files), with the two fields the manager reads. -/
structure IPAndCID where
  IP : String
  ContainerID : String
  deriving DecidableEq, Repr

/-- Modelled from the spec: the constant `constant.KindStatefulSet` is declared outside
the source files; it is the kind of the stable-identity controller. -/
def KindStatefulSet : String := "StatefulSet"

/-! ## Configuration, helpers taken as parameters, store -/

/-- The fields of `IPPoolManagerConfig` (declared outside the source files) the three
retry loops read; `ConflictRetryUnitTime` only scales the back-off delay. -/
structure IPPoolManagerConfig where
  MaxConflictRetries : Int
  MaxAllocatedIPs : Int
  deriving DecidableEq, Repr

/-- Functions the manager calls whose code is outside the two source files:
`reservedipmanager.AssembleReservedIPs`, `spiderpoolip.ParseIPRanges`,
`spiderpoolip.AssembleTotalIPs`, the method `net.IP.String` and `genResIPConfig`.
They are parameters of the model. -/
structure Helpers where
  AssembleReservedIPs : Int → List SpiderReservedIP → Except Err (List IP)
  ParseIPRanges : Int → List String → Except Err (List IP)
  AssembleTotalIPs : Int → List String → List String → Except Err (List IP)
  ipString : IP → String
  genResIPConfig : IP → IPPoolSpec → String → String → Except Err IPConfig

/-- Modelled from the spec: `spiderpoolip.IPsDiffSet` is not in the source files.  The
spec's `Diff(A, B)` is the set difference that keeps the order of `A`, with
`Diff(A, ∅) = dedup(A)`. -/
def IPsDiffSet (a b : List IP) : List IP :=
  (a.filter (fun ip => decide (ip ∉ b))).dedup

/-- Modelled from the spec: the limiter of `pkg/limiter`, which is not in the source
files.  It is a bounded admission queue with a wait deadline: `MaxQueueSize` and
`MaxWaitTime` (in seconds) are its configuration, `queued` is the number of callers
in the queue and `wait` the time a new caller would wait. -/
structure Limiter where
  MaxQueueSize : Nat
  MaxWaitTime : Nat
  queued : Nat
  wait : Nat
  deriving DecidableEq, Repr

/-- Modelled from the spec: the states in which `Acquire` of `pkg/limiter` denies
admission: the queue is full or the wait exceeds the deadline. -/
def Limiter.denies (l : Limiter) : Bool :=
  decide (l.MaxQueueSize ≤ l.queued) || decide (l.MaxWaitTime < l.wait)

/-- The manager `ipPoolManager`: its configuration, the helpers it calls and its field
`freeIPsLimiter`, which `NewIPPoolManager` builds with a queue of 1000 and a wait of
five seconds. -/
structure Manager where
  config : IPPoolManagerConfig
  lib : Helpers
  freeIPsLimiter : Limiter := { MaxQueueSize := 1000, MaxWaitTime := 5, queued := 0, wait := 0 }

/-- What the environment decides in attempt `i` of a retry loop. -/
structure Oracle where
  /-- An error injected into the `Get` of attempt `i`. -/
  getErr : Nat → Option Err
  /-- An error injected into the `List` of reserved IPs of attempt `i`. -/
  listErr : Nat → Option Err
  /-- The outcome of the status update of attempt `i`: an error, or `none` for a
  write that is applied. -/
  updateErr : Nat → Option Err
  /-- The value of `rand.Int()` in attempt `i`. -/
  randInt : Nat → Nat
  /-- The answer of `podManager.GetPodTopController` in attempt `i`. -/
  topController : Nat → Pod → Except Err PodTopController

/-- An operation issued to the store or to the pod manager. -/
inductive Op where
  | get (name : String)
  | list
  | topController (pod : Pod)
  | statusUpdate (pool : SpiderIPPool)
  deriving DecidableEq, Repr

/-- The test for a status write in the log. -/
def Op.isStatusUpdate : Op → Bool
  | .statusUpdate _ => true
  | _ => false

/-- The store behind `im.client` with the log of the operations issued so far. -/
structure World where
  pools : List SpiderIPPool
  reservedIPs : List SpiderReservedIP
  log : List Op
  deriving DecidableEq, Repr

/-- The pool object the store holds under a name. -/
def World.pool (w : World) (name : String) : Option SpiderIPPool :=
  w.pools.find? (fun p => decide (p.Name = name))

/-- The number of status writes issued so far. -/
def World.writes (w : World) : Nat :=
  w.log.countP Op.isStatusUpdate

/-- The objects of the store after the status of the object named as `pool` is
replaced by the status of `pool`. -/
def setStatus (pools : List SpiderIPPool) (pool : SpiderIPPool) : List SpiderIPPool :=
  pools.map (fun q => if q.Name = pool.Name then { q with Status := pool.Status } else q)

/-- The log ends with a status write. -/
def World.endsOnWrite (w : World) : Prop :=
  w.log.getLast?.map Op.isStatusUpdate = some true

instance (w : World) : Decidable w.endsOnWrite := by
  unfold World.endsOnWrite; infer_instance

/-- The call `im.client.Status().Update(ctx, pool)`: an injected error applies
nothing; otherwise the status of the stored object of that name is replaced. -/
def statusUpdate (o : Oracle) (i : Nat) (w : World) (pool : SpiderIPPool) : Option Err × World :=
  let w1 := { w with log := w.log ++ [Op.statusUpdate pool] }
  match o.updateErr i with
  | some e => (some e, w1)
  | none =>
    match w.pool pool.Name with
    | none => (some Err.notFound, w1)
    | some _ => (none, { w1 with pools := setStatus w.pools pool })

/-! ## The manager -/

/-- The method `GetIPPoolByName`. -/
def GetIPPoolByName (o : Oracle) (i : Nat) (w : World) (poolName : String) :
    Except Err SpiderIPPool × World :=
  let w1 := { w with log := w.log ++ [Op.get poolName] }
  match o.getErr i with
  | some e => (.error e, w1)
  | none =>
    match w.pool poolName with
    | none => (.error Err.notFound, w1)
    | some ipPool => (.ok ipPool, w1)

/-- The keys of a possibly nil allocation map, as a `range` visits them. -/
def usedKeys (m : Option (GoMap PoolIPAllocation)) : List String :=
  match m with
  | none => []
  | some m => GoMap.keys m

/-- The method `genRandomIP`. -/
def genRandomIP (im : Manager) (o : Oracle) (i : Nat) (w : World) (ipPool : SpiderIPPool) :
    Res IP × World :=
  let w1 := { w with log := w.log ++ [Op.list] }
  match o.listErr i with
  | some e => (.err e, w1)
  | none =>
    match im.lib.AssembleReservedIPs ipPool.Spec.IPVersion w.reservedIPs with
    | .error e => (.err e, w1)
    | .ok reservedIPs =>
      let used := usedKeys ipPool.Status.AllocatedIPs
      match im.lib.ParseIPRanges ipPool.Spec.IPVersion used with
      | .error e => (.err e, w1)
      | .ok usedIPs =>
        match im.lib.AssembleTotalIPs ipPool.Spec.IPVersion ipPool.Spec.IPs
            ipPool.Spec.ExcludeIPs with
        | .error e => (.err e, w1)
        | .ok totalIPs =>
          let availableIPs := IPsDiffSet totalIPs (reservedIPs ++ usedIPs)
          if availableIPs.length = 0 then (.err Err.ErrIPUsedOut, w1)
          else
            match availableIPs[o.randInt i % availableIPs.length]? with
            | none => (.panic, w1)
            | some ip => (.ok ip, w1)

/-- How the body of a `for` loop ends: with a `return`, with `continue` (or by
reaching its end), or with `break`.  `σ` holds the variables declared before the
loop. -/
inductive Ctl (ρ σ : Type) where
  | ret (r : Res ρ)
  | cont (s : σ)
  | brk (s : σ)

/-- The loop `for i := 0; i <= MaxConflictRetries; i++ { body }` followed by
`return finish(vars), nil`: `fuel` iterations remain and `i` is the loop variable. -/
def retryLoop {ρ σ : Type} (body : Nat → σ → World → Ctl ρ σ × World) (finish : σ → ρ) :
    Nat → Nat → σ → World → Res ρ × World
  | 0, _, s, w => (.ok (finish s), w)
  | fuel + 1, i, s, w =>
    match body i s w with
    | (.ret r, w1) => (r, w1)
    | (.cont s1, w1) => retryLoop body finish fuel (i + 1) s1 w1
    | (.brk s1, w1) => (.ok (finish s1), w1)

/-- The value of the Go expression `1<<(i+1)` where `i` is an `int` of 64 bits: the
shift wraps, so the value is `2^(i+1)` up to `i+1 = 62`, the least `int` for
`i+1 = 63` and zero from `i+1 = 64` on. -/
def backoffBound (i : Nat) : Int :=
  ((2 : Int) ^ (i + 1) + 2 ^ 63) % 2 ^ 64 - 2 ^ 63

/-- The back-off before the next attempt panics: `rand.Intn(n)` panics when `n ≤ 0`. -/
def backoffPanics (i : Nat) : Bool :=
  decide (backoffBound i ≤ 0)

/-- The greatest value of an `int64`. -/
def MaxInt64 : Int := 9223372036854775807

/-- The least value of an `int64`. -/
def MinInt64 : Int := -9223372036854775808

/-- The `int64` that holds the integer `x` after two's-complement wrap-around: the
value of `x` modulo `2^64` in the range from `MinInt64` to `MaxInt64`. -/
def wrapInt64 (x : Int) : Int :=
  (x + 9223372036854775808) % 18446744073709551616 - 9223372036854775808

/-- The variables `ipConfig` and `usedIPPool` of `AllocateIP`. -/
abbrev AllocVars := Option IPConfig × Option SpiderIPPool

/-- The record `AllocateIP` writes for the chosen address. -/
def newAllocation (containerID nic : String) (pod : Pod) (top : PodTopController) :
    PoolIPAllocation :=
  { ContainerID := containerID
    NIC := nic
    Node := pod.NodeName
    Namespace := pod.Namespace
    Pod := pod.Name
    OwnerControllerType := top.Kind
    OwnerControllerName := top.Name }

/-- The pool object of `AllocateIP` after the record is inserted and the `int64` counter
is incremented (a nil map is an empty map, a nil counter is zero). -/
def allocatedPool (ipPool : SpiderIPPool) (key : String) (allocation : PoolIPAllocation) :
    SpiderIPPool :=
  { ipPool with Status := { ipPool.Status with
      AllocatedIPs := some ((ipPool.Status.AllocatedIPs.getD []).insert key allocation)
      AllocatedIPCount := some (wrapInt64 (ipPool.Status.AllocatedIPCount.getD 0 + 1)) } }

/-- The body of the retry loop of `AllocateIP`, attempt `i`. -/
def AllocateIP.body (im : Manager) (o : Oracle) (poolName containerID nic : String) (pod : Pod)
    (i : Nat) (_ : AllocVars) (w : World) : Ctl AllocVars AllocVars × World :=
  match GetIPPoolByName o i w poolName with
  | (.error e, w1) => (.ret (.err e), w1)
  | (.ok ipPool, w1) =>
    match genRandomIP im o i w1 ipPool with
    | (.err e, w2) => (.ret (.err e), w2)
    | (.panic, w2) => (.ret .panic, w2)
    | (.ok allocatedIP, w2) =>
      let w3 := { w2 with log := w2.log ++ [Op.topController pod] }
      match o.topController i pod with
      | .error e => (.ret (.err e), w3)
      | .ok podTopController =>
        let allocation := newAllocation containerID nic pod podTopController
        let ipPool1 := allocatedPool ipPool (im.lib.ipString allocatedIP) allocation
        if wrapInt64 (ipPool.Status.AllocatedIPCount.getD 0 + 1) > im.config.MaxAllocatedIPs then
          (.ret (.err (Err.ipUsedOutThreshold im.config.MaxAllocatedIPs poolName)), w3)
        else
          match im.lib.genResIPConfig allocatedIP ipPool1.Spec nic poolName with
          | .error e => (.ret (.err e), w3)
          | .ok ipConfig =>
            match statusUpdate o i w3 ipPool1 with
            | (some e, w4) =>
              if !IsConflict e then (.ret (.err e), w4)
              else if (i : Int) = im.config.MaxConflictRetries then
                (.ret (.err (Err.ErrRetriesExhausted im.config.MaxConflictRetries poolName)), w4)
              else if backoffPanics i then (.ret .panic, w4)
              else (.cont (some ipConfig, some ipPool1), w4)
            | (none, w4) => (.brk (some ipConfig, some ipPool1), w4)

/-- The method `AllocateIP`. -/
def AllocateIP (im : Manager) (o : Oracle) (w : World) (poolName containerID nic : String)
    (pod : Pod) : Res AllocVars × World :=
  retryLoop (AllocateIP.body im o poolName containerID nic pod) id
    (im.config.MaxConflictRetries + 1).toNat 0 (none, none) w

/-- One step of the inner loop of `ReleaseIP` over the request list: the map, the
`int64` counter and the flag `needToRelease` after the pair `e`. -/
def releaseStep (s : GoMap PoolIPAllocation × Int × Bool) (e : IPAndCID) :
    GoMap PoolIPAllocation × Int × Bool :=
  match s.1.lookup e.IP with
  | some a =>
    if a.ContainerID = e.ContainerID then (s.1.delete e.IP, wrapInt64 (s.2.1 - 1), true) else s
  | none => s

/-- The inner loop of `ReleaseIP` over the request list, from `needToRelease = false`. -/
def releaseEntries (ipAndCIDs : List IPAndCID) (m : GoMap PoolIPAllocation) (count : Int) :
    GoMap PoolIPAllocation × Int × Bool :=
  ipAndCIDs.foldl releaseStep (m, count, false)

/-- The pool object of `ReleaseIP` after the inner loop (a nil map is an empty map, a
nil counter is zero). -/
def releasedPool (ipPool : SpiderIPPool) (ipAndCIDs : List IPAndCID) : SpiderIPPool :=
  let r := releaseEntries ipAndCIDs (ipPool.Status.AllocatedIPs.getD [])
    (ipPool.Status.AllocatedIPCount.getD 0)
  { ipPool with Status := { ipPool.Status with
      AllocatedIPs := some r.1, AllocatedIPCount := some r.2.1 } }

/-- The flag `needToRelease` of `ReleaseIP` after the inner loop. -/
def needToRelease (ipPool : SpiderIPPool) (ipAndCIDs : List IPAndCID) : Bool :=
  (releaseEntries ipAndCIDs (ipPool.Status.AllocatedIPs.getD [])
    (ipPool.Status.AllocatedIPCount.getD 0)).2.2

/-- The body of the retry loop of `ReleaseIP`, attempt `i`. -/
def ReleaseIP.body (im : Manager) (o : Oracle) (poolName : String) (ipAndCIDs : List IPAndCID)
    (i : Nat) (_ : Unit) (w : World) : Ctl Unit Unit × World :=
  match GetIPPoolByName o i w poolName with
  | (.error e, w1) => (.ret (.err e), w1)
  | (.ok ipPool, w1) =>
    if !needToRelease ipPool ipAndCIDs then (.ret (.ok ()), w1)
    else
      match statusUpdate o i w1 (releasedPool ipPool ipAndCIDs) with
      | (some e, w2) =>
        if !IsConflict e then (.ret (.err e), w2)
        else if (i : Int) = im.config.MaxConflictRetries then
          (.ret (.err (Err.ErrRetriesExhausted im.config.MaxConflictRetries poolName)), w2)
        else if backoffPanics i then (.ret .panic, w2)
        else (.cont (), w2)
      | (none, w2) => (.brk (), w2)

/-- The method `ReleaseIP`. -/
def ReleaseIP (im : Manager) (o : Oracle) (w : World) (poolName : String)
    (ipAndCIDs : List IPAndCID) : Res Unit × World :=
  retryLoop (ReleaseIP.body im o poolName ipAndCIDs) id
    (im.config.MaxConflictRetries + 1).toNat 0 () w

/-- The call `strings.Cut(s, "/")`, first result: the text before the first `/`, or
all of `s` when it has none. -/
def cutSlash (s : String) : String :=
  String.mk (s.data.takeWhile (fun c => decide (c ≠ '/')))

/-- The map read `pool.Status.AllocatedIPs[k]` on a possibly nil map. -/
def lookupAllocated (pool : SpiderIPPool) (k : String) : Option PoolIPAllocation :=
  match pool.Status.AllocatedIPs with
  | none => none
  | some m => m.lookup k

/-- The record `UpdateAllocatedIPs` writes. -/
def reboundAllocation (containerID : String) (pod : Pod) (oldIPConfig : IPConfig) :
    PoolIPAllocation :=
  { ContainerID := containerID
    NIC := oldIPConfig.Nic
    Node := pod.NodeName
    Namespace := pod.Namespace
    Pod := pod.Name
    OwnerControllerType := KindStatefulSet
    OwnerControllerName := "" }

/-- The pool object of `UpdateAllocatedIPs` after the assignment of the record into
the map `m` of the pool. -/
def reboundPool (pool : SpiderIPPool) (m : GoMap PoolIPAllocation) (containerID : String)
    (pod : Pod) (oldIPConfig : IPConfig) : SpiderIPPool :=
  { pool with Status := { pool.Status with
      AllocatedIPs := some (m.insert (cutSlash oldIPConfig.Address)
        (reboundAllocation containerID pod oldIPConfig)) } }

/-- The body of the retry loop of `UpdateAllocatedIPs`, attempt `i`.  The assignment
into a nil map panics.  After a successful write the body reaches its end and the
loop goes on with the next iteration: there is no `break`. -/
def UpdateAllocatedIPs.body (im : Manager) (o : Oracle) (containerID : String) (pod : Pod)
    (oldIPConfig : IPConfig) (i : Nat) (_ : Unit) (w : World) : Ctl Unit Unit × World :=
  match GetIPPoolByName o i w oldIPConfig.IPPool with
  | (.error e, w1) => (.ret (.err e), w1)
  | (.ok pool, w1) =>
    let singleIP := cutSlash oldIPConfig.Address
    if (lookupAllocated pool singleIP).map (fun a => decide (a.ContainerID = containerID))
        = some true then
      (.ret (.ok ()), w1)
    else
      match pool.Status.AllocatedIPs with
      | none => (.ret .panic, w1)
      | some m =>
        match statusUpdate o i w1 (reboundPool pool m containerID pod oldIPConfig) with
        | (some e, w2) =>
          if !IsConflict e then (.ret (.err e), w2)
          else if (i : Int) = im.config.MaxConflictRetries then
            (.ret (.err (Err.ErrRetriesExhausted im.config.MaxConflictRetries singleIP)), w2)
          else if backoffPanics i then (.ret .panic, w2)
          else (.cont (), w2)
        | (none, w2) => (.cont (), w2)

/-- The method `UpdateAllocatedIPs`. -/
def UpdateAllocatedIPs (im : Manager) (o : Oracle) (w : World) (containerID : String) (pod : Pod)
    (oldIPConfig : IPConfig) : Res Unit × World :=
  retryLoop (UpdateAllocatedIPs.body im o containerID pod oldIPConfig) id
    (im.config.MaxConflictRetries + 1).toNat 0 () w

/-- A Go `map[types.Vlan][]string` as an association list; the first binding of a key
is the one the map holds. -/
abbrev VlanMap := List (Int × List String)

/-- The map read `m[v]`: the nil slice for a key that is absent. -/
def VlanMap.get (m : VlanMap) (v : Int) : List String :=
  match m with
  | [] => []
  | (v1, names) :: rest => if v1 = v then names else VlanMap.get rest v

/-- The assignment `m[v] = names`. -/
def VlanMap.set (m : VlanMap) (v : Int) (names : List String) : VlanMap :=
  (v, names) :: m.filter (fun e => decide (e.1 ≠ v))

/-- The keys of the map, each once. -/
def VlanMap.keys (m : VlanMap) : List Int :=
  (m.map Prod.fst).dedup

/-- The builtin `len(m)`: the number of keys. -/
def VlanMap.len (m : VlanMap) : Nat :=
  (VlanMap.keys m).length

/-- The loop of `CheckVlanSame` over the pool names: `k` is the number of names
already handled (the `Get` of a name is the `k`-th of the call) and `vlanToPools`
the map built so far. -/
def CheckVlanSame.loop (o : Oracle) : List String → Nat → VlanMap → World → Res VlanMap × World
  | [], _, vlanToPools, w => (.ok vlanToPools, w)
  | poolName :: rest, k, vlanToPools, w =>
    match GetIPPoolByName o k w poolName with
    | (.error e, w1) => (.err e, w1)
    | (.ok ipPool, w1) =>
      CheckVlanSame.loop o rest (k + 1)
        (vlanToPools.set ipPool.Spec.Vlan (vlanToPools.get ipPool.Spec.Vlan ++ [poolName])) w1

/-- The method `CheckVlanSame`. -/
def CheckVlanSame (o : Oracle) (w : World) (poolNameList : List String) :
    Res (VlanMap × Bool) × World :=
  match CheckVlanSame.loop o poolNameList 0 [] w with
  | (.err e, w1) => (.err e, w1)
  | (.panic, w1) => (.panic, w1)
  | (.ok vlanToPools, w1) =>
    if vlanToPools.len > 1 then (.ok (vlanToPools, false), w1)
    else (.ok (vlanToPools, true), w1)

/-- The vlan of the pool the store holds under a name. -/
def vlanOf (w : World) (name : String) : Option Int :=
  (w.pool name).map (fun p => p.Spec.Vlan)

/-- Ledger consistency of a pool object: the counter equals the number of keys of
the allocation map (a nil counter reads as zero, a nil map as empty). -/
def LedgerConsistent (p : SpiderIPPool) : Prop :=
  p.Status.AllocatedIPCount.getD 0 = ((p.Status.AllocatedIPs.getD []).len : Int)

instance (p : SpiderIPPool) : Decidable (LedgerConsistent p) := by
  unfold LedgerConsistent; infer_instance

/-- The pair `e` of a release request matches the map: its IP is a key and the record
under that key has the container ID of the pair. -/
def Matches (m : GoMap PoolIPAllocation) (e : IPAndCID) : Prop :=
  (m.lookup e.IP).map PoolIPAllocation.ContainerID = some e.ContainerID

instance (m : GoMap PoolIPAllocation) (e : IPAndCID) : Decidable (Matches m e) := by
  unfold Matches; infer_instance

/-- The distinct keys named by the matching pairs of a release request. -/
def removedKeys (m : GoMap PoolIPAllocation) (ipAndCIDs : List IPAndCID) : List String :=
  ((ipAndCIDs.filter (fun e => decide (Matches m e))).map IPAndCID.IP).dedup

/-! ## The retry contract -/

/-- What one attempt `out = body i s w` of a retry loop does about writing: either it
returns without a status write, or it issues exactly one status write as its last
operation and reacts to the outcome: a non-conflict error is returned, a conflict
is `exhausted` in the last iteration and otherwise is followed by the back-off
(which may panic) and `continue`, a success ends the attempt without a `return`. -/
def RetryProtocol {ρ σ : Type} (N : Int) (o : Oracle) (exhausted : Err) (i : Nat) (w : World)
    (out : Ctl ρ σ × World) : Prop :=
  (out.2.writes = w.writes ∧ ¬ out.2.endsOnWrite ∧ out.2.pools = w.pools ∧ ∃ r, out.1 = .ret r)
  ∨ (out.2.writes = w.writes + 1 ∧ out.2.endsOnWrite ∧
    ((∃ e, o.updateErr i = some e ∧ IsConflict e = false ∧ out.2.pools = w.pools ∧
        out.1 = .ret (.err e))
    ∨ (∃ e, o.updateErr i = some e ∧ IsConflict e = true ∧ out.2.pools = w.pools ∧
        (i : Int) = N ∧ out.1 = .ret (.err exhausted))
    ∨ (∃ e, o.updateErr i = some e ∧ IsConflict e = true ∧ out.2.pools = w.pools ∧
        (i : Int) ≠ N ∧ backoffPanics i = true ∧ out.1 = .ret .panic)
    ∨ (∃ e s1, o.updateErr i = some e ∧ IsConflict e = true ∧ out.2.pools = w.pools ∧
        (i : Int) ≠ N ∧ backoffPanics i = false ∧ out.1 = .cont s1)
    ∨ (∃ s1, o.updateErr i = none ∧ (out.1 = .cont s1 ∨ out.1 = .brk s1))))

/-- The retry contract of a call that starts in world `w` and ends with `out`, for
the retry budget `N`:
* the call issues at most `N + 1` status writes;
* when `N ≤ 62`, every status write meets a conflict and the call ends on a status
  write, it has issued exactly `N + 1` of them and fails with `exhausted`;
* when the write of attempt `j` is reached and fails with a non-conflict error `e`,
  the call returns `e` and that write is its last operation. -/
def BoundedRetry {ρ : Type} (N : Int) (o : Oracle) (exhausted : Err) (w : World)
    (out : Res ρ × World) : Prop :=
  out.2.writes ≤ w.writes + (N + 1).toNat
  ∧ (N ≤ 62 → (∀ i, o.updateErr i = some Err.conflict) → out.2.endsOnWrite →
      out.2.writes = w.writes + (N + 1).toNat ∧ out.1 = .err exhausted)
  ∧ (∀ j e, o.updateErr j = some e → IsConflict e = false → w.writes + j + 1 ≤ out.2.writes →
      out.1 = .err e ∧ out.2.writes = w.writes + j + 1 ∧ out.2.endsOnWrite)

/-- An environment in which every status write meets a conflict. -/
def conflicts : Oracle :=
  { getErr := fun _ => none
    listErr := fun _ => none
    updateErr := fun _ => some Err.conflict
    randInt := fun _ => 4
    topController := fun _ _ => .ok { Kind := "Deployment", Name := "web" } }

/-! ## A worked configuration

The pool of the spec's scenarios: addresses `10.0.0.n`, helpers that read and
write that text form. -/

/-- The address `10.0.0.n` from its text. -/
def exParse (s : String) : Option IP :=
  let cs := s.data
  if cs.take 7 = "10.0.0.".data ∧ 7 < cs.length ∧ (cs.drop 7).all Char.isDigit = true then
    some ((cs.drop 7).foldl (fun n c => 10 * n + (c.toNat - 48)) 0)
  else none

/-- A list of single addresses from their texts. -/
def exParseAll (ss : List String) : Except Err (List IP) :=
  match ss.mapM exParse with
  | some ips => .ok ips
  | none => .error (Err.other "malformed range")

/-- Helpers for the worked configuration: every range is a single address. -/
def exLib : Helpers where
  AssembleReservedIPs := fun v rs =>
    exParseAll ((rs.filter (fun r => decide (r.IPVersion = v))).flatMap (fun r => r.IPs))
  ParseIPRanges := fun _ ss => exParseAll ss
  AssembleTotalIPs := fun _ inc exc =>
    match exParseAll inc, exParseAll exc with
    | .ok a, .ok b => .ok (IPsDiffSet a b)
    | .error e, _ => .error e
    | _, .error e => .error e
  ipString := fun ip => "10.0.0." ++ toString ip
  genResIPConfig := fun ip spec nic poolName =>
    .ok { Address := "10.0.0." ++ toString ip ++ "/24", Nic := nic, IPPool := poolName,
          Gateway := spec.Gateway.getD "", Vlan := spec.Vlan, Version := spec.IPVersion }

/-- A manager with three retries and a ceiling of ten allocations per pool. -/
def exIM : Manager :=
  { config := { MaxConflictRetries := 3, MaxAllocatedIPs := 10 }, lib := exLib }

/-- An environment that injects no error and resolves every pod to `Deployment/web`. -/
def quiet : Oracle :=
  { getErr := fun _ => none
    listErr := fun _ => none
    updateErr := fun _ => none
    randInt := fun _ => 4
    topController := fun _ _ => .ok { Kind := "Deployment", Name := "web" } }

/-- An allocation record of container `cid` of pod `ns/pod`. -/
def exAlloc (cid pod : String) : PoolIPAllocation :=
  { ContainerID := cid, NIC := "eth0", Node := "nodeA", Namespace := "ns", Pod := pod,
    OwnerControllerType := "StatefulSet", OwnerControllerName := "db" }

/-- The pool `10.0.0.1 .. 10.0.0.3` with `10.0.0.1` allocated to container `c1`. -/
def exPool : SpiderIPPool :=
  { Name := "pool"
    Spec := { IPVersion := 4, Subnet := "10.0.0.0/24"
              IPs := ["10.0.0.1", "10.0.0.2", "10.0.0.3"], ExcludeIPs := []
              Gateway := none, Vlan := 0 }
    Status := { AllocatedIPs := some [("10.0.0.1", exAlloc "c1" "p1")]
                AllocatedIPCount := some 1, AutoDesiredIPCount := none } }

/-- A store that holds `exPool` and no reserved address. -/
def exWorld : World := { pools := [exPool], reservedIPs := [], log := [] }

/-- The pod `ns/p2` on node `nodeB`. -/
def exPod : Pod := { Namespace := "ns", Name := "p2", NodeName := "nodeB" }

/-- A pod of another namespace and name, `other/q` on node `nodeB`. -/
def exPodOther : Pod := { Namespace := "other", Name := "q", NodeName := "nodeB" }

/-- A pool `10.0.0.1 .. 10.0.0.3` without allocations, as the store returns it: the
allocation map and the counter are unset. -/
def exEmptyPool : SpiderIPPool :=
  { exPool with Status := { AllocatedIPs := none, AllocatedIPCount := none
                            AutoDesiredIPCount := none } }

/-- A store that holds `exEmptyPool` and no reserved address. -/
def exEmptyWorld : World := { pools := [exEmptyPool], reservedIPs := [], log := [] }

/-- A manager with a retry budget of 63 and a ceiling of ten allocations per pool. -/
def exIM63 : Manager :=
  { config := { MaxConflictRetries := 63, MaxAllocatedIPs := 10 }, lib := exLib }

/-- The pool `10.0.0.1 .. 10.0.0.3` with its three addresses allocated. -/
def exFullPool : SpiderIPPool :=
  { exPool with Status :=
      { AllocatedIPs := some [("10.0.0.1", exAlloc "c1" "p1"), ("10.0.0.2", exAlloc "c2" "p2"),
          ("10.0.0.3", exAlloc "c3" "p3")]
        AllocatedIPCount := some 3, AutoDesiredIPCount := none } }

/-- A store that holds `exFullPool` and no reserved address. -/
def exFullWorld : World := { pools := [exFullPool], reservedIPs := [], log := [] }

/-- A pool without allocations with the given name and vlan. -/
def exVlanPool (name : String) (vlan : Int) : SpiderIPPool :=
  { exEmptyPool with Name := name, Spec := { exPool.Spec with Vlan := vlan } }

/-- A store with the pools `A` and `B` of vlan 100 and `C` of vlan 200. -/
def exVlanWorld : World :=
  { pools := [exVlanPool "A" 100, exVlanPool "B" 100, exVlanPool "C" 200]
    reservedIPs := [], log := [] }

/-- An environment like `quiet` in which the `Get` of attempt `k` fails. -/
def getFailsAt (k : Nat) : Oracle :=
  { quiet with getErr := fun i => if i = k then some (Err.other "store unavailable") else none }

/-- The manager `exIM` with a limiter whose queue is full. -/
def exIMLimited : Manager :=
  { exIM with freeIPsLimiter := { MaxQueueSize := 1000, MaxWaitTime := 5, queued := 1000, wait := 0 } }

/-- The pool `exPool` with its counter at the greatest `int64`. -/
def exMaxCountPool : SpiderIPPool :=
  { exPool with Status := { exPool.Status with AllocatedIPCount := some MaxInt64 } }

/-- A store that holds `exMaxCountPool` and no reserved address. -/
def exMaxCountWorld : World := { pools := [exMaxCountPool], reservedIPs := [], log := [] }

/-- The pool `exPool` with its counter at the least `int64`. -/
def exMinCountPool : SpiderIPPool :=
  { exPool with Status := { exPool.Status with AllocatedIPCount := some MinInt64 } }

/-- A store that holds `exMinCountPool` and no reserved address. -/
def exMinCountWorld : World := { pools := [exMinCountPool], reservedIPs := [], log := [] }

/-- The descriptor of an address of `exPool`. -/
def exConfig (address : String) : IPConfig :=
  { Address := address, Nic := "eth0", IPPool := "pool", Gateway := "", Vlan := 0, Version := 4 }


/-! ## Go maps: reads after writes, sizes -/

namespace GoMap

variable {V : Type}

theorem delete_cons_self (m : GoMap V) (k : String) (v : V) :
    delete ((k, v) :: m) k = delete m k := by
  simp [delete]

theorem delete_cons_ne (m : GoMap V) {k k1 : String} (v : V) (h : k1 ≠ k) :
    delete ((k1, v) :: m) k = (k1, v) :: delete m k := by
  simp [delete, h]

theorem lookup_cons_self (m : GoMap V) (k : String) (v : V) :
    lookup ((k, v) :: m) k = some v := by
  simp [lookup]

theorem lookup_cons_ne (m : GoMap V) {k k1 : String} (v : V) (h : k1 ≠ k) :
    lookup ((k1, v) :: m) k = lookup m k := by
  simp [lookup, h]

theorem lookup_delete_self (m : GoMap V) (k : String) : lookup (delete m k) k = none := by
  induction m with
  | nil => rfl
  | cons e rest ih =>
    obtain ⟨k1, v⟩ := e
    by_cases h : k1 = k
    · subst h
      rw [delete_cons_self, ih]
    · rw [delete_cons_ne rest v h, lookup_cons_ne _ v h, ih]

theorem lookup_delete_ne (m : GoMap V) {k k1 : String} (h : k1 ≠ k) :
    lookup (delete m k) k1 = lookup m k1 := by
  induction m with
  | nil => rfl
  | cons e rest ih =>
    obtain ⟨k2, v⟩ := e
    by_cases h2 : k2 = k
    · subst h2
      rw [delete_cons_self, ih, lookup_cons_ne rest v (Ne.symm h)]
    · rw [delete_cons_ne rest v h2]
      by_cases h3 : k2 = k1
      · subst h3
        rw [lookup_cons_self, lookup_cons_self]
      · rw [lookup_cons_ne _ v h3, lookup_cons_ne _ v h3, ih]

theorem lookup_insert_self (m : GoMap V) (k : String) (v : V) :
    lookup (insert m k v) k = some v := by
  simp [insert, lookup]

theorem lookup_insert_ne (m : GoMap V) {k k1 : String} (v : V) (h : k1 ≠ k) :
    lookup (insert m k v) k1 = lookup m k1 := by
  have h2 : ¬ k = k1 := fun h3 => h h3.symm
  simp [insert, lookup, h2, lookup_delete_ne m h]

theorem lookup_eq_none_iff (m : GoMap V) (k : String) :
    lookup m k = none ↔ k ∉ m.map Prod.fst := by
  induction m with
  | nil => simp [lookup]
  | cons e rest ih =>
    obtain ⟨k1, v⟩ := e
    by_cases h : k1 = k
    · simp [lookup, h]
    · have h2 : ¬ k = k1 := fun h3 => h h3.symm
      simp [lookup, h, h2, ih]

theorem mem_keys_iff (m : GoMap V) (k : String) : k ∈ keys m ↔ lookup m k ≠ none := by
  rw [Ne, lookup_eq_none_iff, keys, List.mem_dedup, not_not]

theorem delete_of_lookup_none (m : GoMap V) (k : String) (h : lookup m k = none) :
    delete m k = m := by
  rw [lookup_eq_none_iff] at h
  unfold delete
  rw [List.filter_eq_self]
  intro e he
  have : e.1 ≠ k := fun h2 => h (h2 ▸ List.mem_map_of_mem Prod.fst he)
  simpa using this

theorem len_eq_card (m : GoMap V) : len m = (m.map Prod.fst).toFinset.card := by
  rw [len, keys, List.card_toFinset]

theorem keys_delete_toFinset (m : GoMap V) (k : String) :
    ((delete m k).map Prod.fst).toFinset = (m.map Prod.fst).toFinset.erase k := by
  ext x
  simp only [delete, List.mem_toFinset, List.mem_map, List.mem_filter, Finset.mem_erase,
    decide_eq_true_eq]
  constructor
  · rintro ⟨e, ⟨he, hne⟩, rfl⟩
    exact ⟨hne, e, he, rfl⟩
  · rintro ⟨hne, e, he, rfl⟩
    exact ⟨e, ⟨he, hne⟩, rfl⟩

theorem len_delete_of_mem (m : GoMap V) (k : String) (h : lookup m k ≠ none) :
    len (delete m k) + 1 = len m := by
  rw [len_eq_card, len_eq_card, keys_delete_toFinset]
  have hk : k ∈ (m.map Prod.fst).toFinset := by
    rw [List.mem_toFinset]
    by_contra h2
    exact h ((lookup_eq_none_iff m k).2 h2)
  rw [Finset.card_erase_of_mem hk]
  have : 0 < (m.map Prod.fst).toFinset.card := Finset.card_pos.2 ⟨k, hk⟩
  omega

theorem len_insert (m : GoMap V) (k : String) (v : V) :
    len (insert m k v) = len (delete m k) + 1 := by
  rw [len_eq_card, len_eq_card]
  have hk : k ∉ ((delete m k).map Prod.fst).toFinset := by
    rw [List.mem_toFinset]
    exact (lookup_eq_none_iff _ k).1 (lookup_delete_self m k)
  simp only [insert, List.map_cons, List.toFinset_cons]
  rw [Finset.card_insert_of_not_mem hk]

theorem len_insert_of_new (m : GoMap V) (k : String) (v : V) (h : lookup m k = none) :
    len (insert m k v) = len m + 1 := by
  rw [len_insert, delete_of_lookup_none m k h]

theorem len_insert_of_mem (m : GoMap V) (k : String) (v : V) (h : lookup m k ≠ none) :
    len (insert m k v) = len m := by
  rw [len_insert, len_delete_of_mem m k h]

end GoMap


/-! ## The store -/

theorem writes_append (w : World) (op : Op) :
    World.writes { w with log := w.log ++ [op] } =
      w.writes + (if op.isStatusUpdate = true then 1 else 0) := by
  simp [World.writes, List.countP_append, List.countP_cons]

theorem GetIPPoolByName_world (o : Oracle) (i : Nat) (w : World) (poolName : String) :
    (GetIPPoolByName o i w poolName).2 = { w with log := w.log ++ [Op.get poolName] } := by
  simp only [GetIPPoolByName]
  repeat' split
  all_goals rfl

theorem GetIPPoolByName_ok (o : Oracle) (i : Nat) (w : World) (poolName : String)
    (p : SpiderIPPool) :
    (GetIPPoolByName o i w poolName).1 = .ok p ↔ o.getErr i = none ∧ w.pool poolName = some p := by
  simp only [GetIPPoolByName]
  repeat' split
  all_goals simp_all

theorem genRandomIP_world (im : Manager) (o : Oracle) (i : Nat) (w : World)
    (ipPool : SpiderIPPool) :
    (genRandomIP im o i w ipPool).2 = { w with log := w.log ++ [Op.list] } := by
  simp only [genRandomIP]
  repeat' split
  all_goals rfl

/-! ## genRandomIP -/

theorem mem_IPsDiffSet (a b : List IP) (ip : IP) : ip ∈ IPsDiffSet a b ↔ ip ∈ a ∧ ip ∉ b := by
  simp [IPsDiffSet, List.mem_dedup, List.mem_filter]

/-- What `genRandomIP` computes: it does not panic, and an address it returns is the
element at index `rand.Int() % len` of the non-empty available list. -/
theorem genRandomIP_inv (im : Manager) (o : Oracle) (i : Nat) (w : World)
    (ipPool : SpiderIPPool) :
    (genRandomIP im o i w ipPool).1 ≠ Res.panic ∧
    ∀ ip, (genRandomIP im o i w ipPool).1 = Res.ok ip →
      ∃ reservedIPs usedIPs totalIPs,
        im.lib.AssembleReservedIPs ipPool.Spec.IPVersion w.reservedIPs = .ok reservedIPs ∧
        im.lib.ParseIPRanges ipPool.Spec.IPVersion (usedKeys ipPool.Status.AllocatedIPs)
          = .ok usedIPs ∧
        im.lib.AssembleTotalIPs ipPool.Spec.IPVersion ipPool.Spec.IPs ipPool.Spec.ExcludeIPs
          = .ok totalIPs ∧
        (IPsDiffSet totalIPs (reservedIPs ++ usedIPs)).length ≠ 0 ∧
        (IPsDiffSet totalIPs (reservedIPs ++ usedIPs))[o.randInt i %
          (IPsDiffSet totalIPs (reservedIPs ++ usedIPs)).length]? = some ip := by
  simp only [genRandomIP]
  cases o.listErr i with
  | some e => exact ⟨by simp, by simp⟩
  | none =>
  cases hres : im.lib.AssembleReservedIPs ipPool.Spec.IPVersion w.reservedIPs with
  | error e => exact ⟨by simp, by simp⟩
  | ok reservedIPs =>
  cases hused : im.lib.ParseIPRanges ipPool.Spec.IPVersion
      (usedKeys ipPool.Status.AllocatedIPs) with
  | error e => exact ⟨by simp, by simp⟩
  | ok usedIPs =>
  cases htot : im.lib.AssembleTotalIPs ipPool.Spec.IPVersion ipPool.Spec.IPs
      ipPool.Spec.ExcludeIPs with
  | error e => exact ⟨by simp, by simp⟩
  | ok totalIPs =>
  simp only []
  by_cases hlen : (IPsDiffSet totalIPs (reservedIPs ++ usedIPs)).length = 0
  · rw [if_pos hlen]
    exact ⟨by simp, by simp⟩
  rw [if_neg hlen]
  have hlt := Nat.mod_lt (o.randInt i) (Nat.pos_of_ne_zero hlen)
  cases hsome : (IPsDiffSet totalIPs (reservedIPs ++ usedIPs))[o.randInt i %
      (IPsDiffSet totalIPs (reservedIPs ++ usedIPs)).length]? with
  | none =>
    rw [List.getElem?_eq_none_iff] at hsome
    omega
  | some ip =>
    refine ⟨by simp, ?_⟩
    intro ip1 hip
    have hip1 : ip = ip1 := by simpa using hip
    subst hip1
    exact ⟨reservedIPs, usedIPs, totalIPs, rfl, rfl, rfl, hlen, hsome⟩

/-- An address returned by `genRandomIP` is in the total list of the pool and is not
an address parsed from a key of the allocation map. -/
theorem genRandomIP_fresh (im : Manager) (o : Oracle) (i : Nat) (w : World)
    (ipPool : SpiderIPPool) (ip : IP) (h : (genRandomIP im o i w ipPool).1 = Res.ok ip) :
    ∃ usedIPs totalIPs,
      im.lib.ParseIPRanges ipPool.Spec.IPVersion (usedKeys ipPool.Status.AllocatedIPs)
        = .ok usedIPs ∧
      im.lib.AssembleTotalIPs ipPool.Spec.IPVersion ipPool.Spec.IPs ipPool.Spec.ExcludeIPs
        = .ok totalIPs ∧
      ip ∈ totalIPs ∧ ip ∉ usedIPs := by
  obtain ⟨reservedIPs, usedIPs, totalIPs, _, hused, htot, _, hsome⟩ :=
    (genRandomIP_inv im o i w ipPool).2 ip h
  obtain ⟨h1, h2⟩ := List.getElem?_eq_some.1 hsome
  have hmem : ip ∈ IPsDiffSet totalIPs (reservedIPs ++ usedIPs) := h2 ▸ List.getElem_mem h1
  rw [mem_IPsDiffSet, List.mem_append, not_or] at hmem
  exact ⟨usedIPs, totalIPs, hused, htot, hmem.1, hmem.2.2⟩

/-- C3. Whatever the pool, the reserved list and the random draw, `genRandomIP` does
not panic: the index `rand.Int() % len(availableIPs)` is within the bounds of the
available list.  When it returns an address, the three helper calls succeeded and
the address is the element of `IPsDiffSet totalIPs (reservedIPs ++ usedIPs)` at that
index; it is an element of the total list of the pool, it is not a reserved address
of the pool's IP version and it is not an address parsed from a key of
`Status.AllocatedIPs`. -/
theorem genRandomIP_chosen (im : Manager) (o : Oracle) (i : Nat) (w : World)
    (ipPool : SpiderIPPool) :
    (genRandomIP im o i w ipPool).1 ≠ Res.panic ∧
    ∀ ip, (genRandomIP im o i w ipPool).1 = Res.ok ip →
      ∃ reservedIPs usedIPs totalIPs,
        im.lib.AssembleReservedIPs ipPool.Spec.IPVersion w.reservedIPs = .ok reservedIPs ∧
        im.lib.ParseIPRanges ipPool.Spec.IPVersion (usedKeys ipPool.Status.AllocatedIPs)
          = .ok usedIPs ∧
        im.lib.AssembleTotalIPs ipPool.Spec.IPVersion ipPool.Spec.IPs ipPool.Spec.ExcludeIPs
          = .ok totalIPs ∧
        ip ∈ totalIPs ∧ ip ∉ reservedIPs ∧ ip ∉ usedIPs ∧
        ∃ hlt : o.randInt i % (IPsDiffSet totalIPs (reservedIPs ++ usedIPs)).length
            < (IPsDiffSet totalIPs (reservedIPs ++ usedIPs)).length,
          ip = (IPsDiffSet totalIPs (reservedIPs ++ usedIPs)).get ⟨_, hlt⟩ := by
  refine ⟨(genRandomIP_inv im o i w ipPool).1, ?_⟩
  intro ip hip
  obtain ⟨reservedIPs, usedIPs, totalIPs, hres, hused, htot, hlen, hsome⟩ :=
    (genRandomIP_inv im o i w ipPool).2 ip hip
  have hlt := Nat.mod_lt (o.randInt i) (Nat.pos_of_ne_zero hlen)
  obtain ⟨h1, h2⟩ := List.getElem?_eq_some.1 hsome
  have hmem : ip ∈ IPsDiffSet totalIPs (reservedIPs ++ usedIPs) := h2 ▸ List.getElem_mem h1
  rw [mem_IPsDiffSet, List.mem_append, not_or] at hmem
  exact ⟨reservedIPs, usedIPs, totalIPs, hres, hused, htot, hmem.1, hmem.2.1, hmem.2.2, hlt,
    by simpa using h2.symm⟩

/-- Witness of C3: in the worked pool with `10.0.0.1` allocated and the draw 4, the
address chosen is `10.0.0.2`, and the conclusion of `genRandomIP_chosen` holds for it. -/
theorem genRandomIP_chosen_witness :
    (genRandomIP exIM quiet 0 exWorld exPool).1 = Res.ok 2 ∧
      ∃ reservedIPs usedIPs totalIPs,
        exIM.lib.AssembleReservedIPs exPool.Spec.IPVersion exWorld.reservedIPs = .ok reservedIPs ∧
        exIM.lib.ParseIPRanges exPool.Spec.IPVersion (usedKeys exPool.Status.AllocatedIPs)
          = .ok usedIPs ∧
        exIM.lib.AssembleTotalIPs exPool.Spec.IPVersion exPool.Spec.IPs exPool.Spec.ExcludeIPs
          = .ok totalIPs ∧
        2 ∈ totalIPs ∧ 2 ∉ reservedIPs ∧ 2 ∉ usedIPs ∧
        ∃ hlt : quiet.randInt 0 % (IPsDiffSet totalIPs (reservedIPs ++ usedIPs)).length
            < (IPsDiffSet totalIPs (reservedIPs ++ usedIPs)).length,
          2 = (IPsDiffSet totalIPs (reservedIPs ++ usedIPs)).get ⟨_, hlt⟩ :=
  ⟨by decide, (genRandomIP_chosen exIM quiet 0 exWorld exPool).2 2 (by decide)⟩

/-! ## ReleaseIP: requests that match nothing -/

theorem releaseEntries_no_match (es : List IPAndCID) (m : GoMap PoolIPAllocation) (c : Int)
    (h : ∀ e ∈ es, ∀ a, m.lookup e.IP = some a → a.ContainerID ≠ e.ContainerID) :
    releaseEntries es m c = (m, c, false) := by
  unfold releaseEntries
  induction es with
  | nil => rfl
  | cons e rest ih =>
    have hstep : releaseStep (m, c, false) e = (m, c, false) := by
      unfold releaseStep
      split
      · rename_i a ha
        have := h e (List.mem_cons_self _ _) a ha
        simp [this]
      · rfl
    rw [List.foldl_cons, hstep]
    exact ih (fun e1 he1 => h e1 (List.mem_cons_of_mem _ he1))

/-- C2. Release safety: when the store holds pool `p` under `poolName`, the `Get` is
served, and every listed pair names an IP that is not a key of the allocation map
or a container ID different from the one recorded for that IP, `ReleaseIP` returns
success, issues no status write and leaves every stored object, hence the
allocation map and the counter of the pool, unchanged. -/
theorem ReleaseIP_no_match (im : Manager) (o : Oracle) (w : World) (poolName : String)
    (ipAndCIDs : List IPAndCID) (p : SpiderIPPool)
    (hp : w.pool poolName = some p) (hget : o.getErr 0 = none)
    (hno : ∀ e ∈ ipAndCIDs, ∀ a, (p.Status.AllocatedIPs.getD []).lookup e.IP = some a →
      a.ContainerID ≠ e.ContainerID) :
    (ReleaseIP im o w poolName ipAndCIDs).1 = Res.ok () ∧
    (ReleaseIP im o w poolName ipAndCIDs).2.writes = w.writes ∧
    (ReleaseIP im o w poolName ipAndCIDs).2.pools = w.pools ∧
    (ReleaseIP im o w poolName ipAndCIDs).2.pool poolName = some p := by
  unfold ReleaseIP
  cases (im.config.MaxConflictRetries + 1).toNat with
  | zero => exact ⟨rfl, rfl, rfl, hp⟩
  | succ fuel =>
    have hg : GetIPPoolByName o 0 w poolName
        = (.ok p, { w with log := w.log ++ [Op.get poolName] }) := by
      rw [← GetIPPoolByName_world o 0 w poolName]
      exact Prod.ext ((GetIPPoolByName_ok o 0 w poolName p).2 ⟨hget, hp⟩) rfl
    have hbody : ReleaseIP.body im o poolName ipAndCIDs 0 () w
        = (.ret (.ok ()), { w with log := w.log ++ [Op.get poolName] }) := by
      unfold ReleaseIP.body
      rw [hg]
      simp [needToRelease, releaseEntries_no_match ipAndCIDs _ _ hno]
    unfold retryLoop
    rw [hbody]
    refine ⟨rfl, ?_, rfl, hp⟩
    simp [writes_append, Op.isStatusUpdate]

/-- Witness of C2 (the spec's scenario 3): `10.0.0.1` is held by container `c1` and
the request names container `c2`. -/
theorem ReleaseIP_no_match_witness :
    (ReleaseIP exIM quiet exWorld "pool" [⟨"10.0.0.1", "c2"⟩]).1 = Res.ok () ∧
    (ReleaseIP exIM quiet exWorld "pool" [⟨"10.0.0.1", "c2"⟩]).2.writes = exWorld.writes ∧
    (ReleaseIP exIM quiet exWorld "pool" [⟨"10.0.0.1", "c2"⟩]).2.pools = exWorld.pools ∧
    (ReleaseIP exIM quiet exWorld "pool" [⟨"10.0.0.1", "c2"⟩]).2.pool "pool" = some exPool :=
  ReleaseIP_no_match exIM quiet exWorld "pool" [⟨"10.0.0.1", "c2"⟩] exPool (by decide) (by decide)
    (by decide)


/-! ## One attempt of each retry loop, case by case -/

theorem World.pool_name (w : World) (name : String) (p : SpiderIPPool)
    (h : w.pool name = some p) : p.Name = name := by
  have := List.find?_some h
  simpa using this

theorem statusUpdate_eq_ok (o : Oracle) (i : Nat) (w : World) (p q : SpiderIPPool)
    (hupd : o.updateErr i = none) (hq : w.pool p.Name = some q) :
    statusUpdate o i w p
      = (none, ⟨setStatus w.pools p, w.reservedIPs, w.log ++ [Op.statusUpdate p]⟩) := by
  simp [statusUpdate, hupd, hq]

theorem ReleaseIP_body_spec (im : Manager) (o : Oracle) (poolName : String)
    (ipAndCIDs : List IPAndCID) (i : Nat) (s : Unit) (w : World) :
    (∃ e, (o.getErr i = some e ∨ (o.getErr i = none ∧ w.pool poolName = none)) ∧
      ReleaseIP.body im o poolName ipAndCIDs i s w
        = (.ret (.err e), { w with log := w.log ++ [Op.get poolName] }))
    ∨ (∃ p, o.getErr i = none ∧ w.pool poolName = some p ∧
      ((needToRelease p ipAndCIDs = false ∧
        ReleaseIP.body im o poolName ipAndCIDs i s w
          = (.ret (.ok ()), { w with log := w.log ++ [Op.get poolName] }))
      ∨ (needToRelease p ipAndCIDs = true ∧
        ((∃ e, o.updateErr i = some e ∧
          ReleaseIP.body im o poolName ipAndCIDs i s w
            = (if IsConflict e = true then
                if (i : Int) = im.config.MaxConflictRetries then
                  .ret (.err (Err.ErrRetriesExhausted im.config.MaxConflictRetries poolName))
                else if backoffPanics i = true then .ret .panic
                else .cont ()
              else .ret (.err e),
              { w with log := w.log ++ [Op.get poolName,
                  Op.statusUpdate (releasedPool p ipAndCIDs)] }))
        ∨ (o.updateErr i = none ∧
          ReleaseIP.body im o poolName ipAndCIDs i s w
            = (.brk (),
              { pools := setStatus w.pools (releasedPool p ipAndCIDs)
                reservedIPs := w.reservedIPs
                log := w.log ++ [Op.get poolName,
                  Op.statusUpdate (releasedPool p ipAndCIDs)] })))))) := by
  cases hget : o.getErr i with
  | some e =>
    left
    exact ⟨e, Or.inl rfl, by simp [ReleaseIP.body, GetIPPoolByName, hget]⟩
  | none =>
  cases hp : w.pool poolName with
  | none =>
    left
    exact ⟨Err.notFound, Or.inr ⟨rfl, rfl⟩, by simp [ReleaseIP.body, GetIPPoolByName, hget, hp]⟩
  | some p =>
  right
  refine ⟨p, rfl, rfl, ?_⟩
  have hname : (releasedPool p ipAndCIDs).Name = poolName := World.pool_name w poolName p hp
  cases hneed : needToRelease p ipAndCIDs with
  | false =>
    left
    exact ⟨rfl, by simp [ReleaseIP.body, GetIPPoolByName, hget, hp, hneed]⟩
  | true =>
  right
  refine ⟨rfl, ?_⟩
  cases hupd : o.updateErr i with
  | some e =>
    left
    refine ⟨e, rfl, ?_⟩
    cases hc : IsConflict e <;>
      by_cases hi : (i : Int) = im.config.MaxConflictRetries <;>
      cases hbo : backoffPanics i <;>
      simp [ReleaseIP.body, GetIPPoolByName, statusUpdate, hget, hp, hneed, hupd, hc, hi, hbo]
  | none =>
    right
    refine ⟨rfl, ?_⟩
    have hst := statusUpdate_eq_ok o i { w with log := w.log ++ [Op.get poolName] }
      (releasedPool p ipAndCIDs) p hupd (by rw [hname]; exact hp)
    simp [ReleaseIP.body, GetIPPoolByName, hget, hp, hneed, hst]

theorem UpdateAllocatedIPs_body_spec (im : Manager) (o : Oracle) (containerID : String)
    (pod : Pod) (oldIPConfig : IPConfig) (i : Nat) (s : Unit) (w : World) :
    (∃ e, (o.getErr i = some e ∨ (o.getErr i = none ∧ w.pool oldIPConfig.IPPool = none)) ∧
      UpdateAllocatedIPs.body im o containerID pod oldIPConfig i s w
        = (.ret (.err e), { w with log := w.log ++ [Op.get oldIPConfig.IPPool] }))
    ∨ (∃ p, o.getErr i = none ∧ w.pool oldIPConfig.IPPool = some p ∧
      ((∃ a, lookupAllocated p (cutSlash oldIPConfig.Address) = some a ∧
          a.ContainerID = containerID ∧
          UpdateAllocatedIPs.body im o containerID pod oldIPConfig i s w
            = (.ret (.ok ()), { w with log := w.log ++ [Op.get oldIPConfig.IPPool] }))
      ∨ ((∀ a, lookupAllocated p (cutSlash oldIPConfig.Address) = some a →
            a.ContainerID ≠ containerID) ∧
        ((p.Status.AllocatedIPs = none ∧
          UpdateAllocatedIPs.body im o containerID pod oldIPConfig i s w
            = (.ret .panic, { w with log := w.log ++ [Op.get oldIPConfig.IPPool] }))
        ∨ (∃ m, p.Status.AllocatedIPs = some m ∧
          ((∃ e, o.updateErr i = some e ∧
            UpdateAllocatedIPs.body im o containerID pod oldIPConfig i s w
              = (if IsConflict e = true then
                  if (i : Int) = im.config.MaxConflictRetries then
                    .ret (.err (Err.ErrRetriesExhausted im.config.MaxConflictRetries
                      (cutSlash oldIPConfig.Address)))
                  else if backoffPanics i = true then .ret .panic
                  else .cont ()
                else .ret (.err e),
                { w with log := w.log ++ [Op.get oldIPConfig.IPPool,
                    Op.statusUpdate (reboundPool p m containerID pod oldIPConfig)] }))
          ∨ (o.updateErr i = none ∧
            UpdateAllocatedIPs.body im o containerID pod oldIPConfig i s w
              = (.cont (),
                { pools := setStatus w.pools (reboundPool p m containerID pod oldIPConfig)
                  reservedIPs := w.reservedIPs
                  log := w.log ++ [Op.get oldIPConfig.IPPool,
                    Op.statusUpdate (reboundPool p m containerID pod oldIPConfig)] })))))))) := by
  cases hget : o.getErr i with
  | some e =>
    left
    exact ⟨e, Or.inl rfl, by simp [UpdateAllocatedIPs.body, GetIPPoolByName, hget]⟩
  | none =>
  cases hp : w.pool oldIPConfig.IPPool with
  | none =>
    left
    exact ⟨Err.notFound, Or.inr ⟨rfl, rfl⟩,
      by simp [UpdateAllocatedIPs.body, GetIPPoolByName, hget, hp]⟩
  | some p =>
  right
  refine ⟨p, rfl, rfl, ?_⟩
  by_cases hsame : (lookupAllocated p (cutSlash oldIPConfig.Address)).map
      (fun a => decide (a.ContainerID = containerID)) = some true
  · left
    cases hl : lookupAllocated p (cutSlash oldIPConfig.Address) with
    | none => simp [hl] at hsame
    | some a =>
      refine ⟨a, rfl, by simpa [hl] using hsame, ?_⟩
      simp [UpdateAllocatedIPs.body, GetIPPoolByName, hget, hp, hsame]
  · right
    refine ⟨fun a ha hc => hsame (by simp [ha, hc]), ?_⟩
    cases hm : p.Status.AllocatedIPs with
    | none =>
      left
      refine ⟨rfl, ?_⟩
      simp [UpdateAllocatedIPs.body, GetIPPoolByName, hget, hp, hsame, hm]
    | some m =>
    right
    refine ⟨m, rfl, ?_⟩
    have hname : (reboundPool p m containerID pod oldIPConfig).Name = oldIPConfig.IPPool :=
      World.pool_name w _ p hp
    cases hupd : o.updateErr i with
    | some e =>
      left
      refine ⟨e, rfl, ?_⟩
      cases hc : IsConflict e <;>
        by_cases hi : (i : Int) = im.config.MaxConflictRetries <;>
        cases hbo : backoffPanics i <;>
        simp [UpdateAllocatedIPs.body, GetIPPoolByName, statusUpdate, hget, hp, hsame, hm, hupd,
          hc, hi, hbo]
    | none =>
      right
      refine ⟨rfl, ?_⟩
      have hst := statusUpdate_eq_ok o i { w with log := w.log ++ [Op.get oldIPConfig.IPPool] }
        (reboundPool p m containerID pod oldIPConfig) p hupd (by rw [hname]; exact hp)
      simp [UpdateAllocatedIPs.body, GetIPPoolByName, hget, hp, hsame, hm, hst]


theorem AllocateIP_body_spec (im : Manager) (o : Oracle) (poolName containerID nic : String)
    (pod : Pod) (i : Nat) (s : AllocVars) (w : World) :
    (∃ e, (o.getErr i = some e ∨ (o.getErr i = none ∧ w.pool poolName = none)) ∧
      AllocateIP.body im o poolName containerID nic pod i s w
        = (.ret (.err e), { w with log := w.log ++ [Op.get poolName] }))
    ∨ (∃ p, o.getErr i = none ∧ w.pool poolName = some p ∧
      ((∃ e, (genRandomIP im o i { w with log := w.log ++ [Op.get poolName] } p).1 = .err e ∧
        AllocateIP.body im o poolName containerID nic pod i s w
          = (.ret (.err e), { w with log := w.log ++ [Op.get poolName, Op.list] }))
      ∨ (∃ ip, (genRandomIP im o i { w with log := w.log ++ [Op.get poolName] } p).1 = .ok ip ∧
        ((∃ e, o.topController i pod = .error e ∧
          AllocateIP.body im o poolName containerID nic pod i s w
            = (.ret (.err e),
              { w with log := w.log ++ [Op.get poolName, Op.list, Op.topController pod] }))
        ∨ (∃ top, o.topController i pod = .ok top ∧
          ((im.config.MaxAllocatedIPs < wrapInt64 (p.Status.AllocatedIPCount.getD 0 + 1) ∧
            AllocateIP.body im o poolName containerID nic pod i s w
              = (.ret (.err (Err.ipUsedOutThreshold im.config.MaxAllocatedIPs poolName)),
                { w with log := w.log ++ [Op.get poolName, Op.list, Op.topController pod] }))
          ∨ (wrapInt64 (p.Status.AllocatedIPCount.getD 0 + 1) ≤ im.config.MaxAllocatedIPs ∧
            ((∃ e, im.lib.genResIPConfig ip p.Spec nic poolName = .error e ∧
              AllocateIP.body im o poolName containerID nic pod i s w
                = (.ret (.err e),
                  { w with log := w.log ++ [Op.get poolName, Op.list, Op.topController pod] }))
            ∨ (∃ cfg, im.lib.genResIPConfig ip p.Spec nic poolName = .ok cfg ∧
              ((∃ e, o.updateErr i = some e ∧
                AllocateIP.body im o poolName containerID nic pod i s w
                  = (if IsConflict e = true then
                      if (i : Int) = im.config.MaxConflictRetries then
                        .ret (.err (Err.ErrRetriesExhausted im.config.MaxConflictRetries
                          poolName))
                      else if backoffPanics i = true then .ret .panic
                      else .cont (some cfg, some (allocatedPool p (im.lib.ipString ip)
                        (newAllocation containerID nic pod top)))
                    else .ret (.err e),
                    { w with log := w.log ++ [Op.get poolName, Op.list, Op.topController pod,
                        Op.statusUpdate (allocatedPool p (im.lib.ipString ip)
                          (newAllocation containerID nic pod top))] }))
              ∨ (o.updateErr i = none ∧
                AllocateIP.body im o poolName containerID nic pod i s w
                  = (.brk (some cfg, some (allocatedPool p (im.lib.ipString ip)
                      (newAllocation containerID nic pod top))),
                    { pools := setStatus w.pools (allocatedPool p (im.lib.ipString ip)
                        (newAllocation containerID nic pod top))
                      reservedIPs := w.reservedIPs
                      log := w.log ++ [Op.get poolName, Op.list, Op.topController pod,
                        Op.statusUpdate (allocatedPool p (im.lib.ipString ip)
                          (newAllocation containerID nic pod top))] })))))))))))) := by
  cases hget : o.getErr i with
  | some e =>
    left
    exact ⟨e, Or.inl rfl, by simp [AllocateIP.body, GetIPPoolByName, hget]⟩
  | none =>
  cases hp : w.pool poolName with
  | none =>
    left
    exact ⟨Err.notFound, Or.inr ⟨rfl, rfl⟩, by simp [AllocateIP.body, GetIPPoolByName, hget, hp]⟩
  | some p =>
  right
  refine ⟨p, rfl, rfl, ?_⟩
  have hw := genRandomIP_world im o i ⟨w.pools, w.reservedIPs, w.log ++ [Op.get poolName]⟩ p
  cases hr : (genRandomIP im o i ⟨w.pools, w.reservedIPs, w.log ++ [Op.get poolName]⟩ p).1 with
  | panic => exact absurd hr (genRandomIP_inv im o i _ p).1
  | err e =>
    left
    have hg : genRandomIP im o i ⟨w.pools, w.reservedIPs, w.log ++ [Op.get poolName]⟩ p
        = (.err e, ⟨w.pools, w.reservedIPs, w.log ++ [Op.get poolName] ++ [Op.list]⟩) :=
      Prod.ext hr hw
    exact ⟨e, rfl, by simp [AllocateIP.body, GetIPPoolByName, hget, hp, hg]⟩
  | ok ip =>
  right
  refine ⟨ip, rfl, ?_⟩
  have hg : genRandomIP im o i ⟨w.pools, w.reservedIPs, w.log ++ [Op.get poolName]⟩ p
      = (.ok ip, ⟨w.pools, w.reservedIPs, w.log ++ [Op.get poolName] ++ [Op.list]⟩) :=
    Prod.ext hr hw
  cases htop : o.topController i pod with
  | error e =>
    left
    exact ⟨e, rfl, by simp [AllocateIP.body, GetIPPoolByName, hget, hp, hg, htop]⟩
  | ok top =>
  right
  refine ⟨top, rfl, ?_⟩
  by_cases hceil : im.config.MaxAllocatedIPs < wrapInt64 (p.Status.AllocatedIPCount.getD 0 + 1)
  · left
    exact ⟨hceil, by simp [AllocateIP.body, GetIPPoolByName, hget, hp, hg, htop, hceil]⟩
  right
  refine ⟨not_lt.1 hceil, ?_⟩
  have hspec : (allocatedPool p (im.lib.ipString ip)
      (newAllocation containerID nic pod top)).Spec = p.Spec := rfl
  cases hcfg : im.lib.genResIPConfig ip p.Spec nic poolName with
  | error e =>
    left
    exact ⟨e, rfl,
      by simp [AllocateIP.body, GetIPPoolByName, hget, hp, hg, htop, hceil, hspec, hcfg]⟩
  | ok cfg =>
  right
  refine ⟨cfg, rfl, ?_⟩
  have hname : (allocatedPool p (im.lib.ipString ip)
      (newAllocation containerID nic pod top)).Name = poolName := World.pool_name w poolName p hp
  cases hupd : o.updateErr i with
  | some e =>
    left
    refine ⟨e, rfl, ?_⟩
    cases hc : IsConflict e <;>
      by_cases hi : (i : Int) = im.config.MaxConflictRetries <;>
      cases hbo : backoffPanics i <;>
      simp [AllocateIP.body, GetIPPoolByName, statusUpdate, hget, hp, hg, htop, hceil, hspec,
        hcfg, hupd, hc, hi, hbo]
  | none =>
    right
    refine ⟨rfl, ?_⟩
    have hst := statusUpdate_eq_ok o i
      ⟨w.pools, w.reservedIPs, w.log ++ [Op.get poolName, Op.list, Op.topController pod]⟩
      (allocatedPool p (im.lib.ipString ip) (newAllocation containerID nic pod top)) p hupd
      (by rw [hname]; exact hp)
    simp [AllocateIP.body, GetIPPoolByName, hget, hp, hg, htop, hceil, hspec, hcfg, hst]

/-! ## The retry loop -/

/-- Loop rule: an invariant `Inv` of the loop variable, the loop state and the world
that every `continue` keeps gives `Post` of the result once every `return`, every
`break` and the regular end of the loop give it. -/
theorem retryLoop_rule {ρ σ : Type} (body : Nat → σ → World → Ctl ρ σ × World) (finish : σ → ρ)
    (Inv : Nat → σ → World → Prop) (Post : Res ρ → World → Prop) (last : Nat)
    (hret : ∀ i s w r w1, i < last → Inv i s w → body i s w = (.ret r, w1) → Post r w1)
    (hcont : ∀ i s w s1 w1, i < last → Inv i s w → body i s w = (.cont s1, w1) →
      Inv (i + 1) s1 w1)
    (hbrk : ∀ i s w s1 w1, i < last → Inv i s w → body i s w = (.brk s1, w1) →
      Post (.ok (finish s1)) w1)
    (hend : ∀ s w, Inv last s w → Post (.ok (finish s)) w) :
    ∀ fuel i s w, i + fuel = last → Inv i s w →
      Post (retryLoop body finish fuel i s w).1 (retryLoop body finish fuel i s w).2 := by
  intro fuel
  induction fuel with
  | zero =>
    intro i s w hi hinv
    have : i = last := by omega
    subst this
    exact hend s w hinv
  | succ fuel ih =>
    intro i s w hi hinv
    have hlt : i < last := by omega
    unfold retryLoop
    cases hb : body i s w with
    | mk c w1 =>
      cases c with
      | ret r => exact hret i s w r w1 hlt hinv hb
      | cont s1 => exact ih (i + 1) s1 w1 (by omega) (hcont i s w s1 w1 hlt hinv hb)
      | brk s1 => exact hbrk i s w s1 w1 hlt hinv hb


/-! ## The retry contract of the three loops -/

theorem endsOnWrite_append (pools : List SpiderIPPool) (rs : List SpiderReservedIP)
    (l1 l2 : List Op) (h : l2 ≠ []) :
    World.endsOnWrite ⟨pools, rs, l1 ++ l2⟩ ↔ l2.getLast?.map Op.isStatusUpdate = some true := by
  simp [World.endsOnWrite, List.getLast?_append, h]

theorem ReleaseIP_body_protocol (im : Manager) (o : Oracle) (poolName : String)
    (ipAndCIDs : List IPAndCID) (i : Nat) (s : Unit) (w : World) :
    RetryProtocol im.config.MaxConflictRetries o
      (Err.ErrRetriesExhausted im.config.MaxConflictRetries poolName) i w
      (ReleaseIP.body im o poolName ipAndCIDs i s w) := by
  rcases ReleaseIP_body_spec im o poolName ipAndCIDs i s w with
    ⟨e, _, hb⟩ | ⟨p, _, _, ⟨_, hb⟩ | ⟨_, ⟨e, hu, hb⟩ | ⟨hu, hb⟩⟩⟩
  · left
    rw [hb]
    exact ⟨by simp [World.writes, List.countP_append, List.countP_cons, Op.isStatusUpdate],
      by simp [endsOnWrite_append, Op.isStatusUpdate], rfl, _, rfl⟩
  · left
    rw [hb]
    exact ⟨by simp [World.writes, List.countP_append, List.countP_cons, Op.isStatusUpdate],
      by simp [endsOnWrite_append, Op.isStatusUpdate], rfl, _, rfl⟩
  · right
    rw [hb]
    refine ⟨by simp [World.writes, List.countP_append, List.countP_cons, Op.isStatusUpdate],
      by simp [endsOnWrite_append, Op.isStatusUpdate], ?_⟩
    cases hc : IsConflict e with
    | false => exact Or.inl ⟨e, hu, hc, rfl, by simp⟩
    | true =>
      by_cases hi : (i : Int) = im.config.MaxConflictRetries
      · exact Or.inr (Or.inl ⟨e, hu, hc, rfl, hi, by simp [hi]⟩)
      · cases hbo : backoffPanics i with
        | true => exact Or.inr (Or.inr (Or.inl ⟨e, hu, hc, rfl, hi, rfl, by simp [hi]⟩))
        | false =>
          exact Or.inr (Or.inr (Or.inr (Or.inl ⟨e, (), hu, hc, rfl, hi, rfl, by simp [hi]⟩)))
  · right
    rw [hb]
    exact ⟨by simp [World.writes, List.countP_append, List.countP_cons, Op.isStatusUpdate],
      by simp [endsOnWrite_append, Op.isStatusUpdate],
      Or.inr (Or.inr (Or.inr (Or.inr ⟨(), hu, Or.inr rfl⟩)))⟩


theorem UpdateAllocatedIPs_body_protocol (im : Manager) (o : Oracle) (containerID : String)
    (pod : Pod) (oldIPConfig : IPConfig) (i : Nat) (s : Unit) (w : World) :
    RetryProtocol im.config.MaxConflictRetries o
      (Err.ErrRetriesExhausted im.config.MaxConflictRetries (cutSlash oldIPConfig.Address)) i w
      (UpdateAllocatedIPs.body im o containerID pod oldIPConfig i s w) := by
  rcases UpdateAllocatedIPs_body_spec im o containerID pod oldIPConfig i s w with
    ⟨e, _, hb⟩ | ⟨p, _, _, ⟨a, _, _, hb⟩ | ⟨_, ⟨_, hb⟩ | ⟨m, _, ⟨e, hu, hb⟩ | ⟨hu, hb⟩⟩⟩⟩
  · left
    rw [hb]
    exact ⟨by simp [World.writes, List.countP_append, List.countP_cons, Op.isStatusUpdate],
      by simp [endsOnWrite_append, Op.isStatusUpdate], rfl, _, rfl⟩
  · left
    rw [hb]
    exact ⟨by simp [World.writes, List.countP_append, List.countP_cons, Op.isStatusUpdate],
      by simp [endsOnWrite_append, Op.isStatusUpdate], rfl, _, rfl⟩
  · left
    rw [hb]
    exact ⟨by simp [World.writes, List.countP_append, List.countP_cons, Op.isStatusUpdate],
      by simp [endsOnWrite_append, Op.isStatusUpdate], rfl, _, rfl⟩
  · right
    rw [hb]
    refine ⟨by simp [World.writes, List.countP_append, List.countP_cons, Op.isStatusUpdate],
      by simp [endsOnWrite_append, Op.isStatusUpdate], ?_⟩
    cases hc : IsConflict e with
    | false => exact Or.inl ⟨e, hu, hc, rfl, by simp⟩
    | true =>
      by_cases hi : (i : Int) = im.config.MaxConflictRetries
      · exact Or.inr (Or.inl ⟨e, hu, hc, rfl, hi, by simp [hi]⟩)
      · cases hbo : backoffPanics i with
        | true => exact Or.inr (Or.inr (Or.inl ⟨e, hu, hc, rfl, hi, rfl, by simp [hi]⟩))
        | false =>
          exact Or.inr (Or.inr (Or.inr (Or.inl ⟨e, (), hu, hc, rfl, hi, rfl, by simp [hi]⟩)))
  · right
    rw [hb]
    exact ⟨by simp [World.writes, List.countP_append, List.countP_cons, Op.isStatusUpdate],
      by simp [endsOnWrite_append, Op.isStatusUpdate],
      Or.inr (Or.inr (Or.inr (Or.inr ⟨(), hu, Or.inl rfl⟩)))⟩

theorem AllocateIP_body_protocol (im : Manager) (o : Oracle) (poolName containerID nic : String)
    (pod : Pod) (i : Nat) (s : AllocVars) (w : World) :
    RetryProtocol im.config.MaxConflictRetries o
      (Err.ErrRetriesExhausted im.config.MaxConflictRetries poolName) i w
      (AllocateIP.body im o poolName containerID nic pod i s w) := by
  rcases AllocateIP_body_spec im o poolName containerID nic pod i s w with
    ⟨e, _, hb⟩ | ⟨p, _, _, ⟨e, _, hb⟩ | ⟨ip, _, ⟨e, _, hb⟩ | ⟨top, _, ⟨_, hb⟩ |
      ⟨_, ⟨e, _, hb⟩ | ⟨cfg, _, ⟨e, hu, hb⟩ | ⟨hu, hb⟩⟩⟩⟩⟩⟩
  · left
    rw [hb]
    exact ⟨by simp [World.writes, List.countP_append, List.countP_cons, Op.isStatusUpdate],
      by simp [endsOnWrite_append, Op.isStatusUpdate], rfl, _, rfl⟩
  · left
    rw [hb]
    exact ⟨by simp [World.writes, List.countP_append, List.countP_cons, Op.isStatusUpdate],
      by simp [endsOnWrite_append, Op.isStatusUpdate], rfl, _, rfl⟩
  · left
    rw [hb]
    exact ⟨by simp [World.writes, List.countP_append, List.countP_cons, Op.isStatusUpdate],
      by simp [endsOnWrite_append, Op.isStatusUpdate], rfl, _, rfl⟩
  · left
    rw [hb]
    exact ⟨by simp [World.writes, List.countP_append, List.countP_cons, Op.isStatusUpdate],
      by simp [endsOnWrite_append, Op.isStatusUpdate], rfl, _, rfl⟩
  · left
    rw [hb]
    exact ⟨by simp [World.writes, List.countP_append, List.countP_cons, Op.isStatusUpdate],
      by simp [endsOnWrite_append, Op.isStatusUpdate], rfl, _, rfl⟩
  · right
    rw [hb]
    refine ⟨by simp [World.writes, List.countP_append, List.countP_cons, Op.isStatusUpdate],
      by simp [endsOnWrite_append, Op.isStatusUpdate], ?_⟩
    cases hc : IsConflict e with
    | false => exact Or.inl ⟨e, hu, hc, rfl, by simp⟩
    | true =>
      by_cases hi : (i : Int) = im.config.MaxConflictRetries
      · exact Or.inr (Or.inl ⟨e, hu, hc, rfl, hi, by simp [hi]⟩)
      · cases hbo : backoffPanics i with
        | true => exact Or.inr (Or.inr (Or.inl ⟨e, hu, hc, rfl, hi, rfl, by simp [hi]⟩))
        | false =>
          exact Or.inr (Or.inr (Or.inr (Or.inl ⟨e, _, hu, hc, rfl, hi, rfl,
            by rw [if_pos rfl, if_neg hi, if_neg (by simp)]⟩)))
  · right
    rw [hb]
    exact ⟨by simp [World.writes, List.countP_append, List.countP_cons, Op.isStatusUpdate],
      by simp [endsOnWrite_append, Op.isStatusUpdate],
      Or.inr (Or.inr (Or.inr (Or.inr ⟨_, hu, Or.inr rfl⟩)))⟩

theorem backoffPanics_of_le (i : Nat) (h : i ≤ 61) : backoffPanics i = false := by
  have h1 : (2 : Int) ^ (i + 1) ≤ 2 ^ 62 :=
    pow_le_pow_right₀ (by norm_num) (by omega)
  have h2 : (0 : Int) < 2 ^ (i + 1) := by positivity
  unfold backoffPanics backoffBound
  rw [decide_eq_false_iff_not, not_le]
  generalize (2 : Int) ^ (i + 1) = x at h1 h2
  norm_num at h1 ⊢
  omega

/-- Every loop whose attempts follow `RetryProtocol` keeps the retry contract. -/
theorem retryLoop_bounded {ρ σ : Type} (N : Int) (o : Oracle) (exhausted : Err)
    (body : Nat → σ → World → Ctl ρ σ × World) (finish : σ → ρ) (hN : 0 ≤ N)
    (hbody : ∀ i s w, RetryProtocol N o exhausted i w (body i s w)) (s : σ) (w : World) :
    BoundedRetry N o exhausted w (retryLoop body finish (N + 1).toNat 0 s w) := by
  have hlast : ((N + 1).toNat : Int) = N + 1 := Int.toNat_of_nonneg (by omega)
  refine ⟨?_, ?_, ?_⟩
  · -- at most N + 1 writes
    refine retryLoop_rule body finish (fun i _ w1 => w1.writes = w.writes + i)
      (fun _ w1 => w1.writes ≤ w.writes + (N + 1).toNat) (N + 1).toNat ?_ ?_ ?_ ?_
      (N + 1).toNat 0 s w (by omega) (by simp)
    · intro i s0 w0 r w1 hi hinv hb
      have hp := hbody i s0 w0
      rw [hb] at hp
      rcases hp with ⟨h1, _⟩ | ⟨h1, _⟩ <;> simp only [] at h1 <;> omega
    · intro i s0 w0 s1 w1 hi hinv hb
      have hp := hbody i s0 w0
      rw [hb] at hp
      rcases hp with ⟨_, _, _, r, hr⟩ | ⟨h1, _⟩
      · simp at hr
      · simp only [] at h1; omega
    · intro i s0 w0 s1 w1 hi hinv hb
      have hp := hbody i s0 w0
      rw [hb] at hp
      rcases hp with ⟨h1, _⟩ | ⟨h1, _⟩ <;> simp only [] at h1 <;> omega
    · intro s0 w0 hinv
      omega
  · -- every write meets a conflict
    intro hN62 hall
    refine retryLoop_rule body finish
      (fun i _ w1 => w1.writes = w.writes + i ∧ (i : Int) ≤ N)
      (fun r w1 => w1.endsOnWrite →
        w1.writes = w.writes + (N + 1).toNat ∧ r = .err exhausted) (N + 1).toNat ?_ ?_ ?_ ?_
      (N + 1).toNat 0 s w (by omega) ⟨by simp, by simpa using hN⟩
    · intro i s0 w0 r w1 hi hinv hb hends
      have hp := hbody i s0 w0
      rw [hb] at hp
      rcases hp with ⟨_, hne, _⟩ | ⟨h1, _, h2⟩
      · exact absurd hends hne
      · simp only [] at h1
        rcases h2 with ⟨e, hu, hc, _, _⟩ | ⟨e, hu, hc, _, hiN, hr⟩ | ⟨e, _, _, _, hiN, hbo, _⟩ |
          ⟨e, s1, _, _, _, _, _, hr⟩ | ⟨s1, _, hr⟩
        · rw [hall i] at hu
          cases hu
          simp [IsConflict] at hc
        · refine ⟨by omega, ?_⟩
          simpa using hr
        · rw [backoffPanics_of_le i (by omega)] at hbo
          cases hbo
        · simp at hr
        · simp at hr
    · intro i s0 w0 s1 w1 hi hinv hb
      have hp := hbody i s0 w0
      rw [hb] at hp
      rcases hp with ⟨_, _, _, r, hr⟩ | ⟨h1, _, h2⟩
      · simp at hr
      · simp only [] at h1
        rcases h2 with ⟨e, _, _, _, hr⟩ | ⟨e, _, _, _, _, hr⟩ | ⟨e, _, _, _, _, _, hr⟩ |
          ⟨e, s2, _, _, _, hiN, _⟩ | ⟨s2, hu, _⟩
        · simp at hr
        · simp at hr
        · simp at hr
        · exact ⟨by omega, by omega⟩
        · rw [hall i] at hu
          cases hu
    · intro i s0 w0 s1 w1 hi hinv hb hends
      have hp := hbody i s0 w0
      rw [hb] at hp
      rcases hp with ⟨_, _, _, r, hr⟩ | ⟨_, _, h2⟩
      · simp at hr
      · rcases h2 with ⟨e, _, _, _, hr⟩ | ⟨e, _, _, _, _, hr⟩ | ⟨e, _, _, _, _, _, hr⟩ |
          ⟨e, s2, _, _, _, _, _, hr⟩ | ⟨s2, hu, _⟩
        · simp at hr
        · simp at hr
        · simp at hr
        · simp at hr
        · rw [hall i] at hu
          cases hu
    · intro s0 w0 hinv
      omega
  · -- a non-conflict error at the write of attempt j
    intro j e hj hnc
    refine retryLoop_rule body finish
      (fun i _ w1 => w1.writes = w.writes + i ∧ i ≤ j)
      (fun r w1 => w.writes + j + 1 ≤ w1.writes →
        r = .err e ∧ w1.writes = w.writes + j + 1 ∧ w1.endsOnWrite) (N + 1).toNat ?_ ?_ ?_ ?_
      (N + 1).toNat 0 s w (by omega) ⟨by simp, by omega⟩
    · intro i s0 w0 r w1 hi hinv hb hge
      have hp := hbody i s0 w0
      rw [hb] at hp
      rcases hp with ⟨h1, _⟩ | ⟨h1, hends, h2⟩
      · simp only [] at h1; omega
      · simp only [] at h1 hends
        have hij : i = j := by omega
        subst hij
        rcases h2 with ⟨e1, hu, _, _, hr⟩ | ⟨e1, hu, hc, _, _, _⟩ | ⟨e1, hu, hc, _, _, _, _⟩ |
          ⟨e1, s1, _, _, _, _, _, hr⟩ | ⟨s1, hu, _⟩
        · rw [hj] at hu
          cases hu
          exact ⟨by simpa using hr, by omega, hends⟩
        · rw [hj] at hu
          cases hu
          rw [hnc] at hc
          cases hc
        · rw [hj] at hu
          cases hu
          rw [hnc] at hc
          cases hc
        · simp at hr
        · rw [hj] at hu
          cases hu
    · intro i s0 w0 s1 w1 hi hinv hb
      have hp := hbody i s0 w0
      rw [hb] at hp
      rcases hp with ⟨_, _, _, r, hr⟩ | ⟨h1, _, h2⟩
      · simp at hr
      · simp only [] at h1
        refine ⟨by omega, ?_⟩
        by_contra hlt
        have hij : i = j := by omega
        subst hij
        rcases h2 with ⟨e1, _, _, _, hr⟩ | ⟨e1, _, _, _, _, hr⟩ | ⟨e1, _, _, _, _, _, hr⟩ |
          ⟨e1, s2, hu, hc, _, _, _, _⟩ | ⟨s2, hu, _⟩
        · simp at hr
        · simp at hr
        · simp at hr
        · rw [hj] at hu
          cases hu
          rw [hnc] at hc
          cases hc
        · rw [hj] at hu
          cases hu
    · intro i s0 w0 s1 w1 hi hinv hb hge
      have hp := hbody i s0 w0
      rw [hb] at hp
      rcases hp with ⟨_, _, _, r, hr⟩ | ⟨h1, _, h2⟩
      · simp at hr
      · simp only [] at h1
        have hij : i = j := by omega
        subst hij
        rcases h2 with ⟨e1, _, _, _, hr⟩ | ⟨e1, _, _, _, _, hr⟩ | ⟨e1, _, _, _, _, _, hr⟩ |
          ⟨e1, s2, _, _, _, _, _, hr⟩ | ⟨s2, hu, _⟩
        · simp at hr
        · simp at hr
        · simp at hr
        · simp at hr
        · rw [hj] at hu
          cases hu
    · intro s0 w0 hinv hge
      omega

/-- Bounded conflict retry: for every `MaxConflictRetries ≥ 0`, each of `AllocateIP`,
`ReleaseIP` and `UpdateAllocatedIPs` keeps the retry contract `BoundedRetry`: a
call issues at most `MaxConflictRetries + 1` status writes; when
`MaxConflictRetries ≤ 62` and every status write meets a conflict, a call that ends
on a status write has issued exactly `MaxConflictRetries + 1` of them and fails with
`ErrRetriesExhausted`; and when a status write fails with a non-conflict error the
call returns that error and that write is its last operation. -/
theorem bounded_conflict_retry (im : Manager) (o : Oracle) (w : World)
    (hN : 0 ≤ im.config.MaxConflictRetries) (poolName containerID nic : String) (pod : Pod)
    (ipAndCIDs : List IPAndCID) (oldIPConfig : IPConfig) :
    BoundedRetry im.config.MaxConflictRetries o
      (Err.ErrRetriesExhausted im.config.MaxConflictRetries poolName) w
      (AllocateIP im o w poolName containerID nic pod)
    ∧ BoundedRetry im.config.MaxConflictRetries o
      (Err.ErrRetriesExhausted im.config.MaxConflictRetries poolName) w
      (ReleaseIP im o w poolName ipAndCIDs)
    ∧ BoundedRetry im.config.MaxConflictRetries o
      (Err.ErrRetriesExhausted im.config.MaxConflictRetries (cutSlash oldIPConfig.Address)) w
      (UpdateAllocatedIPs im o w containerID pod oldIPConfig) :=
  ⟨retryLoop_bounded _ o _ _ id hN (AllocateIP_body_protocol im o poolName containerID nic pod) _ w,
   retryLoop_bounded _ o _ _ id hN (ReleaseIP_body_protocol im o poolName ipAndCIDs) _ w,
   retryLoop_bounded _ o _ _ id hN
     (UpdateAllocatedIPs_body_protocol im o containerID pod oldIPConfig) _ w⟩

/-- Bounded conflict retry on the worked configuration: with three retries and a
store that answers every status write with a conflict, each of the three calls
issues four status writes and fails with `ErrRetriesExhausted`. -/
theorem bounded_conflict_retry_witness :
    ((AllocateIP exIM conflicts exWorld "pool" "c2" "eth0" exPod).2.writes
        = exWorld.writes + (exIM.config.MaxConflictRetries + 1).toNat
      ∧ (AllocateIP exIM conflicts exWorld "pool" "c2" "eth0" exPod).1
        = .err (Err.ErrRetriesExhausted exIM.config.MaxConflictRetries "pool"))
    ∧ ((ReleaseIP exIM conflicts exWorld "pool" [⟨"10.0.0.1", "c1"⟩]).2.writes
        = exWorld.writes + (exIM.config.MaxConflictRetries + 1).toNat
      ∧ (ReleaseIP exIM conflicts exWorld "pool" [⟨"10.0.0.1", "c1"⟩]).1
        = .err (Err.ErrRetriesExhausted exIM.config.MaxConflictRetries "pool"))
    ∧ ((UpdateAllocatedIPs exIM conflicts exWorld "new" exPod (exConfig "10.0.0.1/24")).2.writes
        = exWorld.writes + (exIM.config.MaxConflictRetries + 1).toNat
      ∧ (UpdateAllocatedIPs exIM conflicts exWorld "new" exPod (exConfig "10.0.0.1/24")).1
        = .err (Err.ErrRetriesExhausted exIM.config.MaxConflictRetries
            (cutSlash (exConfig "10.0.0.1/24").Address))) :=
  have h := bounded_conflict_retry exIM conflicts exWorld (by decide) "pool" "c2" "eth0" exPod
    [⟨"10.0.0.1", "c1"⟩] (exConfig "10.0.0.1/24")
  ⟨h.1.2.1 (by decide) (fun _ => rfl) (by decide),
    h.2.1.2.1 (by decide) (fun _ => rfl) (by decide),
    h.2.2.2.1 (by decide) (fun _ => rfl) (by decide)⟩

/-! ## The int64 counter -/

/-- An integer in the range of `int64` is the `int64` that holds it. -/
theorem wrapInt64_of_range (x : Int) (h1 : MinInt64 ≤ x) (h2 : x ≤ MaxInt64) :
    wrapInt64 x = x := by
  unfold MinInt64 at h1
  unfold MaxInt64 at h2
  unfold wrapInt64
  omega

/-- The value of an `int64` is in range. -/
theorem wrapInt64_range (x : Int) : MinInt64 ≤ wrapInt64 x ∧ wrapInt64 x ≤ MaxInt64 := by
  unfold MinInt64 MaxInt64 wrapInt64
  omega

/-- Decrements of an `int64` compose: wrapping in between changes nothing. -/
theorem wrapInt64_sub (x y : Int) : wrapInt64 (wrapInt64 x - y) = wrapInt64 (x - y) := by
  unfold wrapInt64
  omega

/-- The increment of the greatest `int64` is the least `int64`. -/
theorem wrapInt64_succ_max : wrapInt64 (MaxInt64 + 1) = MinInt64 := by
  decide

/-- The decrement of the least `int64` is the greatest `int64`. -/
theorem wrapInt64_pred_min : wrapInt64 (MinInt64 - 1) = MaxInt64 := by
  decide

/-! ## AllocateIP -/

theorem pool_congr (w w1 : World) (h : w1.pools = w.pools) (name : String) :
    w1.pool name = w.pool name := by
  unfold World.pool
  rw [h]

theorem find_setStatus (pools : List SpiderIPPool) (q p : SpiderIPPool) (name : String)
    (hq : q.Name = name)
    (hp : pools.find? (fun x => decide (x.Name = name)) = some p) :
    (setStatus pools q).find? (fun x => decide (x.Name = name))
      = some { p with Status := q.Status } := by
  induction pools with
  | nil => simp at hp
  | cons a rest ih =>
    have hcons : setStatus (a :: rest) q
        = (if a.Name = q.Name then { a with Status := q.Status } else a) :: setStatus rest q := rfl
    rw [hcons, hq]
    by_cases ha : a.Name = name
    · rw [List.find?_cons_of_pos _ (by simpa using ha)] at hp
      cases hp
      rw [if_pos ha, List.find?_cons_of_pos _ (by simpa using ha)]
    · rw [List.find?_cons_of_neg _ (by simpa using ha)] at hp
      rw [if_neg ha, List.find?_cons_of_neg _ (by simpa using ha)]
      exact ih hp

theorem pool_setStatus (w : World) (q p : SpiderIPPool) (name : String) (rs : List SpiderReservedIP)
    (log : List Op) (hq : q.Name = name) (hp : w.pool name = some p) :
    World.pool ⟨setStatus w.pools q, rs, log⟩ name = some { p with Status := q.Status } :=
  find_setStatus w.pools q p name hq hp

theorem genRandomIP_congr (im : Manager) (o : Oracle) (i : Nat) (w w1 : World)
    (ipPool : SpiderIPPool) (h : w1.reservedIPs = w.reservedIPs) :
    (genRandomIP im o i w1 ipPool).1 = (genRandomIP im o i w ipPool).1 := by
  simp only [genRandomIP, h]
  repeat' split
  all_goals rfl

theorem lookupAllocated_eq (p : SpiderIPPool) (k : String) :
    lookupAllocated p k = (p.Status.AllocatedIPs.getD []).lookup k := by
  unfold lookupAllocated
  cases p.Status.AllocatedIPs <;> rfl

theorem lookupAllocated_none_of_not_used (p : SpiderIPPool) (k : String)
    (h : k ∉ usedKeys p.Status.AllocatedIPs) : lookupAllocated p k = none := by
  unfold lookupAllocated
  unfold usedKeys at h
  cases hm : p.Status.AllocatedIPs with
  | none => rfl
  | some m =>
    rw [hm] at h
    simp only []
    by_contra hne
    exact h ((GoMap.mem_keys_iff m k).2 hne)

/-- The pool object `AllocateIP` writes, for a key that is new to the map. -/
theorem allocatedPool_spec (p : SpiderIPPool) (key : String) (a : PoolIPAllocation)
    (hfresh : lookupAllocated p key = none) :
    (allocatedPool p key a).Name = p.Name ∧ (allocatedPool p key a).Spec = p.Spec
    ∧ (allocatedPool p key a).Status.AutoDesiredIPCount = p.Status.AutoDesiredIPCount
    ∧ lookupAllocated (allocatedPool p key a) key = some a
    ∧ (∀ k, k ≠ key → lookupAllocated (allocatedPool p key a) k = lookupAllocated p k)
    ∧ (allocatedPool p key a).Status.AllocatedIPCount
        = some (wrapInt64 (p.Status.AllocatedIPCount.getD 0 + 1))
    ∧ ((allocatedPool p key a).Status.AllocatedIPs.getD []).len
        = (p.Status.AllocatedIPs.getD []).len + 1 := by
  rw [lookupAllocated_eq] at hfresh
  refine ⟨rfl, rfl, rfl, ?_, ?_, rfl, ?_⟩
  · simp [lookupAllocated, allocatedPool, GoMap.lookup_insert_self]
  · intro k hk
    rw [lookupAllocated_eq p k]
    simp [lookupAllocated, allocatedPool, GoMap.lookup_insert_ne _ _ hk]
  · simp [allocatedPool, GoMap.len_insert_of_new _ _ _ hfresh]


/-- The last attempt of a successful `AllocateIP`: while no write has succeeded the
store is as at the start, and the call can only succeed through the `break` of an
attempt `i` that fetched the stored pool `p`, chose `ip`, resolved `top`, built
`cfg`, stayed within the ceiling and wrote `allocatedPool p ..`. -/
theorem AllocateIP_success (im : Manager) (o : Oracle) (w : World)
    (poolName containerID nic : String) (pod : Pod) (p : SpiderIPPool) (r : AllocVars)
    (hN : 0 ≤ im.config.MaxConflictRetries) (hp : w.pool poolName = some p)
    (hok : (AllocateIP im o w poolName containerID nic pod).1 = .ok r) :
    ∃ i ip top cfg,
      (genRandomIP im o i w p).1 = .ok ip ∧ o.topController i pod = .ok top
      ∧ im.lib.genResIPConfig ip p.Spec nic poolName = .ok cfg
      ∧ wrapInt64 (p.Status.AllocatedIPCount.getD 0 + 1) ≤ im.config.MaxAllocatedIPs
      ∧ r = (some cfg, some (allocatedPool p (im.lib.ipString ip)
          (newAllocation containerID nic pod top)))
      ∧ (AllocateIP im o w poolName containerID nic pod).2.log.getLast?
          = some (Op.statusUpdate (allocatedPool p (im.lib.ipString ip)
              (newAllocation containerID nic pod top)))
      ∧ (AllocateIP im o w poolName containerID nic pod).2.pools
          = setStatus w.pools (allocatedPool p (im.lib.ipString ip)
              (newAllocation containerID nic pod top)) := by
  have hlast : ((im.config.MaxConflictRetries + 1).toNat : Int) = im.config.MaxConflictRetries + 1 :=
    Int.toNat_of_nonneg (by omega)
  revert r
  refine retryLoop_rule (AllocateIP.body im o poolName containerID nic pod) id
    (fun i _ w1 => w1.pools = w.pools ∧ w1.reservedIPs = w.reservedIPs
      ∧ (i : Int) ≤ im.config.MaxConflictRetries)
    (fun res w1 => ∀ r, res = .ok r → ∃ i ip top cfg,
      (genRandomIP im o i w p).1 = .ok ip ∧ o.topController i pod = .ok top
      ∧ im.lib.genResIPConfig ip p.Spec nic poolName = .ok cfg
      ∧ wrapInt64 (p.Status.AllocatedIPCount.getD 0 + 1) ≤ im.config.MaxAllocatedIPs
      ∧ r = (some cfg, some (allocatedPool p (im.lib.ipString ip)
          (newAllocation containerID nic pod top)))
      ∧ w1.log.getLast? = some (Op.statusUpdate (allocatedPool p (im.lib.ipString ip)
          (newAllocation containerID nic pod top)))
      ∧ w1.pools = setStatus w.pools (allocatedPool p (im.lib.ipString ip)
          (newAllocation containerID nic pod top)))
    (im.config.MaxConflictRetries + 1).toNat ?_ ?_ ?_ ?_
    (im.config.MaxConflictRetries + 1).toNat 0 (none, none) w (by omega)
    ⟨rfl, rfl, by simpa using hN⟩
  · intro i s0 w0 res w1 _ _ hb r hr
    subst hr
    rcases AllocateIP_body_spec im o poolName containerID nic pod i s0 w0 with
      ⟨e, _, hb1⟩ | ⟨p1, _, _, ⟨e, _, hb1⟩ | ⟨ip, _, ⟨e, _, hb1⟩ | ⟨top, _, ⟨_, hb1⟩ |
        ⟨_, ⟨e, _, hb1⟩ | ⟨cfg, _, ⟨e, hu, hb1⟩ | ⟨hu, hb1⟩⟩⟩⟩⟩⟩
    all_goals rw [hb1] at hb
    all_goals try (simp at hb; done)
    · have h1 := congrArg Prod.fst hb
      simp only [] at h1
      split_ifs at h1 <;> simp at h1
  · intro i s0 w0 s1 w1 hi hinv hb
    have hpr := AllocateIP_body_protocol im o poolName containerID nic pod i s0 w0
    rw [hb] at hpr
    rcases hpr with ⟨_, _, _, r, hr⟩ | ⟨_, _, h2⟩
    · simp at hr
    · rcases h2 with ⟨e, _, _, _, hr⟩ | ⟨e, _, _, _, _, hr⟩ | ⟨e, _, _, _, _, _, hr⟩ |
        ⟨e, s2, _, _, hpools, hiN, _, _⟩ | ⟨s2, hu, _⟩
      · simp at hr
      · simp at hr
      · simp at hr
      · simp only [] at hpools
        have hres : w1.reservedIPs = w0.reservedIPs := by
          rcases AllocateIP_body_spec im o poolName containerID nic pod i s0 w0 with
            ⟨e, _, hb1⟩ | ⟨p1, _, _, ⟨e, _, hb1⟩ | ⟨ip, _, ⟨e, _, hb1⟩ | ⟨top, _, ⟨_, hb1⟩ |
              ⟨_, ⟨e, _, hb1⟩ | ⟨cfg, _, ⟨e, hu, hb1⟩ | ⟨hu, hb1⟩⟩⟩⟩⟩⟩
          all_goals rw [hb1] at hb
          all_goals exact (congrArg (fun x => x.2.reservedIPs) hb).symm
        exact ⟨hpools.trans hinv.1, hres.trans hinv.2.1, by omega⟩
      · rcases AllocateIP_body_spec im o poolName containerID nic pod i s0 w0 with
          ⟨e, _, hb1⟩ | ⟨p1, _, _, ⟨e, _, hb1⟩ | ⟨ip, _, ⟨e, _, hb1⟩ | ⟨top, _, ⟨_, hb1⟩ |
            ⟨_, ⟨e, _, hb1⟩ | ⟨cfg, _, ⟨e, hu1, hb1⟩ | ⟨hu1, hb1⟩⟩⟩⟩⟩⟩
        all_goals rw [hb1] at hb
        all_goals try (simp at hb; done)
        rw [hu] at hu1
        cases hu1
  · intro i s0 w0 s1 w1 hi hinv hb r hr
    rcases AllocateIP_body_spec im o poolName containerID nic pod i s0 w0 with
      ⟨e, _, hb1⟩ | ⟨p1, _, hp1, ⟨e, _, hb1⟩ | ⟨ip, hg, ⟨e, _, hb1⟩ | ⟨top, htop, ⟨_, hb1⟩ |
        ⟨hceil, ⟨e, _, hb1⟩ | ⟨cfg, hcfg, ⟨e, hu, hb1⟩ | ⟨hu, hb1⟩⟩⟩⟩⟩⟩
    all_goals rw [hb1] at hb
    all_goals try (simp at hb; done)
    · have h1 := congrArg Prod.fst hb
      simp only [] at h1
      split_ifs at h1
    · rw [pool_congr w w0 hinv.1, hp] at hp1
      cases hp1
      rw [genRandomIP_congr im o i w ⟨w0.pools, w0.reservedIPs, w0.log ++ [Op.get poolName]⟩ p
        hinv.2.1] at hg
      have h1 := congrArg Prod.fst hb
      have h2 := congrArg Prod.snd hb
      simp only [Ctl.brk.injEq] at h1
      simp only [] at h2
      refine ⟨i, ip, top, cfg, hg, htop, hcfg, hceil, ?_, ?_, ?_⟩
      · have : r = s1 := by simpa using hr.symm
        rw [this, ← h1]
      · rw [← h2]
        simp
      · rw [← h2, hinv.1]
  · intro s0 w0 hinv
    omega


/-- C4, amended. Allocate postcondition.  Let the store hold pool `p` under `poolName`,
let `MaxConflictRetries ≥ 0`, and let the helpers agree on address texts
(`ParseIPRanges` returns every address of the pool whose text `ipString ip` is a key
of the allocation map).  Then a successful `AllocateIP` returns the descriptor and
the pool object `written` of an attempt that chose `ip` and resolved the owner
`top`; `written` is the last status write of the call and the object the store
holds afterwards; it is the fetched pool with one additional key `ipString ip`,
absent before, mapped to the record of `containerID`, `nic`, the node, namespace
and name of the pod and the kind and name of `top`; every other entry is
unchanged.  The counter is the `int64` increment of the fetched counter: larger by
exactly one when the fetched counter is an `int64` below `MaxInt64`, and
`MinInt64` when the fetched counter is `MaxInt64`. -/
theorem AllocateIP_postcondition (im : Manager) (o : Oracle) (w : World)
    (poolName containerID nic : String) (pod : Pod) (p : SpiderIPPool) (r : AllocVars)
    (hN : 0 ≤ im.config.MaxConflictRetries) (hp : w.pool poolName = some p)
    (hlib : ∀ totalIPs usedIPs,
      im.lib.AssembleTotalIPs p.Spec.IPVersion p.Spec.IPs p.Spec.ExcludeIPs = .ok totalIPs →
      im.lib.ParseIPRanges p.Spec.IPVersion (usedKeys p.Status.AllocatedIPs) = .ok usedIPs →
      ∀ ip ∈ totalIPs, im.lib.ipString ip ∈ usedKeys p.Status.AllocatedIPs → ip ∈ usedIPs)
    (hok : (AllocateIP im o w poolName containerID nic pod).1 = .ok r) :
    ∃ i ip top cfg written,
      (genRandomIP im o i w p).1 = .ok ip ∧ o.topController i pod = .ok top
      ∧ r = (some cfg, some written)
      ∧ (AllocateIP im o w poolName containerID nic pod).2.log.getLast?
          = some (Op.statusUpdate written)
      ∧ (AllocateIP im o w poolName containerID nic pod).2.pool poolName = some written
      ∧ written.Name = p.Name ∧ written.Spec = p.Spec
      ∧ written.Status.AutoDesiredIPCount = p.Status.AutoDesiredIPCount
      ∧ lookupAllocated p (im.lib.ipString ip) = none
      ∧ lookupAllocated written (im.lib.ipString ip) = some
          { ContainerID := containerID, NIC := nic, Node := pod.NodeName
            Namespace := pod.Namespace, Pod := pod.Name
            OwnerControllerType := top.Kind, OwnerControllerName := top.Name }
      ∧ (∀ k, k ≠ im.lib.ipString ip → lookupAllocated written k = lookupAllocated p k)
      ∧ written.Status.AllocatedIPCount
          = some (wrapInt64 (p.Status.AllocatedIPCount.getD 0 + 1))
      ∧ (MinInt64 ≤ p.Status.AllocatedIPCount.getD 0 →
          p.Status.AllocatedIPCount.getD 0 < MaxInt64 →
          written.Status.AllocatedIPCount = some (p.Status.AllocatedIPCount.getD 0 + 1))
      ∧ (p.Status.AllocatedIPCount.getD 0 = MaxInt64 →
          written.Status.AllocatedIPCount = some MinInt64)
      ∧ (written.Status.AllocatedIPs.getD []).len = (p.Status.AllocatedIPs.getD []).len + 1 := by
  obtain ⟨i, ip, top, cfg, hg, htop, _, _, hr, hlog, hpools⟩ :=
    AllocateIP_success im o w poolName containerID nic pod p r hN hp hok
  obtain ⟨usedIPs, totalIPs, hused, htot, hmem, hnot⟩ := genRandomIP_fresh im o i w p ip hg
  have hfresh : lookupAllocated p (im.lib.ipString ip) = none :=
    lookupAllocated_none_of_not_used p _
      (fun hk => hnot (hlib totalIPs usedIPs htot hused ip hmem hk))
  obtain ⟨h1, h2, h3, h4, h5, h6, h7⟩ :=
    allocatedPool_spec p (im.lib.ipString ip) (newAllocation containerID nic pod top) hfresh
  refine ⟨i, ip, top, cfg, _, hg, htop, hr, hlog, ?_, h1, h2, h3, hfresh, h4, h5, h6, ?_, ?_, h7⟩
  · have hname : (allocatedPool p (im.lib.ipString ip)
        (newAllocation containerID nic pod top)).Name = poolName :=
      World.pool_name w poolName p hp
    have := find_setStatus w.pools _ p poolName hname hp
    unfold World.pool
    rw [hpools, this]
    rfl
  · intro hlo hhi
    have hlo1 : MinInt64 ≤ p.Status.AllocatedIPCount.getD 0 + 1 := by omega
    have hhi1 : p.Status.AllocatedIPCount.getD 0 + 1 ≤ MaxInt64 := by omega
    rw [h6, wrapInt64_of_range _ hlo1 hhi1]
  · intro hmax
    rw [h6, hmax, wrapInt64_succ_max]

/-- Witness of C4 (the spec's scenario 1 on the worked pool): container `c2` of pod
`ns/p2` gets `10.0.0.2`. -/
theorem AllocateIP_postcondition_witness :
    ∃ i ip top cfg written,
      (genRandomIP exIM quiet i exWorld exPool).1 = .ok ip ∧ quiet.topController i exPod = .ok top
      ∧ ((some { Address := "10.0.0.2/24", Nic := "eth0", IPPool := "pool", Gateway := ""
                 Vlan := 0, Version := 4 },
          some (allocatedPool exPool "10.0.0.2"
            (newAllocation "c2" "eth0" exPod { Kind := "Deployment", Name := "web" })))
          : AllocVars) = (some cfg, some written)
      ∧ (AllocateIP exIM quiet exWorld "pool" "c2" "eth0" exPod).2.log.getLast?
          = some (Op.statusUpdate written)
      ∧ (AllocateIP exIM quiet exWorld "pool" "c2" "eth0" exPod).2.pool "pool" = some written
      ∧ written.Name = exPool.Name ∧ written.Spec = exPool.Spec
      ∧ written.Status.AutoDesiredIPCount = exPool.Status.AutoDesiredIPCount
      ∧ lookupAllocated exPool (exIM.lib.ipString ip) = none
      ∧ lookupAllocated written (exIM.lib.ipString ip) = some
          { ContainerID := "c2", NIC := "eth0", Node := exPod.NodeName
            Namespace := exPod.Namespace, Pod := exPod.Name
            OwnerControllerType := top.Kind, OwnerControllerName := top.Name }
      ∧ (∀ k, k ≠ exIM.lib.ipString ip → lookupAllocated written k = lookupAllocated exPool k)
      ∧ written.Status.AllocatedIPCount
          = some (wrapInt64 (exPool.Status.AllocatedIPCount.getD 0 + 1))
      ∧ (MinInt64 ≤ exPool.Status.AllocatedIPCount.getD 0 →
          exPool.Status.AllocatedIPCount.getD 0 < MaxInt64 →
          written.Status.AllocatedIPCount = some (exPool.Status.AllocatedIPCount.getD 0 + 1))
      ∧ (exPool.Status.AllocatedIPCount.getD 0 = MaxInt64 →
          written.Status.AllocatedIPCount = some MinInt64)
      ∧ (written.Status.AllocatedIPs.getD []).len
          = (exPool.Status.AllocatedIPs.getD []).len + 1 :=
  AllocateIP_postcondition exIM quiet exWorld "pool" "c2" "eth0" exPod exPool _ (by decide)
    (by decide)
    (by
      intro totalIPs usedIPs htot hused
      have h1 : exIM.lib.AssembleTotalIPs exPool.Spec.IPVersion exPool.Spec.IPs
          exPool.Spec.ExcludeIPs = .ok [1, 2, 3] := rfl
      have h2 : exIM.lib.ParseIPRanges exPool.Spec.IPVersion
          (usedKeys exPool.Status.AllocatedIPs) = .ok [1] := rfl
      rw [h1] at htot
      rw [h2] at hused
      cases htot
      cases hused
      decide)
    (by decide)


/-- C4, counterexample.  On the worked pool with its counter at `MaxInt64` (ceiling
ten), `AllocateIP` succeeds with one status write, and the counter of the pool it
writes and the store holds afterwards is `MinInt64`: the `int64` increment wraps, the
ceiling test passes, and the counter is not larger by one. -/
theorem AllocateIP_counter_wraps_at_MaxInt64 :
    exMaxCountPool.Status.AllocatedIPCount = some MaxInt64
    ∧ (AllocateIP exIM quiet exMaxCountWorld "pool" "c2" "eth0" exPod).1
        = .ok (some (exConfig "10.0.0.2/24"),
            some (allocatedPool exMaxCountPool "10.0.0.2"
              (newAllocation "c2" "eth0" exPod { Kind := "Deployment", Name := "web" })))
    ∧ (AllocateIP exIM quiet exMaxCountWorld "pool" "c2" "eth0" exPod).2.writes = 1
    ∧ ((AllocateIP exIM quiet exMaxCountWorld "pool" "c2" "eth0" exPod).2.pool "pool").map
        (fun q => q.Status.AllocatedIPCount) = some (some MinInt64)
    ∧ ¬ (MinInt64 = MaxInt64 + 1) ∧ MinInt64 < MaxInt64 := by
  refine ⟨by decide, by decide, by decide, by decide, by decide, by decide⟩


/-- A property of the world that every attempt keeps holds after the loop. -/
theorem retryLoop_preserves {ρ σ : Type} (body : Nat → σ → World → Ctl ρ σ × World)
    (finish : σ → ρ) (Q : World → Prop) (hbody : ∀ i s w, Q w → Q (body i s w).2) :
    ∀ fuel i s w, Q w → Q (retryLoop body finish fuel i s w).2 := by
  intro fuel
  induction fuel with
  | zero => intro i s w hq; exact hq
  | succ fuel ih =>
    intro i s w hq
    have hb := hbody i s w hq
    unfold retryLoop
    cases hbd : body i s w with
    | mk c w1 =>
      rw [hbd] at hb
      cases c with
      | ret r => exact hb
      | cont s1 => exact ih (i + 1) s1 w1 hb
      | brk s1 => exact hb

theorem allocatedPool_count (p : SpiderIPPool) (key : String) (a : PoolIPAllocation) :
    (allocatedPool p key a).Status.AllocatedIPCount.getD 0
      = wrapInt64 (p.Status.AllocatedIPCount.getD 0 + 1) := rfl

theorem mem_setStatus (pools : List SpiderIPPool) (q x : SpiderIPPool)
    (h : x ∈ setStatus pools q) : x ∈ pools ∨ x.Status = q.Status := by
  unfold setStatus at h
  obtain ⟨y, hy, hxy⟩ := List.mem_map.1 h
  by_cases hn : y.Name = q.Name
  · rw [if_pos hn] at hxy
    right
    rw [← hxy]
  · rw [if_neg hn] at hxy
    left
    rw [← hxy]
    exact hy

/-- C5. Ceiling.  (a) Every status write `AllocateIP` issues carries a counter of at
most `MaxAllocatedIPs`.  (b) When the incremented count, the `int64` that
`*AllocatedIPCount++` leaves in the fetched pool, exceeds `MaxAllocatedIPs` (and
`MaxConflictRetries ≥ 0`), the call fails without a status write and with the store
unchanged, and once the first attempt has fetched the pool, chosen an address and
resolved the owner, the error is the ceiling error (`ErrIPUsedOut` wrapped with the
threshold).  (c) If every stored pool has a counter of at most `MaxAllocatedIPs`
before the call, so it has after the call.  (d) For a stored counter that is an
`int64` below `MaxInt64` the incremented count is the counter plus one, so (b)
applies when the counter plus one exceeds `MaxAllocatedIPs`; at `MaxInt64` the
incremented count is `MinInt64`, which exceeds no ceiling. -/
theorem AllocateIP_ceiling (im : Manager) (o : Oracle) (w : World)
    (poolName containerID nic : String) (pod : Pod) :
    (∀ q, Op.statusUpdate q ∈ (AllocateIP im o w poolName containerID nic pod).2.log →
      Op.statusUpdate q ∈ w.log ∨ q.Status.AllocatedIPCount.getD 0 ≤ im.config.MaxAllocatedIPs)
    ∧ (∀ p, 0 ≤ im.config.MaxConflictRetries → w.pool poolName = some p →
      im.config.MaxAllocatedIPs < wrapInt64 (p.Status.AllocatedIPCount.getD 0 + 1) →
      (∃ e, (AllocateIP im o w poolName containerID nic pod).1 = .err e)
      ∧ (AllocateIP im o w poolName containerID nic pod).2.writes = w.writes
      ∧ (AllocateIP im o w poolName containerID nic pod).2.pools = w.pools
      ∧ (∀ ip top, o.getErr 0 = none → (genRandomIP im o 0 w p).1 = .ok ip →
          o.topController 0 pod = .ok top →
          (AllocateIP im o w poolName containerID nic pod).1
            = .err (Err.ipUsedOutThreshold im.config.MaxAllocatedIPs poolName)))
    ∧ ((∀ q ∈ w.pools, q.Status.AllocatedIPCount.getD 0 ≤ im.config.MaxAllocatedIPs) →
      ∀ q ∈ (AllocateIP im o w poolName containerID nic pod).2.pools,
        q.Status.AllocatedIPCount.getD 0 ≤ im.config.MaxAllocatedIPs)
    ∧ (∀ p, w.pool poolName = some p →
      (MinInt64 ≤ p.Status.AllocatedIPCount.getD 0 →
        p.Status.AllocatedIPCount.getD 0 < MaxInt64 →
        wrapInt64 (p.Status.AllocatedIPCount.getD 0 + 1)
          = p.Status.AllocatedIPCount.getD 0 + 1)
      ∧ (p.Status.AllocatedIPCount.getD 0 = MaxInt64 →
        wrapInt64 (p.Status.AllocatedIPCount.getD 0 + 1) = MinInt64)) := by
  refine ⟨?_, ?_, ?_, ?_⟩
  · refine retryLoop_preserves (AllocateIP.body im o poolName containerID nic pod) id
      (fun w1 => ∀ q, Op.statusUpdate q ∈ w1.log →
        Op.statusUpdate q ∈ w.log ∨ q.Status.AllocatedIPCount.getD 0 ≤ im.config.MaxAllocatedIPs)
      ?_ _ 0 (none, none) w (fun q hq => Or.inl hq)
    intro i s0 w0 hq0 q hq
    rcases AllocateIP_body_spec im o poolName containerID nic pod i s0 w0 with
      ⟨e, _, hb1⟩ | ⟨p1, _, _, ⟨e, _, hb1⟩ | ⟨ip, _, ⟨e, _, hb1⟩ | ⟨top, _, ⟨_, hb1⟩ |
        ⟨hceil, ⟨e, _, hb1⟩ | ⟨cfg, _, ⟨e, hu, hb1⟩ | ⟨hu, hb1⟩⟩⟩⟩⟩⟩
    all_goals rw [hb1] at hq
    all_goals simp only [List.mem_append, List.mem_cons, List.mem_singleton, List.not_mem_nil,
      or_false, Op.statusUpdate.injEq, reduceCtorEq, false_or] at hq
    all_goals first
      | exact hq0 q hq
      | (rcases hq with hq | hq
         · exact hq0 q hq
         · right
           rw [hq, allocatedPool_count]
           exact hceil)
  · intro p hN hp hceil
    have hlast : ((im.config.MaxConflictRetries + 1).toNat : Int)
        = im.config.MaxConflictRetries + 1 := Int.toNat_of_nonneg (by omega)
    obtain ⟨fuel, hfuel⟩ : ∃ fuel, (im.config.MaxConflictRetries + 1).toNat = fuel + 1 :=
      ⟨(im.config.MaxConflictRetries + 1).toNat - 1, by omega⟩
    unfold AllocateIP
    rw [hfuel]
    unfold retryLoop
    rcases AllocateIP_body_spec im o poolName containerID nic pod 0 (none, none) w with
      ⟨e, hge, hb1⟩ | ⟨p1, hget, hp1, ⟨e, hg, hb1⟩ | ⟨ip, hg, ⟨e, ht, hb1⟩ | ⟨top, ht, ⟨_, hb1⟩ |
        ⟨hc, _⟩⟩⟩⟩
    · rw [hb1]
      refine ⟨⟨e, rfl⟩, by simp [World.writes, List.countP_append, List.countP_cons,
        Op.isStatusUpdate], rfl, ?_⟩
      intro ip top hget _ _
      rcases hge with h | ⟨_, h⟩
      · rw [hget] at h; cases h
      · rw [hp] at h; cases h
    · rw [hb1]
      refine ⟨⟨e, rfl⟩, by simp [World.writes, List.countP_append, List.countP_cons,
        Op.isStatusUpdate], rfl, ?_⟩
      intro ip top _ hg2 _
      rw [hp] at hp1
      cases hp1
      rw [genRandomIP_congr im o 0 w ⟨w.pools, w.reservedIPs, w.log ++ [Op.get poolName]⟩ p rfl,
        hg2] at hg
      cases hg
    · rw [hb1]
      refine ⟨⟨e, rfl⟩, by simp [World.writes, List.countP_append, List.countP_cons,
        Op.isStatusUpdate], rfl, ?_⟩
      intro ip1 top _ _ ht2
      rw [ht2] at ht
      cases ht
    · rw [hb1]
      exact ⟨⟨_, rfl⟩, by simp [World.writes, List.countP_append, List.countP_cons,
        Op.isStatusUpdate], rfl, fun _ _ _ _ _ => rfl⟩
    · rw [hp] at hp1
      cases hp1
      omega
  · intro hall
    refine retryLoop_preserves (AllocateIP.body im o poolName containerID nic pod) id
      (fun w1 => ∀ q ∈ w1.pools, q.Status.AllocatedIPCount.getD 0 ≤ im.config.MaxAllocatedIPs)
      ?_ _ 0 (none, none) w hall
    intro i s0 w0 hq0 q hq
    rcases AllocateIP_body_spec im o poolName containerID nic pod i s0 w0 with
      ⟨e, _, hb1⟩ | ⟨p1, _, _, ⟨e, _, hb1⟩ | ⟨ip, _, ⟨e, _, hb1⟩ | ⟨top, _, ⟨_, hb1⟩ |
        ⟨hceil, ⟨e, _, hb1⟩ | ⟨cfg, _, ⟨e, hu, hb1⟩ | ⟨hu, hb1⟩⟩⟩⟩⟩⟩
    all_goals rw [hb1] at hq
    all_goals first
      | exact hq0 q hq
      | (rcases mem_setStatus _ _ _ hq with hq | hq
         · exact hq0 q hq
         · rw [hq, allocatedPool_count]
           exact hceil)
  · intro p _
    refine ⟨fun hlo hhi => wrapInt64_of_range _ (by omega) (by omega), fun hmax => ?_⟩
    rw [hmax, wrapInt64_succ_max]

/-- Witness of C5: with a ceiling of one allocation per pool, the worked pool (one
allocation) refuses a second one with the ceiling error and without a write. -/
theorem AllocateIP_ceiling_witness :
    (∃ e, (AllocateIP { exIM with config := { MaxConflictRetries := 3, MaxAllocatedIPs := 1 } }
        quiet exWorld "pool" "c2" "eth0" exPod).1 = .err e)
    ∧ (AllocateIP { exIM with config := { MaxConflictRetries := 3, MaxAllocatedIPs := 1 } }
        quiet exWorld "pool" "c2" "eth0" exPod).2.writes = exWorld.writes
    ∧ (AllocateIP { exIM with config := { MaxConflictRetries := 3, MaxAllocatedIPs := 1 } }
        quiet exWorld "pool" "c2" "eth0" exPod).2.pools = exWorld.pools
    ∧ (∀ ip top, quiet.getErr 0 = none →
        (genRandomIP { exIM with config := { MaxConflictRetries := 3, MaxAllocatedIPs := 1 } }
          quiet 0 exWorld exPool).1 = .ok ip →
        quiet.topController 0 exPod = .ok top →
        (AllocateIP { exIM with config := { MaxConflictRetries := 3, MaxAllocatedIPs := 1 } }
          quiet exWorld "pool" "c2" "eth0" exPod).1 = .err (Err.ipUsedOutThreshold 1 "pool")) :=
  (AllocateIP_ceiling { exIM with config := { MaxConflictRetries := 3, MaxAllocatedIPs := 1 } }
    quiet exWorld "pool" "c2" "eth0" exPod).2.1 exPool (by decide) (by decide) (by decide)


/-! ## ReleaseIP: the effect of a release -/

theorem mem_removedKeys (m : GoMap PoolIPAllocation) (es : List IPAndCID) (k : String) :
    k ∈ removedKeys m es ↔ ∃ e ∈ es, e.IP = k ∧ Matches m e := by
  simp only [removedKeys, List.mem_dedup, List.mem_map, List.mem_filter, decide_eq_true_eq]
  constructor
  · rintro ⟨e, ⟨he, hm⟩, rfl⟩
    exact ⟨e, he, rfl, hm⟩
  · rintro ⟨e, he, rfl, hm⟩
    exact ⟨e, ⟨he, hm⟩, rfl⟩

theorem removedKeys_length (m : GoMap PoolIPAllocation) (es : List IPAndCID) :
    (removedKeys m es).length = (removedKeys m es).toFinset.card := by
  rw [List.toFinset_card_of_nodup]
  exact List.nodup_dedup _

theorem releaseStep_of_not_matches (m : GoMap PoolIPAllocation) (c : Int) (flag : Bool)
    (e : IPAndCID) (h : ¬ Matches m e) : releaseStep (m, c, flag) e = (m, c, flag) := by
  unfold releaseStep
  unfold Matches at h
  cases hl : m.lookup e.IP with
  | none => rfl
  | some a =>
    have : a.ContainerID ≠ e.ContainerID := fun hc => h (by simp [hl, hc])
    simp [this]

theorem releaseStep_of_matches (m : GoMap PoolIPAllocation) (c : Int) (flag : Bool)
    (e : IPAndCID) (h : Matches m e) :
    releaseStep (m, c, flag) e = (m.delete e.IP, wrapInt64 (c - 1), true) := by
  unfold releaseStep
  unfold Matches at h
  cases hl : m.lookup e.IP with
  | none => simp [hl] at h
  | some a =>
    have : a.ContainerID = e.ContainerID := by simpa [hl] using h
    simp [this]

theorem matches_delete (m : GoMap PoolIPAllocation) (k : String) (e : IPAndCID) :
    Matches (m.delete k) e ↔ e.IP ≠ k ∧ Matches m e := by
  unfold Matches
  by_cases hk : e.IP = k
  · rw [hk, GoMap.lookup_delete_self]
    simp
  · rw [GoMap.lookup_delete_ne m hk]
    simp [hk]

theorem removedKeys_cons_of_matches (m : GoMap PoolIPAllocation) (e : IPAndCID)
    (rest : List IPAndCID) (h : Matches m e) :
    (removedKeys m (e :: rest)).toFinset
      = insert e.IP (removedKeys (m.delete e.IP) rest).toFinset
    ∧ e.IP ∉ (removedKeys (m.delete e.IP) rest).toFinset := by
  constructor
  · ext k
    simp only [List.mem_toFinset, Finset.mem_insert, mem_removedKeys, List.mem_cons,
      matches_delete]
    constructor
    · rintro ⟨e1, he1 | he1, hk, hm⟩
      · left
        rw [← hk, he1]
      · by_cases hke : k = e.IP
        · exact Or.inl hke
        · exact Or.inr ⟨e1, he1, hk, fun h2 => hke (hk ▸ h2), hm⟩
    · rintro (hk | ⟨e1, he1, hk, _, hm⟩)
      · exact ⟨e, Or.inl rfl, hk.symm, h⟩
      · exact ⟨e1, Or.inr he1, hk, hm⟩
  · simp only [List.mem_toFinset, mem_removedKeys, matches_delete]
    rintro ⟨e1, _, hk, hne, _⟩
    exact hne hk

theorem removedKeys_cons_of_not_matches (m : GoMap PoolIPAllocation) (e : IPAndCID)
    (rest : List IPAndCID) (h : ¬ Matches m e) :
    removedKeys m (e :: rest) = removedKeys m rest := by
  simp [removedKeys, List.filter_cons, h]

/-- The inner loop of `ReleaseIP`, from any state: the map loses exactly the keys of
the matching pairs, the counter is left alone when there is none and is otherwise
the `int64` that holds the counter less the number of those keys, and the flag is
raised when there is one. -/
theorem releaseFold_spec (es : List IPAndCID) :
    ∀ (m : GoMap PoolIPAllocation) (c : Int) (flag : Bool),
      (∀ k, k ∈ removedKeys m es → (es.foldl releaseStep (m, c, flag)).1.lookup k = none)
      ∧ (∀ k, k ∉ removedKeys m es →
          (es.foldl releaseStep (m, c, flag)).1.lookup k = m.lookup k)
      ∧ (es.foldl releaseStep (m, c, flag)).2.1
          = (if (removedKeys m es).length = 0 then c
             else wrapInt64 (c - ((removedKeys m es).length : Int)))
      ∧ ((es.foldl releaseStep (m, c, flag)).2.2 = true ↔
          flag = true ∨ ∃ e ∈ es, Matches m e) := by
  induction es with
  | nil =>
    intro m c flag
    simp [removedKeys]
  | cons e rest ih =>
    intro m c flag
    rw [List.foldl_cons]
    by_cases h : Matches m e
    · rw [releaseStep_of_matches m c flag e h]
      obtain ⟨ih1, ih2, ih3, ih4⟩ := ih (m.delete e.IP) (wrapInt64 (c - 1)) true
      obtain ⟨hset, hnot⟩ := removedKeys_cons_of_matches m e rest h
      have hmem : ∀ k, k ∈ removedKeys m (e :: rest) ↔
          k = e.IP ∨ k ∈ removedKeys (m.delete e.IP) rest := by
        intro k
        have := congrArg (fun s => k ∈ s) hset
        simpa using this
      refine ⟨?_, ?_, ?_, ?_⟩
      · intro k hk
        by_cases hk2 : k ∈ removedKeys (m.delete e.IP) rest
        · exact ih1 k hk2
        · rw [ih2 k hk2]
          rcases (hmem k).1 hk with hk3 | hk3
          · rw [hk3, GoMap.lookup_delete_self]
          · exact absurd hk3 hk2
      · intro k hk
        have hk1 : k ≠ e.IP := fun h1 => hk ((hmem k).2 (Or.inl h1))
        have hk2 : k ∉ removedKeys (m.delete e.IP) rest := fun h1 => hk ((hmem k).2 (Or.inr h1))
        rw [ih2 k hk2, GoMap.lookup_delete_ne m hk1]
      · have hlen : (removedKeys m (e :: rest)).length
            = (removedKeys (m.delete e.IP) rest).length + 1 := by
          rw [removedKeys_length m (e :: rest), removedKeys_length (m.delete e.IP) rest, hset,
            Finset.card_insert_of_not_mem hnot]
        rw [ih3, hlen, if_neg (Nat.succ_ne_zero _)]
        by_cases h0 : (removedKeys (m.delete e.IP) rest).length = 0
        · rw [if_pos h0, h0]
          rfl
        · rw [if_neg h0, wrapInt64_sub]
          congr 1
          push_cast
          ring
      · rw [ih4]
        simp only [true_or, true_iff]
        exact Or.inr ⟨e, List.mem_cons_self _ _, h⟩
    · rw [releaseStep_of_not_matches m c flag e h, removedKeys_cons_of_not_matches m e rest h]
      obtain ⟨ih1, ih2, ih3, ih4⟩ := ih m c flag
      refine ⟨ih1, ih2, ih3, ?_⟩
      rw [ih4]
      constructor
      · rintro (hf | ⟨e1, he1, hm⟩)
        · exact Or.inl hf
        · exact Or.inr ⟨e1, List.mem_cons_of_mem _ he1, hm⟩
      · rintro (hf | ⟨e1, he1, hm⟩)
        · exact Or.inl hf
        · rcases List.mem_cons.1 he1 with he2 | he2
          · exact absurd (he2 ▸ hm) h
          · exact Or.inr ⟨e1, he2, hm⟩


theorem needToRelease_iff (p : SpiderIPPool) (es : List IPAndCID) :
    needToRelease p es = true ↔ ∃ e ∈ es, Matches (p.Status.AllocatedIPs.getD []) e := by
  unfold needToRelease releaseEntries
  rw [(releaseFold_spec es _ _ false).2.2.2]
  simp

/-- The last attempt of a successful `ReleaseIP` that has something to release: the
status write of `releasedPool p ..` is the last operation and is applied to the
store as it was at the start. -/
theorem ReleaseIP_success (im : Manager) (o : Oracle) (w : World) (poolName : String)
    (ipAndCIDs : List IPAndCID) (p : SpiderIPPool)
    (hN : 0 ≤ im.config.MaxConflictRetries) (hp : w.pool poolName = some p)
    (hneed : needToRelease p ipAndCIDs = true)
    (hok : (ReleaseIP im o w poolName ipAndCIDs).1 = .ok ()) :
    (ReleaseIP im o w poolName ipAndCIDs).2.log.getLast?
        = some (Op.statusUpdate (releasedPool p ipAndCIDs))
    ∧ (ReleaseIP im o w poolName ipAndCIDs).2.pools
        = setStatus w.pools (releasedPool p ipAndCIDs) := by
  have hlast : ((im.config.MaxConflictRetries + 1).toNat : Int) = im.config.MaxConflictRetries + 1 :=
    Int.toNat_of_nonneg (by omega)
  revert hok
  refine retryLoop_rule (ReleaseIP.body im o poolName ipAndCIDs) id
    (fun i _ w1 => w1.pools = w.pools ∧ (i : Int) ≤ im.config.MaxConflictRetries)
    (fun res w1 => res = .ok () →
      w1.log.getLast? = some (Op.statusUpdate (releasedPool p ipAndCIDs))
      ∧ w1.pools = setStatus w.pools (releasedPool p ipAndCIDs))
    (im.config.MaxConflictRetries + 1).toNat ?_ ?_ ?_ ?_
    (im.config.MaxConflictRetries + 1).toNat 0 () w (by omega) ⟨rfl, by simpa using hN⟩
  · intro i s0 w0 res w1 _ hinv hb hr
    subst hr
    rcases ReleaseIP_body_spec im o poolName ipAndCIDs i s0 w0 with
      ⟨e, _, hb1⟩ | ⟨p1, _, hp1, ⟨hn, hb1⟩ | ⟨_, ⟨e, hu, hb1⟩ | ⟨hu, hb1⟩⟩⟩
    all_goals rw [hb1] at hb
    all_goals try (simp at hb; done)
    · rw [pool_congr w w0 hinv.1, hp] at hp1
      cases hp1
      rw [hneed] at hn
      cases hn
    · have h1 := congrArg Prod.fst hb
      simp only [] at h1
      split_ifs at h1 <;> simp at h1
  · intro i s0 w0 s1 w1 hi hinv hb
    have hpr := ReleaseIP_body_protocol im o poolName ipAndCIDs i s0 w0
    rw [hb] at hpr
    rcases hpr with ⟨_, _, _, r, hr⟩ | ⟨_, _, h2⟩
    · simp at hr
    · rcases h2 with ⟨e, _, _, _, hr⟩ | ⟨e, _, _, _, _, hr⟩ | ⟨e, _, _, _, _, _, hr⟩ |
        ⟨e, s2, _, _, hpools, hiN, _, _⟩ | ⟨s2, hu, _⟩
      · simp at hr
      · simp at hr
      · simp at hr
      · simp only [] at hpools
        exact ⟨hpools.trans hinv.1, by omega⟩
      · rcases ReleaseIP_body_spec im o poolName ipAndCIDs i s0 w0 with
          ⟨e, _, hb1⟩ | ⟨p1, _, hp1, ⟨hn, hb1⟩ | ⟨_, ⟨e, hu1, hb1⟩ | ⟨hu1, hb1⟩⟩⟩
        all_goals rw [hb1] at hb
        all_goals try (simp at hb; done)
        rw [hu] at hu1
        cases hu1
  · intro i s0 w0 s1 w1 hi hinv hb _
    rcases ReleaseIP_body_spec im o poolName ipAndCIDs i s0 w0 with
      ⟨e, _, hb1⟩ | ⟨p1, _, hp1, ⟨hn, hb1⟩ | ⟨_, ⟨e, hu, hb1⟩ | ⟨hu, hb1⟩⟩⟩
    all_goals rw [hb1] at hb
    all_goals try (simp at hb; done)
    · have h1 := congrArg Prod.fst hb
      simp only [] at h1
      split_ifs at h1
    · rw [pool_congr w w0 hinv.1, hp] at hp1
      cases hp1
      have h2 := congrArg Prod.snd hb
      simp only [] at h2
      rw [← h2]
      exact ⟨by simp, by rw [hinv.1]⟩
  · intro s0 w0 hinv
    omega

/-- C6, amended. Release effect.  Let the store hold pool `p` under `poolName`, let
`MaxConflictRetries ≥ 0` and let at least one listed pair match the allocation map
of `p`.  When `ReleaseIP` succeeds, its last operation is the status write of an
object `written` that the store holds afterwards; `written` is `p` with an
allocation map that has lost exactly the keys named by the matching pairs
(`removedKeys`), every other entry being unchanged.  The counter is the `int64` left
by one decrement per distinct key removed: it is decreased by exactly the number of
those keys when the fetched counter is an `int64` and the difference is not below
`MinInt64`; below `MinInt64` it wraps around. -/
theorem ReleaseIP_effect (im : Manager) (o : Oracle) (w : World) (poolName : String)
    (ipAndCIDs : List IPAndCID) (p : SpiderIPPool)
    (hN : 0 ≤ im.config.MaxConflictRetries) (hp : w.pool poolName = some p)
    (hmatch : ∃ e ∈ ipAndCIDs, Matches (p.Status.AllocatedIPs.getD []) e)
    (hok : (ReleaseIP im o w poolName ipAndCIDs).1 = .ok ()) :
    ∃ written,
      (ReleaseIP im o w poolName ipAndCIDs).2.log.getLast? = some (Op.statusUpdate written)
      ∧ (ReleaseIP im o w poolName ipAndCIDs).2.pool poolName = some written
      ∧ written.Name = p.Name ∧ written.Spec = p.Spec
      ∧ written.Status.AutoDesiredIPCount = p.Status.AutoDesiredIPCount
      ∧ (∀ k, k ∈ removedKeys (p.Status.AllocatedIPs.getD []) ipAndCIDs ↔
          ∃ e ∈ ipAndCIDs, e.IP = k ∧ Matches (p.Status.AllocatedIPs.getD []) e)
      ∧ (∀ k, k ∈ removedKeys (p.Status.AllocatedIPs.getD []) ipAndCIDs →
          lookupAllocated written k = none)
      ∧ (∀ k, k ∉ removedKeys (p.Status.AllocatedIPs.getD []) ipAndCIDs →
          lookupAllocated written k = lookupAllocated p k)
      ∧ written.Status.AllocatedIPCount = some (wrapInt64 (p.Status.AllocatedIPCount.getD 0
          - ((removedKeys (p.Status.AllocatedIPs.getD []) ipAndCIDs).length : Int)))
      ∧ (p.Status.AllocatedIPCount.getD 0 ≤ MaxInt64 →
          MinInt64 ≤ p.Status.AllocatedIPCount.getD 0
            - ((removedKeys (p.Status.AllocatedIPs.getD []) ipAndCIDs).length : Int) →
          written.Status.AllocatedIPCount = some (p.Status.AllocatedIPCount.getD 0
            - ((removedKeys (p.Status.AllocatedIPs.getD []) ipAndCIDs).length : Int))) := by
  have hneed := (needToRelease_iff p ipAndCIDs).2 hmatch
  obtain ⟨hlog, hpools⟩ := ReleaseIP_success im o w poolName ipAndCIDs p hN hp hneed hok
  obtain ⟨h1, h2, h3, _⟩ := releaseFold_spec ipAndCIDs (p.Status.AllocatedIPs.getD [])
    (p.Status.AllocatedIPCount.getD 0) false
  have hpos : (removedKeys (p.Status.AllocatedIPs.getD []) ipAndCIDs).length ≠ 0 := by
    obtain ⟨e, he, hm⟩ := hmatch
    have hmem : e.IP ∈ removedKeys (p.Status.AllocatedIPs.getD []) ipAndCIDs :=
      (mem_removedKeys _ _ _).2 ⟨e, he, rfl, hm⟩
    intro h0
    rw [List.length_eq_zero] at h0
    rw [h0] at hmem
    cases hmem
  rw [if_neg hpos] at h3
  refine ⟨releasedPool p ipAndCIDs, hlog, ?_, rfl, rfl, rfl, mem_removedKeys _ _, ?_, ?_, ?_, ?_⟩
  · have hname : (releasedPool p ipAndCIDs).Name = poolName := World.pool_name w poolName p hp
    have := find_setStatus w.pools _ p poolName hname hp
    unfold World.pool
    rw [hpools, this]
    rfl
  · intro k hk
    exact h1 k hk
  · intro k hk
    rw [lookupAllocated_eq p k]
    exact h2 k hk
  · exact congrArg some h3
  · intro hhi hlo
    have hk : (0 : Int) ≤ ((removedKeys (p.Status.AllocatedIPs.getD []) ipAndCIDs).length : Int) :=
      Int.natCast_nonneg _
    rw [← wrapInt64_of_range _ hlo (by omega)]
    exact congrArg some h3

/-- Witness of C6: the request lists the matching pair of `10.0.0.1` twice and a
foreign pair; one key is removed and the counter goes from one to zero. -/
theorem ReleaseIP_effect_witness :
    ∃ written,
      (ReleaseIP exIM quiet exWorld "pool"
          [⟨"10.0.0.1", "c1"⟩, ⟨"10.0.0.1", "c1"⟩, ⟨"10.0.0.2", "c9"⟩]).2.log.getLast?
        = some (Op.statusUpdate written)
      ∧ (ReleaseIP exIM quiet exWorld "pool"
          [⟨"10.0.0.1", "c1"⟩, ⟨"10.0.0.1", "c1"⟩, ⟨"10.0.0.2", "c9"⟩]).2.pool "pool"
        = some written
      ∧ written.Name = exPool.Name ∧ written.Spec = exPool.Spec
      ∧ written.Status.AutoDesiredIPCount = exPool.Status.AutoDesiredIPCount
      ∧ (∀ k, k ∈ removedKeys (exPool.Status.AllocatedIPs.getD [])
            [⟨"10.0.0.1", "c1"⟩, ⟨"10.0.0.1", "c1"⟩, ⟨"10.0.0.2", "c9"⟩] ↔
          ∃ e ∈ ([⟨"10.0.0.1", "c1"⟩, ⟨"10.0.0.1", "c1"⟩, ⟨"10.0.0.2", "c9"⟩] : List IPAndCID),
            e.IP = k ∧ Matches (exPool.Status.AllocatedIPs.getD []) e)
      ∧ (∀ k, k ∈ removedKeys (exPool.Status.AllocatedIPs.getD [])
            [⟨"10.0.0.1", "c1"⟩, ⟨"10.0.0.1", "c1"⟩, ⟨"10.0.0.2", "c9"⟩] →
          lookupAllocated written k = none)
      ∧ (∀ k, k ∉ removedKeys (exPool.Status.AllocatedIPs.getD [])
            [⟨"10.0.0.1", "c1"⟩, ⟨"10.0.0.1", "c1"⟩, ⟨"10.0.0.2", "c9"⟩] →
          lookupAllocated written k = lookupAllocated exPool k)
      ∧ written.Status.AllocatedIPCount = some (wrapInt64 (exPool.Status.AllocatedIPCount.getD 0
          - ((removedKeys (exPool.Status.AllocatedIPs.getD [])
              [⟨"10.0.0.1", "c1"⟩, ⟨"10.0.0.1", "c1"⟩, ⟨"10.0.0.2", "c9"⟩]).length : Int)))
      ∧ (exPool.Status.AllocatedIPCount.getD 0 ≤ MaxInt64 →
          MinInt64 ≤ exPool.Status.AllocatedIPCount.getD 0
            - ((removedKeys (exPool.Status.AllocatedIPs.getD [])
                [⟨"10.0.0.1", "c1"⟩, ⟨"10.0.0.1", "c1"⟩, ⟨"10.0.0.2", "c9"⟩]).length : Int) →
          written.Status.AllocatedIPCount = some (exPool.Status.AllocatedIPCount.getD 0
            - ((removedKeys (exPool.Status.AllocatedIPs.getD [])
                [⟨"10.0.0.1", "c1"⟩, ⟨"10.0.0.1", "c1"⟩, ⟨"10.0.0.2", "c9"⟩]).length : Int))) :=
  ReleaseIP_effect exIM quiet exWorld "pool"
    [⟨"10.0.0.1", "c1"⟩, ⟨"10.0.0.1", "c1"⟩, ⟨"10.0.0.2", "c9"⟩] exPool (by decide) (by decide)
    ⟨⟨"10.0.0.1", "c1"⟩, by decide, by decide⟩ (by decide)

/-- C6, counterexample.  On the worked pool with its counter at `MinInt64`, the release
of `10.0.0.1` by container `c1` succeeds with one status write and removes one key,
and the counter of the pool the store holds afterwards is `MaxInt64`: the `int64`
decrement wraps, and the counter is not decreased by one. -/
theorem ReleaseIP_counter_wraps_at_MinInt64 :
    exMinCountPool.Status.AllocatedIPCount = some MinInt64
    ∧ Matches (exMinCountPool.Status.AllocatedIPs.getD []) ⟨"10.0.0.1", "c1"⟩
    ∧ removedKeys (exMinCountPool.Status.AllocatedIPs.getD []) [⟨"10.0.0.1", "c1"⟩]
        = ["10.0.0.1"]
    ∧ (ReleaseIP exIM quiet exMinCountWorld "pool" [⟨"10.0.0.1", "c1"⟩]).1 = .ok ()
    ∧ (ReleaseIP exIM quiet exMinCountWorld "pool" [⟨"10.0.0.1", "c1"⟩]).2.writes = 1
    ∧ ((ReleaseIP exIM quiet exMinCountWorld "pool" [⟨"10.0.0.1", "c1"⟩]).2.pool "pool").map
        (fun q => (lookupAllocated q "10.0.0.1", q.Status.AllocatedIPCount))
        = some (none, some MaxInt64)
    ∧ ¬ (MaxInt64 = MinInt64 - 1) ∧ MinInt64 < MaxInt64 := by
  refine ⟨by decide, by decide, by decide, by decide, by decide, by decide, by decide, by decide⟩


/-! ## UpdateAllocatedIPs -/

/-- The store holds, under the pool name of `oldIPConfig`, a pool whose record for the
old IP carries `containerID`. -/
theorem rebound_record (w : World) (p : SpiderIPPool) (m : GoMap PoolIPAllocation)
    (containerID : String) (pod : Pod) (oldIPConfig : IPConfig) (rs : List SpiderReservedIP)
    (log : List Op) (hp : w.pool oldIPConfig.IPPool = some p) :
    World.pool ⟨setStatus w.pools (reboundPool p m containerID pod oldIPConfig), rs, log⟩
        oldIPConfig.IPPool = some (reboundPool p m containerID pod oldIPConfig)
    ∧ lookupAllocated (reboundPool p m containerID pod oldIPConfig)
        (cutSlash oldIPConfig.Address) = some (reboundAllocation containerID pod oldIPConfig) := by
  have hname : (reboundPool p m containerID pod oldIPConfig).Name = oldIPConfig.IPPool :=
    World.pool_name w _ p hp
  refine ⟨?_, ?_⟩
  · rw [pool_setStatus w _ p _ rs log hname hp]
    rfl
  · simp [lookupAllocated, reboundPool, GoMap.lookup_insert_self]

/-- One call of `UpdateAllocatedIPs` on a pool whose record for the old IP already
carries `containerID`: no status write, store unchanged, success when the `Get` is
served. -/
theorem UpdateAllocatedIPs_same (im : Manager) (o : Oracle) (w : World) (containerID : String)
    (pod : Pod) (oldIPConfig : IPConfig) (p : SpiderIPPool) (a : PoolIPAllocation)
    (hp : w.pool oldIPConfig.IPPool = some p)
    (ha : lookupAllocated p (cutSlash oldIPConfig.Address) = some a)
    (hc : a.ContainerID = containerID) :
    (UpdateAllocatedIPs im o w containerID pod oldIPConfig).2.writes = w.writes
    ∧ (UpdateAllocatedIPs im o w containerID pod oldIPConfig).2.pools = w.pools
    ∧ (o.getErr 0 = none →
        (UpdateAllocatedIPs im o w containerID pod oldIPConfig).1 = .ok ()) := by
  unfold UpdateAllocatedIPs
  cases (im.config.MaxConflictRetries + 1).toNat with
  | zero => exact ⟨rfl, rfl, fun _ => rfl⟩
  | succ fuel =>
    unfold retryLoop
    rcases UpdateAllocatedIPs_body_spec im o containerID pod oldIPConfig 0 () w with
      ⟨e, hge, hb⟩ | ⟨p1, _, hp1, ⟨a1, _, _, hb⟩ | ⟨hdiff, _⟩⟩
    · rw [hb]
      refine ⟨by simp [World.writes, List.countP_append, List.countP_cons, Op.isStatusUpdate],
        rfl, ?_⟩
      intro hget
      rcases hge with h | ⟨_, h⟩
      · rw [hget] at h; cases h
      · rw [hp] at h; cases h
    · rw [hb]
      exact ⟨by simp [World.writes, List.countP_append, List.countP_cons, Op.isStatusUpdate],
        rfl, fun _ => rfl⟩
    · rw [hp] at hp1
      cases hp1
      exact absurd hc (hdiff a ha)

/-- After a successful `UpdateAllocatedIPs` (with `MaxConflictRetries ≥ 0`) the store
holds a pool whose record for the old IP carries `containerID`. -/
theorem UpdateAllocatedIPs_success_record (im : Manager) (o : Oracle) (w : World)
    (containerID : String) (pod : Pod) (oldIPConfig : IPConfig)
    (hN : 0 ≤ im.config.MaxConflictRetries)
    (hok : (UpdateAllocatedIPs im o w containerID pod oldIPConfig).1 = .ok ()) :
    ∃ p a, (UpdateAllocatedIPs im o w containerID pod oldIPConfig).2.pool oldIPConfig.IPPool
        = some p
      ∧ lookupAllocated p (cutSlash oldIPConfig.Address) = some a
      ∧ a.ContainerID = containerID := by
  have hlast : ((im.config.MaxConflictRetries + 1).toNat : Int) = im.config.MaxConflictRetries + 1 :=
    Int.toNat_of_nonneg (by omega)
  revert hok
  refine retryLoop_rule (UpdateAllocatedIPs.body im o containerID pod oldIPConfig) id
    (fun i _ w1 => i = (im.config.MaxConflictRetries + 1).toNat →
      ∃ p a, w1.pool oldIPConfig.IPPool = some p
        ∧ lookupAllocated p (cutSlash oldIPConfig.Address) = some a ∧ a.ContainerID = containerID)
    (fun res w1 => res = .ok () →
      ∃ p a, w1.pool oldIPConfig.IPPool = some p
        ∧ lookupAllocated p (cutSlash oldIPConfig.Address) = some a ∧ a.ContainerID = containerID)
    (im.config.MaxConflictRetries + 1).toNat ?_ ?_ ?_ ?_
    (im.config.MaxConflictRetries + 1).toNat 0 () w (by omega) (by intro h; omega)
  · intro i s0 w0 res w1 _ _ hb hr
    subst hr
    rcases UpdateAllocatedIPs_body_spec im o containerID pod oldIPConfig i s0 w0 with
      ⟨e, _, hb1⟩ | ⟨p1, _, hp1, ⟨a1, ha1, hc1, hb1⟩ | ⟨_, ⟨_, hb1⟩ |
        ⟨m, _, ⟨e, hu, hb1⟩ | ⟨hu, hb1⟩⟩⟩⟩
    all_goals rw [hb1] at hb
    all_goals try (simp at hb; done)
    · have h2 := congrArg Prod.snd hb
      simp only [] at h2
      rw [← h2]
      exact ⟨p1, a1, hp1, ha1, hc1⟩
    · have h1 := congrArg Prod.fst hb
      simp only [] at h1
      split_ifs at h1 <;> simp at h1
  · intro i s0 w0 s1 w1 hi _ hb hi1
    rcases UpdateAllocatedIPs_body_spec im o containerID pod oldIPConfig i s0 w0 with
      ⟨e, _, hb1⟩ | ⟨p1, _, hp1, ⟨a1, ha1, hc1, hb1⟩ | ⟨_, ⟨_, hb1⟩ |
        ⟨m, _, ⟨e, hu, hb1⟩ | ⟨hu, hb1⟩⟩⟩⟩
    all_goals rw [hb1] at hb
    all_goals try (simp at hb; done)
    · have h1 := congrArg Prod.fst hb
      simp only [] at h1
      split_ifs at h1 with hc hiN
      omega
    · have h2 := congrArg Prod.snd hb
      simp only [] at h2
      rw [← h2]
      obtain ⟨h3, h4⟩ := rebound_record w0 p1 m containerID pod oldIPConfig w0.reservedIPs
        (w0.log ++ [Op.get oldIPConfig.IPPool,
          Op.statusUpdate (reboundPool p1 m containerID pod oldIPConfig)]) hp1
      exact ⟨_, _, h3, h4, rfl⟩
  · intro i s0 w0 s1 w1 _ _ hb
    rcases UpdateAllocatedIPs_body_spec im o containerID pod oldIPConfig i s0 w0 with
      ⟨e, _, hb1⟩ | ⟨p1, _, hp1, ⟨a1, ha1, hc1, hb1⟩ | ⟨_, ⟨_, hb1⟩ |
        ⟨m, _, ⟨e, hu, hb1⟩ | ⟨hu, hb1⟩⟩⟩⟩
    all_goals rw [hb1] at hb
    all_goals try (simp at hb; done)
    have h1 := congrArg Prod.fst hb
    simp only [] at h1
    split_ifs at h1
  · intro s0 w0 hinv _
    exact hinv rfl

/-- C9. Rebind idempotence.  (a) When the stored pool's record for the old IP (the
part of `oldIPConfig.Address` before `/`) already carries `containerID`,
`UpdateAllocatedIPs` issues no status write and leaves the store unchanged, and it
returns success when the `Get` is served.  (b) After a successful
`UpdateAllocatedIPs` (with `MaxConflictRetries ≥ 0`), a second call with the same
arguments, in any environment, issues no status write and leaves the store
unchanged, and it returns success when its `Get` is served. -/
theorem UpdateAllocatedIPs_idempotent (im : Manager) (o : Oracle) (w : World)
    (containerID : String) (pod : Pod) (oldIPConfig : IPConfig) :
    (∀ p a, w.pool oldIPConfig.IPPool = some p →
      lookupAllocated p (cutSlash oldIPConfig.Address) = some a → a.ContainerID = containerID →
      (UpdateAllocatedIPs im o w containerID pod oldIPConfig).2.writes = w.writes
      ∧ (UpdateAllocatedIPs im o w containerID pod oldIPConfig).2.pools = w.pools
      ∧ (o.getErr 0 = none → (UpdateAllocatedIPs im o w containerID pod oldIPConfig).1 = .ok ()))
    ∧ (∀ o2 : Oracle, 0 ≤ im.config.MaxConflictRetries →
      (UpdateAllocatedIPs im o w containerID pod oldIPConfig).1 = .ok () →
      (UpdateAllocatedIPs im o2 (UpdateAllocatedIPs im o w containerID pod oldIPConfig).2
          containerID pod oldIPConfig).2.writes
        = (UpdateAllocatedIPs im o w containerID pod oldIPConfig).2.writes
      ∧ (UpdateAllocatedIPs im o2 (UpdateAllocatedIPs im o w containerID pod oldIPConfig).2
          containerID pod oldIPConfig).2.pools
        = (UpdateAllocatedIPs im o w containerID pod oldIPConfig).2.pools
      ∧ (o2.getErr 0 = none →
        (UpdateAllocatedIPs im o2 (UpdateAllocatedIPs im o w containerID pod oldIPConfig).2
          containerID pod oldIPConfig).1 = .ok ())) := by
  refine ⟨?_, ?_⟩
  · intro p a hp ha hc
    exact UpdateAllocatedIPs_same im o w containerID pod oldIPConfig p a hp ha hc
  · intro o2 hN hok
    obtain ⟨p, a, hp, ha, hc⟩ :=
      UpdateAllocatedIPs_success_record im o w containerID pod oldIPConfig hN hok
    exact UpdateAllocatedIPs_same im o2 _ containerID pod oldIPConfig p a hp ha hc

/-- Witness of C9: container `c1` already holds `10.0.0.1`; and after rebinding
`10.0.0.1` to container `new`, the same call again writes nothing. -/
theorem UpdateAllocatedIPs_idempotent_witness :
    ((UpdateAllocatedIPs exIM quiet exWorld "c1" exPod (exConfig "10.0.0.1/24")).2.writes
        = exWorld.writes
      ∧ (UpdateAllocatedIPs exIM quiet exWorld "c1" exPod (exConfig "10.0.0.1/24")).2.pools
        = exWorld.pools
      ∧ (quiet.getErr 0 = none →
        (UpdateAllocatedIPs exIM quiet exWorld "c1" exPod (exConfig "10.0.0.1/24")).1 = .ok ()))
    ∧ ((UpdateAllocatedIPs exIM quiet
          (UpdateAllocatedIPs exIM quiet exWorld "new" exPod (exConfig "10.0.0.1/24")).2
          "new" exPod (exConfig "10.0.0.1/24")).2.writes
        = (UpdateAllocatedIPs exIM quiet exWorld "new" exPod (exConfig "10.0.0.1/24")).2.writes
      ∧ (UpdateAllocatedIPs exIM quiet
          (UpdateAllocatedIPs exIM quiet exWorld "new" exPod (exConfig "10.0.0.1/24")).2
          "new" exPod (exConfig "10.0.0.1/24")).2.pools
        = (UpdateAllocatedIPs exIM quiet exWorld "new" exPod (exConfig "10.0.0.1/24")).2.pools
      ∧ (quiet.getErr 0 = none →
        (UpdateAllocatedIPs exIM quiet
          (UpdateAllocatedIPs exIM quiet exWorld "new" exPod (exConfig "10.0.0.1/24")).2
          "new" exPod (exConfig "10.0.0.1/24")).1 = .ok ())) :=
  ⟨(UpdateAllocatedIPs_idempotent exIM quiet exWorld "c1" exPod (exConfig "10.0.0.1/24")).1
      exPool (exAlloc "c1" "p1") (by decide) (by decide) (by decide),
    (UpdateAllocatedIPs_idempotent exIM quiet exWorld "new" exPod (exConfig "10.0.0.1/24")).2
      quiet (by decide) (by decide)⟩


/-- The effect of a successful `UpdateAllocatedIPs` on a pool whose record for the old
IP carries another container ID: the store is the initial one with the status of
`reboundPool p m ..` written. -/
theorem UpdateAllocatedIPs_success (im : Manager) (o : Oracle) (w : World)
    (containerID : String) (pod : Pod) (oldIPConfig : IPConfig) (p : SpiderIPPool)
    (m : GoMap PoolIPAllocation) (a0 : PoolIPAllocation)
    (hN : 0 ≤ im.config.MaxConflictRetries) (hp : w.pool oldIPConfig.IPPool = some p)
    (hm : p.Status.AllocatedIPs = some m)
    (ha : lookupAllocated p (cutSlash oldIPConfig.Address) = some a0)
    (hdiff : a0.ContainerID ≠ containerID)
    (hok : (UpdateAllocatedIPs im o w containerID pod oldIPConfig).1 = .ok ()) :
    (UpdateAllocatedIPs im o w containerID pod oldIPConfig).2.pools
      = setStatus w.pools (reboundPool p m containerID pod oldIPConfig) := by
  have hlast : ((im.config.MaxConflictRetries + 1).toNat : Int) = im.config.MaxConflictRetries + 1 :=
    Int.toNat_of_nonneg (by omega)
  have hB : ∀ w0 : World, w0.pools = setStatus w.pools (reboundPool p m containerID pod oldIPConfig) →
      w0.pool oldIPConfig.IPPool = some (reboundPool p m containerID pod oldIPConfig) := by
    intro w0 h0
    have := (rebound_record w p m containerID pod oldIPConfig w0.reservedIPs w0.log hp).1
    rw [← this]
    exact pool_congr _ w0 h0 _
  have hrec := (rebound_record w p m containerID pod oldIPConfig [] [] hp).2
  revert hok
  refine retryLoop_rule (UpdateAllocatedIPs.body im o containerID pod oldIPConfig) id
    (fun i _ w1 => (w1.pools = w.pools ∧ (i : Int) ≤ im.config.MaxConflictRetries)
      ∨ w1.pools = setStatus w.pools (reboundPool p m containerID pod oldIPConfig))
    (fun res w1 => res = .ok () →
      w1.pools = setStatus w.pools (reboundPool p m containerID pod oldIPConfig))
    (im.config.MaxConflictRetries + 1).toNat ?_ ?_ ?_ ?_
    (im.config.MaxConflictRetries + 1).toNat 0 () w (by omega) (Or.inl ⟨rfl, by simpa using hN⟩)
  · intro i s0 w0 res w1 _ hinv hb hr
    subst hr
    rcases UpdateAllocatedIPs_body_spec im o containerID pod oldIPConfig i s0 w0 with
      ⟨e, _, hb1⟩ | ⟨p1, _, hp1, ⟨a1, ha1, hc1, hb1⟩ | ⟨_, ⟨_, hb1⟩ |
        ⟨m1, _, ⟨e, hu, hb1⟩ | ⟨hu, hb1⟩⟩⟩⟩
    all_goals rw [hb1] at hb
    all_goals try (simp at hb; done)
    · have h2 := congrArg Prod.snd hb
      simp only [] at h2
      rw [← h2]
      rcases hinv with ⟨hA, _⟩ | hB0
      · rw [pool_congr w w0 hA, hp] at hp1
        cases hp1
        rw [ha] at ha1
        cases ha1
        exact absurd hc1 hdiff
      · exact hB0
    · have h1 := congrArg Prod.fst hb
      simp only [] at h1
      split_ifs at h1 <;> simp at h1
  · intro i s0 w0 s1 w1 hi hinv hb
    rcases UpdateAllocatedIPs_body_spec im o containerID pod oldIPConfig i s0 w0 with
      ⟨e, _, hb1⟩ | ⟨p1, _, hp1, ⟨a1, ha1, hc1, hb1⟩ | ⟨hd1, ⟨_, hb1⟩ |
        ⟨m1, hm1, ⟨e, hu, hb1⟩ | ⟨hu, hb1⟩⟩⟩⟩
    all_goals rw [hb1] at hb
    all_goals try (simp at hb; done)
    · have h1 := congrArg Prod.fst hb
      have h2 := congrArg Prod.snd hb
      simp only [] at h1 h2
      rw [← h2]
      rcases hinv with ⟨hA, _⟩ | hB0
      · left
        refine ⟨hA, ?_⟩
        split_ifs at h1 with hc hiN
        omega
      · exact absurd rfl (hd1 _ (by rw [hB w0 hB0] at hp1; cases hp1; exact hrec))
    · have h2 := congrArg Prod.snd hb
      simp only [] at h2
      rw [← h2]
      rcases hinv with ⟨hA, _⟩ | hB0
      · right
        rw [pool_congr w w0 hA, hp] at hp1
        cases hp1
        rw [hm] at hm1
        cases hm1
        rw [hA]
      · exact absurd rfl (hd1 _ (by rw [hB w0 hB0] at hp1; cases hp1; exact hrec))
  · intro i s0 w0 s1 w1 _ _ hb
    rcases UpdateAllocatedIPs_body_spec im o containerID pod oldIPConfig i s0 w0 with
      ⟨e, _, hb1⟩ | ⟨p1, _, hp1, ⟨a1, ha1, hc1, hb1⟩ | ⟨_, ⟨_, hb1⟩ |
        ⟨m1, _, ⟨e, hu, hb1⟩ | ⟨hu, hb1⟩⟩⟩⟩
    all_goals rw [hb1] at hb
    all_goals try (simp at hb; done)
    have h1 := congrArg Prod.fst hb
    simp only [] at h1
    split_ifs at h1
  · intro s0 w0 hinv _
    rcases hinv with ⟨_, hle⟩ | hB0
    · omega
    · exact hB0

/-- The record a rebind leaves.  Let the store hold pool `p` under the pool name of
`oldIPConfig`, with a record for the old IP whose container ID differs from `containerID`, and let
`MaxConflictRetries ≥ 0`.  After a successful `UpdateAllocatedIPs` the stored pool
has, under the old IP, the record with `containerID`, the NIC of `oldIPConfig`, the
node of the pod argument, the namespace and the name of the pod argument, the owner
kind `StatefulSet` and an empty owner name; every other entry of the allocation map,
the counter and the rest of the object are unchanged. -/
theorem UpdateAllocatedIPs_record (im : Manager) (o : Oracle) (w : World)
    (containerID : String) (pod : Pod) (oldIPConfig : IPConfig) (p : SpiderIPPool)
    (a0 : PoolIPAllocation)
    (hN : 0 ≤ im.config.MaxConflictRetries) (hp : w.pool oldIPConfig.IPPool = some p)
    (ha : lookupAllocated p (cutSlash oldIPConfig.Address) = some a0)
    (hdiff : a0.ContainerID ≠ containerID)
    (hok : (UpdateAllocatedIPs im o w containerID pod oldIPConfig).1 = .ok ()) :
    ∃ written,
      (UpdateAllocatedIPs im o w containerID pod oldIPConfig).2.pool oldIPConfig.IPPool
        = some written
      ∧ written.Name = p.Name ∧ written.Spec = p.Spec
      ∧ written.Status.AllocatedIPCount = p.Status.AllocatedIPCount
      ∧ written.Status.AutoDesiredIPCount = p.Status.AutoDesiredIPCount
      ∧ lookupAllocated written (cutSlash oldIPConfig.Address) = some
          { ContainerID := containerID, NIC := oldIPConfig.Nic, Node := pod.NodeName
            Namespace := pod.Namespace, Pod := pod.Name
            OwnerControllerType := KindStatefulSet, OwnerControllerName := "" }
      ∧ (∀ k, k ≠ cutSlash oldIPConfig.Address →
          lookupAllocated written k = lookupAllocated p k) := by
  cases hm : p.Status.AllocatedIPs with
  | none => simp [lookupAllocated, hm] at ha
  | some m =>
    have hpools := UpdateAllocatedIPs_success im o w containerID pod oldIPConfig p m a0 hN hp hm
      ha hdiff hok
    obtain ⟨h1, h2⟩ := rebound_record w p m containerID pod oldIPConfig
      (UpdateAllocatedIPs im o w containerID pod oldIPConfig).2.reservedIPs
      (UpdateAllocatedIPs im o w containerID pod oldIPConfig).2.log hp
    refine ⟨reboundPool p m containerID pod oldIPConfig, ?_, rfl, rfl, rfl, rfl, h2, ?_⟩
    · rw [← h1]
      exact pool_congr _ _ hpools _
    · intro k hk
      simp [lookupAllocated, reboundPool, hm, GoMap.lookup_insert_ne _ _ hk]

/-- The record a rebind leaves on the spec's scenario 4: `10.0.0.1` moves from
container `c1` to container `new` of pod `other/q` on node `nodeB`. -/
theorem UpdateAllocatedIPs_record_witness :
    ∃ written,
      (UpdateAllocatedIPs exIM quiet exWorld "new" exPodOther (exConfig "10.0.0.1/24")).2.pool
        (exConfig "10.0.0.1/24").IPPool = some written
      ∧ written.Name = exPool.Name ∧ written.Spec = exPool.Spec
      ∧ written.Status.AllocatedIPCount = exPool.Status.AllocatedIPCount
      ∧ written.Status.AutoDesiredIPCount = exPool.Status.AutoDesiredIPCount
      ∧ lookupAllocated written (cutSlash (exConfig "10.0.0.1/24").Address) = some
          { ContainerID := "new", NIC := (exConfig "10.0.0.1/24").Nic, Node := exPodOther.NodeName
            Namespace := exPodOther.Namespace, Pod := exPodOther.Name
            OwnerControllerType := KindStatefulSet, OwnerControllerName := "" }
      ∧ (∀ k, k ≠ cutSlash (exConfig "10.0.0.1/24").Address →
          lookupAllocated written k = lookupAllocated exPool k) :=
  UpdateAllocatedIPs_record exIM quiet exWorld "new" exPodOther (exConfig "10.0.0.1/24") exPool
    (exAlloc "c1" "p1") (by decide) (by decide) (by decide) (by decide) (by decide)

/-- C8, the code at the failing input.  The record of `10.0.0.1` belongs to pod
`ns/p1` and container `c1`; a successful rebind to container `new` with the pod
argument `other/q` replaces the whole record: the stored record has namespace
`other` and pod `q`, not the values it held before, although the comment above the
assignment says that only the container ID and the node need to change. -/
theorem UpdateAllocatedIPs_namespace_pod_not_preserved :
    lookupAllocated exPool "10.0.0.1" = some (exAlloc "c1" "p1")
    ∧ (exAlloc "c1" "p1").ContainerID ≠ "new"
    ∧ (UpdateAllocatedIPs exIM quiet exWorld "new" exPodOther (exConfig "10.0.0.1/24")).1
        = .ok ()
    ∧ ∃ q a,
      (UpdateAllocatedIPs exIM quiet exWorld "new" exPodOther (exConfig "10.0.0.1/24")).2.pool
        "pool" = some q
      ∧ lookupAllocated q "10.0.0.1" = some a
      ∧ a = { ContainerID := "new", NIC := "eth0", Node := "nodeB", Namespace := "other"
              Pod := "q", OwnerControllerType := "StatefulSet", OwnerControllerName := "" }
      ∧ a.ContainerID = "new"
      ∧ a.Namespace = "other" ∧ a.Namespace ≠ (exAlloc "c1" "p1").Namespace
      ∧ a.Pod = "q" ∧ a.Pod ≠ (exAlloc "c1" "p1").Pod :=
  ⟨by decide, by decide, by decide,
    reboundPool exPool [("10.0.0.1", exAlloc "c1" "p1")] "new" exPodOther
      (exConfig "10.0.0.1/24"),
    reboundAllocation "new" exPodOther (exConfig "10.0.0.1/24"),
    by decide, by decide, by decide, by decide, by decide, by decide, by decide, by decide⟩

/-- C7, the code at the failing input.  `10.0.0.5` is not a key of the allocation map
of the stored pool.  `UpdateAllocatedIPs` for the old address `10.0.0.5/24` returns
success after one status write, and the stored pool then has a record for
`10.0.0.5`; on a pool whose allocation map is unset the same call panics (assignment
to an entry of a nil map). -/
theorem UpdateAllocatedIPs_vacated_slot :
    lookupAllocated exPool "10.0.0.5" = none
    ∧ (UpdateAllocatedIPs exIM quiet exWorld "new" exPod (exConfig "10.0.0.5/24")).1 = .ok ()
    ∧ (UpdateAllocatedIPs exIM quiet exWorld "new" exPod (exConfig "10.0.0.5/24")).2.writes
        = exWorld.writes + 1
    ∧ ((UpdateAllocatedIPs exIM quiet exWorld "new" exPod (exConfig "10.0.0.5/24")).2.pool
          "pool").map (fun q => lookupAllocated q "10.0.0.5")
        = some (some (reboundAllocation "new" exPod (exConfig "10.0.0.5/24")))
    ∧ (UpdateAllocatedIPs exIM quiet exEmptyWorld "new" exPod (exConfig "10.0.0.5/24")).1
        = .panic := by
  refine ⟨by decide, by decide, by decide, by decide, by decide⟩

/-- C1, the code at the failing input.  The stored pool is ledger-consistent (one
key, counter one).  `UpdateAllocatedIPs` for the old address `10.0.0.5/24`, which is
not a key, succeeds, and the stored pool then has two keys and the counter one: it
is not ledger-consistent. -/
theorem UpdateAllocatedIPs_breaks_ledger :
    LedgerConsistent exPool
    ∧ (UpdateAllocatedIPs exIM quiet exWorld "new" exPod (exConfig "10.0.0.5/24")).1 = .ok ()
    ∧ ∃ q,
      (UpdateAllocatedIPs exIM quiet exWorld "new" exPod (exConfig "10.0.0.5/24")).2.pool "pool"
        = some q
      ∧ q.Status.AllocatedIPCount = some 1
      ∧ (q.Status.AllocatedIPs.getD []).len = 2
      ∧ ¬ LedgerConsistent q :=
  ⟨by decide, by decide,
    reboundPool exPool [("10.0.0.1", exAlloc "c1" "p1")] "new" exPod (exConfig "10.0.0.5/24"),
    by decide, by decide, by decide, by decide⟩


/-! ## Ledger consistency on the paths that keep it -/

theorem mem_keys_toFinset (m : GoMap PoolIPAllocation) (k : String) :
    k ∈ (m.map Prod.fst).toFinset ↔ m.lookup k ≠ none := by
  rw [List.mem_toFinset, Ne, GoMap.lookup_eq_none_iff, not_not]

theorem releaseEntries_len (es : List IPAndCID) (m : GoMap PoolIPAllocation) (c : Int) :
    ((releaseEntries es m c).1.len : Int) = (m.len : Int) - ((removedKeys m es).length : Int) := by
  obtain ⟨h1, h2, _, _⟩ := releaseFold_spec es m c false
  have hsub : (removedKeys m es).toFinset ⊆ (m.map Prod.fst).toFinset := by
    intro k hk
    rw [List.mem_toFinset, mem_removedKeys] at hk
    obtain ⟨e, _, hke, hm⟩ := hk
    rw [mem_keys_toFinset, ← hke]
    unfold Matches at hm
    intro hnone
    simp [hnone] at hm
  have hset : ((releaseEntries es m c).1.map Prod.fst).toFinset
      = (m.map Prod.fst).toFinset \ (removedKeys m es).toFinset := by
    ext k
    rw [Finset.mem_sdiff, mem_keys_toFinset, mem_keys_toFinset, List.mem_toFinset]
    unfold releaseEntries
    by_cases hk : k ∈ removedKeys m es
    · simp [h1 k hk, hk]
    · simp [h2 k hk, hk]
  rw [GoMap.len_eq_card, GoMap.len_eq_card, hset, Finset.card_sdiff hsub,
    removedKeys_length m es]
  have := Finset.card_le_card hsub
  omega

/-- `AllocateIP` keeps the ledger: when the helpers agree on address texts, a
ledger-consistent stored pool with fewer than `MaxInt64` keys is ledger-consistent
after a successful call. -/
theorem AllocateIP_keeps_ledger (im : Manager) (o : Oracle) (w : World)
    (poolName containerID nic : String) (pod : Pod) (p : SpiderIPPool) (r : AllocVars)
    (hN : 0 ≤ im.config.MaxConflictRetries) (hp : w.pool poolName = some p)
    (hlib : ∀ totalIPs usedIPs,
      im.lib.AssembleTotalIPs p.Spec.IPVersion p.Spec.IPs p.Spec.ExcludeIPs = .ok totalIPs →
      im.lib.ParseIPRanges p.Spec.IPVersion (usedKeys p.Status.AllocatedIPs) = .ok usedIPs →
      ∀ ip ∈ totalIPs, im.lib.ipString ip ∈ usedKeys p.Status.AllocatedIPs → ip ∈ usedIPs)
    (hok : (AllocateIP im o w poolName containerID nic pod).1 = .ok r)
    (hledger : LedgerConsistent p)
    (hsmall : ((p.Status.AllocatedIPs.getD []).len : Int) < MaxInt64) :
    ∃ q, (AllocateIP im o w poolName containerID nic pod).2.pool poolName = some q
      ∧ LedgerConsistent q := by
  obtain ⟨i, ip, top, cfg, hg, _, _, _, _, _, hpools⟩ :=
    AllocateIP_success im o w poolName containerID nic pod p r hN hp hok
  obtain ⟨usedIPs, totalIPs, hused, htot, hmem, hnot⟩ := genRandomIP_fresh im o i w p ip hg
  have hfresh : lookupAllocated p (im.lib.ipString ip) = none :=
    lookupAllocated_none_of_not_used p _
      (fun hk => hnot (hlib totalIPs usedIPs htot hused ip hmem hk))
  obtain ⟨_, _, _, _, _, hcount, hlen⟩ :=
    allocatedPool_spec p (im.lib.ipString ip) (newAllocation containerID nic pod top) hfresh
  have hname : (allocatedPool p (im.lib.ipString ip)
      (newAllocation containerID nic pod top)).Name = poolName :=
    World.pool_name w poolName p hp
  refine ⟨allocatedPool p (im.lib.ipString ip) (newAllocation containerID nic pod top), ?_, ?_⟩
  · have := find_setStatus w.pools _ p poolName hname hp
    unfold World.pool
    rw [hpools, this]
    rfl
  · unfold LedgerConsistent at hledger ⊢
    have hnn : (0 : Int) ≤ ((p.Status.AllocatedIPs.getD []).len : Int) := Int.natCast_nonneg _
    rw [hcount, hlen, Option.getD_some, hledger,
      wrapInt64_of_range _ (by unfold MinInt64; omega) (by omega)]
    push_cast
    rfl

/-- `ReleaseIP` keeps the ledger: a ledger-consistent stored pool with at most
`MaxInt64` keys is ledger-consistent after a successful call, whatever the request
list (pairs listed more than once included). -/
theorem ReleaseIP_keeps_ledger (im : Manager) (o : Oracle) (w : World) (poolName : String)
    (ipAndCIDs : List IPAndCID) (p : SpiderIPPool)
    (hN : 0 ≤ im.config.MaxConflictRetries) (hp : w.pool poolName = some p)
    (hok : (ReleaseIP im o w poolName ipAndCIDs).1 = .ok ())
    (hledger : LedgerConsistent p)
    (hsmall : ((p.Status.AllocatedIPs.getD []).len : Int) ≤ MaxInt64) :
    ∃ q, (ReleaseIP im o w poolName ipAndCIDs).2.pool poolName = some q
      ∧ LedgerConsistent q := by
  cases hneed : needToRelease p ipAndCIDs with
  | false =>
    -- nothing to release: no attempt writes, the store is unchanged
    have hpools : (ReleaseIP im o w poolName ipAndCIDs).2.pools = w.pools := by
      refine retryLoop_preserves (ReleaseIP.body im o poolName ipAndCIDs) id
        (fun w1 => w1.pools = w.pools) ?_ _ 0 () w rfl
      intro i s0 w0 h0
      rcases ReleaseIP_body_spec im o poolName ipAndCIDs i s0 w0 with
        ⟨e, _, hb1⟩ | ⟨p1, _, hp1, ⟨hn, hb1⟩ | ⟨hn, _⟩⟩
      · rw [hb1]; exact h0
      · rw [hb1]; exact h0
      · rw [pool_congr w w0 h0, hp] at hp1
        cases hp1
        rw [hneed] at hn
        cases hn
    exact ⟨p, by rw [pool_congr w _ hpools]; exact hp, hledger⟩
  | true =>
    obtain ⟨_, hpools⟩ := ReleaseIP_success im o w poolName ipAndCIDs p hN hp hneed hok
    have hname : (releasedPool p ipAndCIDs).Name = poolName := World.pool_name w poolName p hp
    refine ⟨releasedPool p ipAndCIDs, ?_, ?_⟩
    · have := find_setStatus w.pools _ p poolName hname hp
      unfold World.pool
      rw [hpools, this]
      rfl
    · unfold LedgerConsistent at hledger ⊢
      have h3 := (releaseFold_spec ipAndCIDs (p.Status.AllocatedIPs.getD [])
        (p.Status.AllocatedIPCount.getD 0) false).2.2.1
      have h4 := releaseEntries_len ipAndCIDs (p.Status.AllocatedIPs.getD [])
        (p.Status.AllocatedIPCount.getD 0)
      have hnn : (0 : Int) ≤ ((releaseEntries ipAndCIDs (p.Status.AllocatedIPs.getD [])
          (p.Status.AllocatedIPCount.getD 0)).1.len : Int) := Int.natCast_nonneg _
      have hk : (0 : Int) ≤ ((removedKeys (p.Status.AllocatedIPs.getD []) ipAndCIDs).length : Int) :=
        Int.natCast_nonneg _
      simp only [releasedPool, Option.getD_some]
      unfold releaseEntries at h4 hnn ⊢
      rw [h3, h4, hledger]
      split
      · rename_i h0
        rw [h0]
        simp
      · exact wrapInt64_of_range _ (by unfold MinInt64; omega) (by omega)

/-- `UpdateAllocatedIPs` keeps the ledger when the old IP is a key of the allocation
map: a ledger-consistent stored pool is ledger-consistent after a successful call. -/
theorem UpdateAllocatedIPs_keeps_ledger (im : Manager) (o : Oracle) (w : World)
    (containerID : String) (pod : Pod) (oldIPConfig : IPConfig) (p : SpiderIPPool)
    (a0 : PoolIPAllocation)
    (hN : 0 ≤ im.config.MaxConflictRetries) (hp : w.pool oldIPConfig.IPPool = some p)
    (ha : lookupAllocated p (cutSlash oldIPConfig.Address) = some a0)
    (hok : (UpdateAllocatedIPs im o w containerID pod oldIPConfig).1 = .ok ())
    (hledger : LedgerConsistent p) :
    ∃ q, (UpdateAllocatedIPs im o w containerID pod oldIPConfig).2.pool oldIPConfig.IPPool
        = some q
      ∧ LedgerConsistent q := by
  by_cases hc : a0.ContainerID = containerID
  · obtain ⟨_, hpools, _⟩ :=
      UpdateAllocatedIPs_same im o w containerID pod oldIPConfig p a0 hp ha hc
    exact ⟨p, by rw [pool_congr w _ hpools]; exact hp, hledger⟩
  · cases hm : p.Status.AllocatedIPs with
    | none => simp [lookupAllocated, hm] at ha
    | some m =>
      have hpools := UpdateAllocatedIPs_success im o w containerID pod oldIPConfig p m a0 hN hp
        hm ha hc hok
      obtain ⟨h1, _⟩ := rebound_record w p m containerID pod oldIPConfig
        (UpdateAllocatedIPs im o w containerID pod oldIPConfig).2.reservedIPs
        (UpdateAllocatedIPs im o w containerID pod oldIPConfig).2.log hp
      refine ⟨reboundPool p m containerID pod oldIPConfig, ?_, ?_⟩
      · rw [← h1]
        exact pool_congr _ _ hpools _
      · unfold LedgerConsistent at hledger ⊢
        have hne : m.lookup (cutSlash oldIPConfig.Address) ≠ none := by
          simp [lookupAllocated, hm] at ha
          simp [ha]
        rw [hm] at hledger
        simp only [reboundPool, Option.getD_some] at hledger ⊢
        rw [GoMap.len_insert_of_mem m _ _ hne]
        exact hledger


/-! ## The back-off after the 63rd conflict -/

set_option maxRecDepth 100000


/-- C10, the code at the failing input.  With `MaxConflictRetries = 63` and a store
that answers every status write with a conflict, each of the three calls issues 63
status writes and then panics in the back-off of attempt `i = 62`
(`rand.Intn(1<<63)`): it does not make the 64th attempt and does not return
`ErrRetriesExhausted`. -/
theorem backoff_panics_after_63_conflicts :
    exIM63.config.MaxConflictRetries + 1 = 64
    ∧ (ReleaseIP exIM63 conflicts exWorld "pool" [⟨"10.0.0.1", "c1"⟩]).1 = .panic
    ∧ (ReleaseIP exIM63 conflicts exWorld "pool" [⟨"10.0.0.1", "c1"⟩]).2.writes = 63
    ∧ (AllocateIP exIM63 conflicts exWorld "pool" "c2" "eth0" exPod).1 = .panic
    ∧ (AllocateIP exIM63 conflicts exWorld "pool" "c2" "eth0" exPod).2.writes = 63
    ∧ (UpdateAllocatedIPs exIM63 conflicts exWorld "new" exPod (exConfig "10.0.0.1/24")).1
        = .panic
    ∧ (UpdateAllocatedIPs exIM63 conflicts exWorld "new" exPod (exConfig "10.0.0.1/24")).2.writes
        = 63 := by
  refine ⟨by decide, by decide, by decide, by decide, by decide, by decide, by decide⟩


/-! ## AllocateIP: failures -/

/-- C11. No partial allocation on failure: whenever `AllocateIP` returns an error
(whichever step of whichever attempt it comes from), the objects the store holds
are those it held before the call; in particular the pool read under any name is
the same.  A failed status update applies nothing in this store. -/
theorem AllocateIP_error_no_effect (im : Manager) (o : Oracle) (w : World)
    (poolName containerID nic : String) (pod : Pod) (e : Err)
    (herr : (AllocateIP im o w poolName containerID nic pod).1 = .err e) :
    (AllocateIP im o w poolName containerID nic pod).2.pools = w.pools
    ∧ ∀ name, (AllocateIP im o w poolName containerID nic pod).2.pool name = w.pool name := by
  have hpools : (AllocateIP im o w poolName containerID nic pod).2.pools = w.pools := by
    revert e
    refine retryLoop_rule (AllocateIP.body im o poolName containerID nic pod) id
      (fun _ _ w1 => w1.pools = w.pools)
      (fun res w1 => ∀ e, res = .err e → w1.pools = w.pools)
      (im.config.MaxConflictRetries + 1).toNat ?_ ?_ ?_ ?_
      (im.config.MaxConflictRetries + 1).toNat 0 (none, none) w (by omega) rfl
    · intro i s0 w0 res w1 _ hinv hb e _
      have hpr := AllocateIP_body_protocol im o poolName containerID nic pod i s0 w0
      rw [hb] at hpr
      rcases hpr with ⟨_, _, hpools, _⟩ | ⟨_, _, h2⟩
      · exact hpools.trans hinv
      · rcases h2 with ⟨_, _, _, hpools, _⟩ | ⟨_, _, _, hpools, _⟩ | ⟨_, _, _, hpools, _⟩ |
          ⟨_, _, _, _, _, _, _, hr⟩ | ⟨_, _, hr⟩
        · exact hpools.trans hinv
        · exact hpools.trans hinv
        · exact hpools.trans hinv
        · simp at hr
        · simp at hr
    · intro i s0 w0 s1 w1 _ hinv hb
      rcases AllocateIP_body_spec im o poolName containerID nic pod i s0 w0 with
        ⟨e, _, hb1⟩ | ⟨p1, _, _, ⟨e, _, hb1⟩ | ⟨ip, _, ⟨e, _, hb1⟩ | ⟨top, _, ⟨_, hb1⟩ |
          ⟨_, ⟨e, _, hb1⟩ | ⟨cfg, _, ⟨e, hu, hb1⟩ | ⟨hu, hb1⟩⟩⟩⟩⟩⟩
      all_goals rw [hb1] at hb
      all_goals try (simp at hb; done)
      have h2 := congrArg Prod.snd hb
      simp only [] at h2
      rw [← h2]
      exact hinv
    · intro i s0 w0 s1 w1 _ _ _ e he
      simp at he
    · intro s0 w0 _ e he
      simp at he
  exact ⟨hpools, fun name => pool_congr w _ hpools name⟩

/-- Witness of C11: every status write meets a conflict, `AllocateIP` fails with
`ErrRetriesExhausted` after four attempts, and the store still holds `exPool`. -/
theorem AllocateIP_error_no_effect_witness :
    (AllocateIP exIM conflicts exWorld "pool" "c2" "eth0" exPod).1
        = .err (Err.ErrRetriesExhausted 3 "pool")
    ∧ (AllocateIP exIM conflicts exWorld "pool" "c2" "eth0" exPod).2.pools = exWorld.pools
    ∧ ∀ name, (AllocateIP exIM conflicts exWorld "pool" "c2" "eth0" exPod).2.pool name
        = exWorld.pool name :=
  ⟨by decide,
    AllocateIP_error_no_effect exIM conflicts exWorld "pool" "c2" "eth0" exPod
      (Err.ErrRetriesExhausted 3 "pool") (by decide)⟩

theorem genRandomIP_exhausted (im : Manager) (o : Oracle) (i : Nat) (w : World)
    (p : SpiderIPPool) (reservedIPs usedIPs totalIPs : List IP)
    (hlist : o.listErr i = none)
    (hres : im.lib.AssembleReservedIPs p.Spec.IPVersion w.reservedIPs = .ok reservedIPs)
    (hused : im.lib.ParseIPRanges p.Spec.IPVersion (usedKeys p.Status.AllocatedIPs)
      = .ok usedIPs)
    (htot : im.lib.AssembleTotalIPs p.Spec.IPVersion p.Spec.IPs p.Spec.ExcludeIPs
      = .ok totalIPs)
    (hall : ∀ ip ∈ totalIPs, ip ∈ reservedIPs ∨ ip ∈ usedIPs) :
    (genRandomIP im o i w p).1 = .err Err.ErrIPUsedOut := by
  have hnil : IPsDiffSet totalIPs (reservedIPs ++ usedIPs) = [] := by
    rw [List.eq_nil_iff_forall_not_mem]
    intro ip hip
    rw [mem_IPsDiffSet, List.mem_append] at hip
    exact hip.2 (hall ip hip.1)
  simp [genRandomIP, hlist, hres, hused, htot, hnil]

/-- C12. Exhaustion.  Let the store hold pool `p` under `poolName`, let the `Get` and
the `List` of the first attempt be served, let the three helpers succeed, and let
every address of the total list of the pool be a reserved address or an address
parsed from a key of the allocation map.  Then (with `MaxConflictRetries ≥ 0`)
`AllocateIP` fails with `ErrIPUsedOut`; the operations of the call are the `Get` and
the `List` only, so the pod manager is not consulted and no status write is
issued, and the store is unchanged. -/
theorem AllocateIP_exhausted (im : Manager) (o : Oracle) (w : World)
    (poolName containerID nic : String) (pod : Pod) (p : SpiderIPPool)
    (reservedIPs usedIPs totalIPs : List IP)
    (hN : 0 ≤ im.config.MaxConflictRetries) (hp : w.pool poolName = some p)
    (hget : o.getErr 0 = none) (hlist : o.listErr 0 = none)
    (hres : im.lib.AssembleReservedIPs p.Spec.IPVersion w.reservedIPs = .ok reservedIPs)
    (hused : im.lib.ParseIPRanges p.Spec.IPVersion (usedKeys p.Status.AllocatedIPs)
      = .ok usedIPs)
    (htot : im.lib.AssembleTotalIPs p.Spec.IPVersion p.Spec.IPs p.Spec.ExcludeIPs
      = .ok totalIPs)
    (hall : ∀ ip ∈ totalIPs, ip ∈ reservedIPs ∨ ip ∈ usedIPs) :
    (AllocateIP im o w poolName containerID nic pod).1 = .err Err.ErrIPUsedOut
    ∧ (AllocateIP im o w poolName containerID nic pod).2.log
        = w.log ++ [Op.get poolName, Op.list]
    ∧ (∀ pod1, Op.topController pod1 ∈ (AllocateIP im o w poolName containerID nic pod).2.log →
        Op.topController pod1 ∈ w.log)
    ∧ (AllocateIP im o w poolName containerID nic pod).2.writes = w.writes
    ∧ (AllocateIP im o w poolName containerID nic pod).2.pools = w.pools := by
  have hlast : ((im.config.MaxConflictRetries + 1).toNat : Int)
      = im.config.MaxConflictRetries + 1 := Int.toNat_of_nonneg (by omega)
  obtain ⟨fuel, hfuel⟩ : ∃ fuel, (im.config.MaxConflictRetries + 1).toNat = fuel + 1 :=
    ⟨(im.config.MaxConflictRetries + 1).toNat - 1, by omega⟩
  have hgen : (genRandomIP im o 0 ⟨w.pools, w.reservedIPs, w.log ++ [Op.get poolName]⟩ p).1
      = .err Err.ErrIPUsedOut :=
    genRandomIP_exhausted im o 0 _ p reservedIPs usedIPs totalIPs hlist hres hused htot hall
  unfold AllocateIP
  rw [hfuel]
  unfold retryLoop
  rcases AllocateIP_body_spec im o poolName containerID nic pod 0 (none, none) w with
    ⟨e, hge, _⟩ | ⟨p1, _, hp1, ⟨e, hg, hb1⟩ | ⟨ip, hg, _⟩⟩
  · rcases hge with h | ⟨_, h⟩
    · rw [hget] at h; cases h
    · rw [hp] at h; cases h
  · rw [hp] at hp1
    cases hp1
    rw [hgen] at hg
    cases hg
    rw [hb1]
    refine ⟨rfl, rfl, ?_, ?_, rfl⟩
    · intro pod1 h
      simpa using h
    · simp [World.writes, List.countP_append, List.countP_cons, Op.isStatusUpdate]
  · rw [hp] at hp1
    cases hp1
    rw [hgen] at hg
    cases hg

/-- Witness of C12 (the spec's scenario 2): the three addresses of the pool are
allocated. -/
theorem AllocateIP_exhausted_witness :
    (AllocateIP exIM quiet exFullWorld "pool" "c9" "eth0" exPod).1 = .err Err.ErrIPUsedOut
    ∧ (AllocateIP exIM quiet exFullWorld "pool" "c9" "eth0" exPod).2.log
        = exFullWorld.log ++ [Op.get "pool", Op.list]
    ∧ (∀ pod1,
        Op.topController pod1 ∈ (AllocateIP exIM quiet exFullWorld "pool" "c9" "eth0" exPod).2.log →
        Op.topController pod1 ∈ exFullWorld.log)
    ∧ (AllocateIP exIM quiet exFullWorld "pool" "c9" "eth0" exPod).2.writes = exFullWorld.writes
    ∧ (AllocateIP exIM quiet exFullWorld "pool" "c9" "eth0" exPod).2.pools = exFullWorld.pools :=
  AllocateIP_exhausted exIM quiet exFullWorld "pool" "c9" "eth0" exPod exFullPool [] [1, 2, 3]
    [1, 2, 3] (by decide) (by decide) (by decide) (by decide) rfl rfl rfl (by decide)


/-! ## AllocateIP and the free-IPs limiter -/

/-- C13, the code at the failing input.  `AllocateIP` does not read the field
`freeIPsLimiter`: its result and its operations are the same whatever the limiter.
With a limiter whose queue is full, which denies admission, `AllocateIP` on the
worked pool lists the reserved IPs, computes the available set, issues a status
write and returns success with `10.0.0.2`. -/
theorem AllocateIP_ignores_limiter :
    (∀ (im : Manager) (l : Limiter) (o : Oracle) (w : World) (poolName containerID nic : String)
        (pod : Pod),
      AllocateIP { im with freeIPsLimiter := l } o w poolName containerID nic pod
        = AllocateIP im o w poolName containerID nic pod)
    ∧ exIMLimited.freeIPsLimiter.denies = true
    ∧ (AllocateIP exIMLimited quiet exWorld "pool" "c2" "eth0" exPod).1
        = .ok (some { Address := "10.0.0.2/24", Nic := "eth0", IPPool := "pool", Gateway := ""
                      Vlan := 0, Version := 4 },
            some (allocatedPool exPool "10.0.0.2"
              (newAllocation "c2" "eth0" exPod { Kind := "Deployment", Name := "web" })))
    ∧ (AllocateIP exIMLimited quiet exWorld "pool" "c2" "eth0" exPod).2.log
        = [Op.get "pool", Op.list, Op.topController exPod,
            Op.statusUpdate (allocatedPool exPool "10.0.0.2"
              (newAllocation "c2" "eth0" exPod { Kind := "Deployment", Name := "web" }))]
    ∧ (AllocateIP exIMLimited quiet exWorld "pool" "c2" "eth0" exPod).2.writes
        = exWorld.writes + 1 := by
  refine ⟨?_, by decide, by decide, by decide, by decide⟩
  intro im l o w poolName containerID nic pod
  rfl


/-! ## CheckVlanSame -/

theorem vlan_get_filter_ne (m : VlanMap) {v v1 : Int} (h : v1 ≠ v) :
    VlanMap.get (m.filter (fun e => decide (e.1 ≠ v))) v1 = VlanMap.get m v1 := by
  induction m with
  | nil => rfl
  | cons e rest ih =>
    obtain ⟨v2, names⟩ := e
    by_cases h2 : v2 = v
    · subst h2
      rw [List.filter_cons_of_neg (by simp), ih]
      simp [VlanMap.get, Ne.symm h]
    · rw [List.filter_cons_of_pos (by simpa using h2)]
      by_cases h3 : v2 = v1
      · simp [VlanMap.get, h3]
      · simp only [VlanMap.get, h3, if_false]
        exact ih

theorem vlan_get_set_self (m : VlanMap) (v : Int) (names : List String) :
    (m.set v names).get v = names := by
  simp [VlanMap.set, VlanMap.get]

theorem vlan_get_set_ne (m : VlanMap) {v v1 : Int} (names : List String) (h : v1 ≠ v) :
    (m.set v names).get v1 = m.get v1 := by
  have h2 : ¬ v = v1 := fun h3 => h h3.symm
  simp only [VlanMap.set, VlanMap.get, h2, if_false]
  exact vlan_get_filter_ne m h

theorem vlan_mem_keys_set (m : VlanMap) (v x : Int) (names : List String) :
    x ∈ (m.set v names).keys ↔ x = v ∨ x ∈ m.keys := by
  simp only [VlanMap.keys, VlanMap.set, List.mem_dedup, List.map_cons, List.mem_cons,
    List.mem_map, List.mem_filter, decide_eq_true_eq]
  constructor
  · rintro (h | ⟨e, ⟨he, _⟩, rfl⟩)
    · exact Or.inl h
    · exact Or.inr ⟨e, he, rfl⟩
  · rintro (h | ⟨e, he, rfl⟩)
    · exact Or.inl h
    · by_cases hv : e.1 = v
      · exact Or.inl hv
      · exact Or.inr ⟨e, ⟨he, hv⟩, rfl⟩

/-- The loop of `CheckVlanSame` from any map built so far, when every name resolves
and every `Get` is served: the names are appended, in order, to the list of their
vlan, and the only new keys are the vlans of the names. -/
theorem CheckVlanSame_loop_spec (o : Oracle) (hget : ∀ j, o.getErr j = none) (names : List String) :
    ∀ (k : Nat) (m : VlanMap) (w : World),
      (∀ n ∈ names, (w.pool n).isSome = true) →
      ∃ m1, (CheckVlanSame.loop o names k m w).1 = .ok m1
        ∧ (∀ v, m1.get v = m.get v ++ names.filter (fun n => decide (vlanOf w n = some v)))
        ∧ (∀ v, v ∈ m1.keys ↔ v ∈ m.keys ∨ ∃ n ∈ names, vlanOf w n = some v)
        ∧ (CheckVlanSame.loop o names k m w).2.pools = w.pools
        ∧ (CheckVlanSame.loop o names k m w).2.writes = w.writes := by
  induction names with
  | nil =>
    intro k m w _
    exact ⟨m, rfl, by simp, by simp, rfl, rfl⟩
  | cons n rest ih =>
    intro k m w hres
    obtain ⟨p, hp⟩ := Option.isSome_iff_exists.1 (hres n (List.mem_cons_self _ _))
    have hg : GetIPPoolByName o k w n = (.ok p, ⟨w.pools, w.reservedIPs, w.log ++ [Op.get n]⟩) :=
      Prod.ext ((GetIPPoolByName_ok o k w n p).2 ⟨hget k, hp⟩) (GetIPPoolByName_world o k w n)
    have hvn : vlanOf w n = some p.Spec.Vlan := by simp [vlanOf, hp]
    obtain ⟨m1, h1, h2, h3, h4, h5⟩ := ih (k + 1)
      (m.set p.Spec.Vlan (m.get p.Spec.Vlan ++ [n]))
      ⟨w.pools, w.reservedIPs, w.log ++ [Op.get n]⟩
      (fun n1 hn1 => hres n1 (List.mem_cons_of_mem _ hn1))
    have hloop : CheckVlanSame.loop o (n :: rest) k m w
        = CheckVlanSame.loop o rest (k + 1) (m.set p.Spec.Vlan (m.get p.Spec.Vlan ++ [n]))
            ⟨w.pools, w.reservedIPs, w.log ++ [Op.get n]⟩ := by
      rw [CheckVlanSame.loop, hg]
    rw [hloop]
    refine ⟨m1, h1, ?_, ?_, h4, ?_⟩
    · intro v
      rw [h2 v]
      have hsame : ∀ n1, vlanOf ⟨w.pools, w.reservedIPs, w.log ++ [Op.get n]⟩ n1 = vlanOf w n1 :=
        fun _ => rfl
      simp only [hsame]
      by_cases hv : p.Spec.Vlan = v
      · subst hv
        rw [vlan_get_set_self, List.filter_cons_of_pos (by simpa using hvn)]
        simp
      · have hv2 : v ≠ p.Spec.Vlan := fun h => hv h.symm
        rw [vlan_get_set_ne m _ hv2, List.filter_cons_of_neg (by simpa [hvn] using hv)]
    · intro v
      rw [h3 v, vlan_mem_keys_set]
      have hsame : ∀ n1, vlanOf ⟨w.pools, w.reservedIPs, w.log ++ [Op.get n]⟩ n1 = vlanOf w n1 :=
        fun _ => rfl
      simp only [hsame]
      constructor
      · rintro ((hv | hk) | ⟨n1, hn1, hv1⟩)
        · exact Or.inr ⟨n, List.mem_cons_self _ _, by rw [hvn, hv]⟩
        · exact Or.inl hk
        · exact Or.inr ⟨n1, List.mem_cons_of_mem _ hn1, hv1⟩
      · rintro (hk | ⟨n1, hn1, hv1⟩)
        · exact Or.inl (Or.inr hk)
        · rcases List.mem_cons.1 hn1 with h | h
          · subst h
            rw [hvn] at hv1
            exact Or.inl (Or.inl (Option.some.inj hv1).symm)
          · exact Or.inr ⟨n1, h, hv1⟩
    · rw [h5]
      simp [World.writes, List.countP_append, List.countP_cons, Op.isStatusUpdate]


/-- C14, as amended.  Let every listed pool name resolve in the store (the empty list
and repeated names included) and let every `Get` be served.  `CheckVlanSame`
returns a map and a boolean: the map sends each vlan `v` to the listed names whose
pool has vlan `v`, in input order; its keys are the vlans observed, so their number
is the number of distinct vlans observed; and the boolean is true if and only if
that number is at most one.  The store is not written. -/
theorem CheckVlanSame_groups (o : Oracle) (w : World) (poolNameList : List String)
    (hres : ∀ n ∈ poolNameList, (w.pool n).isSome = true) (hget : ∀ j, o.getErr j = none) :
    ∃ m b, (CheckVlanSame o w poolNameList).1 = .ok (m, b)
      ∧ (∀ v, m.get v = poolNameList.filter (fun n => decide (vlanOf w n = some v)))
      ∧ (∀ v, v ∈ m.keys ↔ ∃ n ∈ poolNameList, vlanOf w n = some v)
      ∧ m.len = ((poolNameList.filterMap (vlanOf w)).dedup).length
      ∧ (b = true ↔ m.len ≤ 1)
      ∧ (CheckVlanSame o w poolNameList).2.pools = w.pools
      ∧ (CheckVlanSame o w poolNameList).2.writes = w.writes := by
  obtain ⟨m, h1, h2, h3, h4, h5⟩ := CheckVlanSame_loop_spec o hget poolNameList 0 [] w hres
  have hkeys : ∀ v, v ∈ m.keys ↔ ∃ n ∈ poolNameList, vlanOf w n = some v := by
    intro v
    rw [h3 v]
    simp [VlanMap.keys]
  have hlen : m.len = ((poolNameList.filterMap (vlanOf w)).dedup).length := by
    have hk : m.keys.Nodup := List.nodup_dedup _
    unfold VlanMap.len
    rw [← List.toFinset_card_of_nodup hk,
      ← List.toFinset_card_of_nodup (List.nodup_dedup (poolNameList.filterMap (vlanOf w)))]
    congr 1
    ext v
    rw [List.mem_toFinset, List.mem_toFinset, List.mem_dedup, List.mem_filterMap]
    exact hkeys v
  have hloop : CheckVlanSame.loop o poolNameList 0 [] w
      = (.ok m, (CheckVlanSame.loop o poolNameList 0 [] w).2) := Prod.ext h1 rfl
  by_cases hgt : m.len > 1
  · refine ⟨m, false, ?_, ?_, hkeys, hlen, ?_, ?_, ?_⟩
    · unfold CheckVlanSame
      rw [hloop]
      simp [hgt]
    · intro v
      simpa [VlanMap.get] using h2 v
    · simp
      omega
    · unfold CheckVlanSame
      rw [hloop]
      simpa [hgt] using h4
    · unfold CheckVlanSame
      rw [hloop]
      simpa [hgt] using h5
  · refine ⟨m, true, ?_, ?_, hkeys, hlen, ?_, ?_, ?_⟩
    · unfold CheckVlanSame
      rw [hloop]
      simp [hgt]
    · intro v
      simpa [VlanMap.get] using h2 v
    · simp
      omega
    · unfold CheckVlanSame
      rw [hloop]
      simpa [hgt] using h4
    · unfold CheckVlanSame
      rw [hloop]
      simpa [hgt] using h5

/-- Witness of C14 as amended (the spec's scenario 6): the pools `A`, `B`, `C` have the
vlans 100, 100 and 200; the map is `{100: [A, B], 200: [C]}` and the boolean is
false. -/
theorem CheckVlanSame_groups_witness :
    (CheckVlanSame quiet exVlanWorld ["A", "B", "C"]).1
        = .ok ([(200, ["C"]), (100, ["A", "B"])], false)
    ∧ ∃ m b, (CheckVlanSame quiet exVlanWorld ["A", "B", "C"]).1 = .ok (m, b)
      ∧ (∀ v, m.get v
          = ["A", "B", "C"].filter (fun n => decide (vlanOf exVlanWorld n = some v)))
      ∧ (∀ v, v ∈ m.keys ↔ ∃ n ∈ ["A", "B", "C"], vlanOf exVlanWorld n = some v)
      ∧ m.len = (((["A", "B", "C"] : List String).filterMap (vlanOf exVlanWorld)).dedup).length
      ∧ (b = true ↔ m.len ≤ 1)
      ∧ (CheckVlanSame quiet exVlanWorld ["A", "B", "C"]).2.pools = exVlanWorld.pools
      ∧ (CheckVlanSame quiet exVlanWorld ["A", "B", "C"]).2.writes = exVlanWorld.writes :=
  ⟨by decide,
    CheckVlanSame_groups quiet exVlanWorld ["A", "B", "C"] (by decide) (fun _ => rfl)⟩

/-- Counterexample to C14 as stated: for the empty list of pool names `CheckVlanSame`
returns the empty map and the boolean true, although no vlan is observed: the
boolean is true and the number of keys of the map is 0, not 1. -/
theorem CheckVlanSame_empty_list_true :
    (CheckVlanSame quiet exVlanWorld []).1 = .ok ([], true)
    ∧ VlanMap.len [] = 0
    ∧ ¬ ((true = true) ↔ VlanMap.len [] = 1) := by
  refine ⟨by decide, by decide, by decide⟩


/-! ## UpdateAllocatedIPs after a successful write -/

/-- With a retry budget of at least one, a first attempt of `UpdateAllocatedIPs` whose
status write succeeds is followed by the `Get` of a second attempt; when that `Get`
fails with `e`, the call returns `e` although the write is applied. -/
theorem UpdateAllocatedIPs_get_after_write (im : Manager) (o : Oracle) (w : World)
    (containerID : String) (pod : Pod) (oldIPConfig : IPConfig) (p : SpiderIPPool)
    (m : GoMap PoolIPAllocation) (e : Err)
    (hN : 1 ≤ im.config.MaxConflictRetries) (hp : w.pool oldIPConfig.IPPool = some p)
    (hm : p.Status.AllocatedIPs = some m)
    (hdiff : ∀ a, lookupAllocated p (cutSlash oldIPConfig.Address) = some a →
      a.ContainerID ≠ containerID)
    (hget0 : o.getErr 0 = none) (hupd0 : o.updateErr 0 = none) (hget1 : o.getErr 1 = some e) :
    UpdateAllocatedIPs im o w containerID pod oldIPConfig
      = (.err e,
        ⟨setStatus w.pools (reboundPool p m containerID pod oldIPConfig), w.reservedIPs,
          w.log ++ [Op.get oldIPConfig.IPPool,
            Op.statusUpdate (reboundPool p m containerID pod oldIPConfig),
            Op.get oldIPConfig.IPPool]⟩) := by
  have hlast : ((im.config.MaxConflictRetries + 1).toNat : Int)
      = im.config.MaxConflictRetries + 1 := Int.toNat_of_nonneg (by omega)
  obtain ⟨fuel, hfuel⟩ : ∃ fuel, (im.config.MaxConflictRetries + 1).toNat = fuel + 1 + 1 :=
    ⟨(im.config.MaxConflictRetries + 1).toNat - 2, by omega⟩
  have hb0 : UpdateAllocatedIPs.body im o containerID pod oldIPConfig 0 () w
      = (.cont (),
        ⟨setStatus w.pools (reboundPool p m containerID pod oldIPConfig), w.reservedIPs,
          w.log ++ [Op.get oldIPConfig.IPPool,
            Op.statusUpdate (reboundPool p m containerID pod oldIPConfig)]⟩) := by
    rcases UpdateAllocatedIPs_body_spec im o containerID pod oldIPConfig 0 () w with
      ⟨e1, hge, _⟩ | ⟨p1, _, hp1, ⟨a1, ha1, hc1, _⟩ | ⟨_, ⟨hnil, _⟩ |
        ⟨m1, hm1, ⟨e1, hu, _⟩ | ⟨_, hb⟩⟩⟩⟩
    · rcases hge with h | ⟨_, h⟩
      · rw [hget0] at h; cases h
      · rw [hp] at h; cases h
    · rw [hp] at hp1
      cases hp1
      exact absurd hc1 (hdiff a1 ha1)
    · rw [hp] at hp1
      cases hp1
      rw [hm] at hnil
      cases hnil
    · rw [hupd0] at hu
      cases hu
    · rw [hp] at hp1
      cases hp1
      rw [hm] at hm1
      cases hm1
      exact hb
  have hb1 : ∀ w1 : World, UpdateAllocatedIPs.body im o containerID pod oldIPConfig 1 () w1
      = (.ret (.err e), ⟨w1.pools, w1.reservedIPs, w1.log ++ [Op.get oldIPConfig.IPPool]⟩) := by
    intro w1
    simp [UpdateAllocatedIPs.body, GetIPPoolByName, hget1]
  unfold UpdateAllocatedIPs
  rw [hfuel]
  unfold retryLoop
  rw [hb0]
  simp only []
  unfold retryLoop
  rw [hb1]
  simp

/-- C15, the code at the failing input.  The record of `10.0.0.1` is rebound from
container `c1` to container `new` with a retry budget of three.  When every store
call succeeds, the successful status write of the first attempt is followed by one
more `Get`.  When that `Get` fails, the call returns its error although the write
is applied: the store holds the rebound record. -/
theorem UpdateAllocatedIPs_continues_after_success :
    (UpdateAllocatedIPs exIM quiet exWorld "new" exPod (exConfig "10.0.0.1/24")).1 = .ok ()
    ∧ (UpdateAllocatedIPs exIM quiet exWorld "new" exPod (exConfig "10.0.0.1/24")).2.log
        = [Op.get "pool",
            Op.statusUpdate (reboundPool exPool [("10.0.0.1", exAlloc "c1" "p1")] "new" exPod
              (exConfig "10.0.0.1/24")),
            Op.get "pool"]
    ∧ (getFailsAt 1).updateErr 0 = none
    ∧ (UpdateAllocatedIPs exIM (getFailsAt 1) exWorld "new" exPod (exConfig "10.0.0.1/24")).1
        = .err (Err.other "store unavailable")
    ∧ (UpdateAllocatedIPs exIM (getFailsAt 1) exWorld "new" exPod (exConfig "10.0.0.1/24")).2.log
        = [Op.get "pool",
            Op.statusUpdate (reboundPool exPool [("10.0.0.1", exAlloc "c1" "p1")] "new" exPod
              (exConfig "10.0.0.1/24")),
            Op.get "pool"]
    ∧ (UpdateAllocatedIPs exIM (getFailsAt 1) exWorld "new" exPod
          (exConfig "10.0.0.1/24")).2.pool "pool"
        = some (reboundPool exPool [("10.0.0.1", exAlloc "c1" "p1")] "new" exPod
            (exConfig "10.0.0.1/24")) := by
  refine ⟨by decide, by decide, by decide, by decide, by decide, by decide⟩

end Spiderpool
